import Mathlib

/-!
# Panel layout and interaction engine (`interface_panel.c`)

A shallow embedding of the panel code of `source/blender/editors/interface/interface_panel.c`
and machine-checked statements about it.

Conventions of the embedding

* `ListBase` lists are Lean lists; a pointer into a list is a position in it.
* `short`/`int` bit-fields are natural numbers holding the bit pattern; `value & flag`,
  `value |= flag` and `value &= ~flag` are `flagTest`, `flagSet` and `flagClear`.
* `int` coordinates and sort keys are integers; signed overflow is undefined in C and is
  not modelled, except for the sort key that `UI_panel_add_instanced_ex` computes, which is
  reduced to the range of an `int` by `int_wrap`.
* The casts of `int` offsets to `float` in `uiAlignPanelStep` are `float_of_int`, the
  nearest binary32 value.
* Names of panel types, contexts and categories are strings.
* Drawing, translation of labels and redraw tagging have no effect on the state that is
  modelled and are left out.
-/

namespace UIPanel

/-! ## Bit-fields -/

/-- The C truth value of `value & flag`. -/
def flagTest (value flag : Nat) : Bool := (value &&& flag) != 0

/-- The C assignment `value |= flag`. -/
def flagSet (value flag : Nat) : Nat := value ||| flag

/-- The C assignment `value &= ~flag`: every bit of `flag` is removed from `value`. -/
def flagClear (value flag : Nat) : Nat := value ^^^ (value &&& flag)

/-- The macro `SET_FLAG_FROM_TEST(value, test, flag)`:
`if (test) value |= flag; else value &= ~flag;`. -/
def SET_FLAG_FROM_TEST (value : Nat) (test : Bool) (flag : Nat) : Nat :=
  if test then flagSet value flag else flagClear value flag

/-! ### `uiPanelRuntimeFlag` (defined in the source file) -/

def PANEL_LAST_ADDED : Nat := 1 <<< 0
def PANEL_ACTIVE : Nat := 1 <<< 2
def PANEL_WAS_ACTIVE : Nat := 1 <<< 3
def PANEL_ANIM_ALIGN : Nat := 1 <<< 4
def PANEL_NEW_ADDED : Nat := 1 <<< 5
def PANEL_SEARCH_FILTER_MATCH : Nat := 1 <<< 7

/-! ### Flags declared in headers outside the source files -/

/-- Modelled from the spec: the `Panel.flag` bit "selected/dragging" (`PNL_SELECT`,
declared in `DNA_screen_types.h`, which is not among the source files). -/
def PNL_SELECT : Nat := 1 <<< 0

/-- Modelled from the spec: the `Panel.flag` bit "closed" (`PNL_CLOSED`, declared in
`DNA_screen_types.h`, which is not among the source files). -/
def PNL_CLOSED : Nat := 1 <<< 2

/-- Modelled from the spec: the `Panel.flag` bit "pinned" (`PNL_PIN`, declared in
`DNA_screen_types.h`, which is not among the source files). -/
def PNL_PIN : Nat := 1 <<< 5

/-- Modelled from the spec: the `Panel.flag` bit "list-order-changed"
(`PNL_INSTANCED_LIST_ORDER_CHANGED`, declared in `DNA_screen_types.h`, which is not among
the source files). -/
def PNL_INSTANCED_LIST_ORDER_CHANGED : Nat := 1 <<< 7

/-- Modelled from the spec: the `Panel.snap` bit for the bottom edge (`PNL_SNAP_BOTTOM`,
declared in `DNA_screen_types.h`, which is not among the source files). -/
def PNL_SNAP_BOTTOM : Nat := 1 <<< 2

/-- Modelled from the spec: the `PanelType.flag` bit "default-closed"
(`PNL_DEFAULT_CLOSED`, declared in `BKE_screen.h`, which is not among the source files). -/
def PNL_DEFAULT_CLOSED : Nat := 1 <<< 0

/-- Modelled from the spec: the `PanelType.flag` bit "no-header" (`PNL_NO_HEADER`,
declared in `BKE_screen.h`, which is not among the source files). -/
def PNL_NO_HEADER : Nat := 1 <<< 1

/-- Modelled from the spec: the `PanelType.flag` bit "instanced" (`PNL_INSTANCED`,
declared in `BKE_screen.h`, which is not among the source files). -/
def PNL_INSTANCED : Nat := 1 <<< 4

/-- Modelled from the spec: the `PanelType.flag` bit "draw-as-box" (`PNL_DRAW_BOX`,
declared in `BKE_screen.h`, which is not among the source files). -/
def PNL_DRAW_BOX : Nat := 1 <<< 6

/-! ## Data model -/

/-- The capability descriptor `PanelType`: the fields the panel code reads.
`has_parent` is `parent != NULL`. -/
structure PanelType where
  idname : String
  context : String
  category : String
  flag : Nat
  has_parent : Bool
  children : List PanelType

/-- The states of `uiHandlePanelState`. -/
inductive uiHandlePanelState where
  | PANEL_STATE_DRAG
  | PANEL_STATE_DRAG_SCALE
  | PANEL_STATE_WAIT_UNTAB
  | PANEL_STATE_ANIMATION
  | PANEL_STATE_EXIT
deriving DecidableEq, Repr

/-- The interaction data `uiHandlePanelData`. A timer is named by its handle; the time
stamp and the two view coordinates are only stored, never computed with, and are kept as
integers. -/
structure uiHandlePanelData where
  state : uiHandlePanelState
  animtimer : Option Nat
  starttime : Int
  is_drag_drop : Bool
  startx : Int
  starty : Int
  startofsx : Int
  startofsy : Int
  startsizex : Int
  startsizey : Int
  start_cur_xmin : Int
  start_cur_ymin : Int
deriving DecidableEq, Repr

/-- The `Panel` record. `ptr` is the address of the record, by which window handlers refer
to it; `region_ofsx` and `custom_data_ptr` are the members of `Panel.runtime`. -/
structure Panel where
  ptr : Nat
  type : Option PanelType
  panelname : String
  ofsx : Int
  ofsy : Int
  sizex : Int
  sizey : Int
  blocksizex : Int
  blocksizey : Int
  flag : Nat
  runtime_flag : Nat
  sortorder : Int
  snap : Nat
  activedata : Option uiHandlePanelData
  region_ofsx : Int
  custom_data_ptr : Option Nat
  children : List Panel

/-- The test `panel->type && (panel->type->flag & flag)`. -/
def Panel.type_has (panel : Panel) (flag : Nat) : Bool :=
  match panel.type with
  | some pt => flagTest pt.flag flag
  | none => false

/-- A category tab `PanelCategoryDyn`: its identifier and the horizontal extent of its
screen rectangle (an `rcti`). -/
structure PanelCategoryDyn where
  idname : String
  rect_xmin : Int
  rect_xmax : Int

/-- An entry `PanelCategoryStack` of the active-category stack. -/
structure PanelCategoryStack where
  idname : String

/-- The region data the panel code works on: the top-level panels, the category tabs,
the active-category stack, the alignment word and the panel types of the region type
(`region->type->paneltypes`). -/
structure ARegion where
  panels : List Panel
  panels_category : List PanelCategoryDyn
  panels_category_active : List PanelCategoryStack
  alignment : Nat
  paneltypes : List PanelType

/-- Modelled from the spec: the interface metrics, "a fixed header height", the
"inter-panel box-style margin", the "fixed region-category-tab margin" and the "fixed
icon unit". The macros `PNL_HEADER`, `UI_PANEL_BOX_STYLE_MARGIN`,
`UI_PANEL_CATEGORY_MARGIN_WIDTH` and `UI_UNIT_X` (the value of `PNL_ICON`) are declared in
headers outside the source files and derive from the widget unit of the session; the
embedding takes the values they contribute to the `int` results as integer parameters. -/
structure Metrics where
  PNL_HEADER : Int
  UI_PANEL_BOX_STYLE_MARGIN : Int
  UI_PANEL_CATEGORY_MARGIN_WIDTH : Int
  PNL_ICON : Int

/-- Modelled from the spec: the alignment value "right-aligned" (`RGN_ALIGN_RIGHT`,
declared in `DNA_screen_types.h`, which is not among the source files). -/
def RGN_ALIGN_RIGHT : Nat := 4

/-- Modelled from the spec: the macro `RGN_ALIGN_ENUM_FROM_MASK` (declared in
`DNA_screen_types.h`, which is not among the source files), which keeps the alignment
value and drops the option bits above it. -/
def RGN_ALIGN_ENUM_FROM_MASK (align : Nat) : Nat := align &&& ((1 <<< 4) - 1)

/-! ## `UI_panel_begin` -/

/-- The record `UI_panel_begin` allocates for a new panel: `MEM_callocN` zeroes it, then
type, name, the default-closed flag and the newly-added runtime flag are set. `newptr` is
the address returned by the allocator. -/
def UI_panel_begin_new (pt : PanelType) (newptr : Nat) : Panel :=
  { ptr := newptr
    type := some pt
    panelname := pt.idname
    ofsx := 0
    ofsy := 0
    sizex := 0
    sizey := 0
    blocksizex := 0
    blocksizey := 0
    flag := if flagTest pt.flag PNL_DEFAULT_CLOSED then flagSet 0 PNL_CLOSED else 0
    runtime_flag := flagSet 0 PANEL_NEW_ADDED
    sortorder := 0
    snap := 0
    activedata := none
    region_ofsx := 0
    custom_data_ptr := none
    children := [] }

/-- The guard "Do not allow closed panels without headers!" of `UI_panel_begin`. -/
def UI_panel_begin_force_open (pt : PanelType) (panel : Panel) : Panel :=
  if flagTest pt.flag PNL_NO_HEADER && flagTest panel.flag PNL_CLOSED then
    { panel with
      flag := flagClear panel.flag PNL_CLOSED
      sizex := 0
      sizey := 0
      blocksizex := 0
      blocksizey := 0 }
  else panel

/-- The library routine `BLI_insertlinkafter(lb, prev, new)` on a list from which `new` has
been unlinked: `new` is placed right behind the element at position `prev`. -/
def BLI_insertlinkafter (lb : List Panel) (prev : Nat) (new : Panel) : List Panel :=
  lb.take (prev + 1) ++ new :: lb.drop (prev + 1)

/-- The loop `panel_next->sortorder++` of `UI_panel_begin` for one sibling of the new
panel, whose sort key is `sortorder`. -/
def UI_panel_begin_bump (sortorder : Int) (panel_next : Panel) : Panel :=
  if panel_next.sortorder ≥ sortorder then
    { panel_next with sortorder := panel_next.sortorder + 1 }
  else panel_next

/-- What a call of `UI_panel_begin` leaves behind: the sibling list `lb`, the returned
panel (also stored in `block->panel`) and the value written to `*r_open`. -/
structure BeginResult where
  lb : List Panel
  panel : Panel
  r_open : Bool

/-- The function `UI_panel_begin(region, lb, block, pt, panel, r_open)`.

`panel` is `none` for the `NULL` argument and otherwise the position in `lb` of the
existing panel. The embedding keeps the panel record and the list `others` of its
siblings apart and links the panel in at the end:

* `pos` is the number of siblings in front of the panel (a new panel is added at the tail);
* `found` is the position, in the list with the panel in it, of the first panel carrying
  `PANEL_LAST_ADDED` (the `for` loop over `panel_last`);
* when `found` is the panel itself, `BLI_remlink` followed by `BLI_insertlinkafter` of the
  panel behind itself leaves the panel outside the list, unless it was the only element;
* otherwise `last` is the position of `panel_last` among the siblings and the panel is
  linked in right behind it.

The region and the block only receive the theme style and the panel pointer. -/
def UI_panel_begin (lb : List Panel) (pt : PanelType) (panel : Option (Fin lb.length))
    (newptr : Nat) : BeginResult :=
  let newpanel : Bool := panel.isNone
  let others : List Panel :=
    match panel with
    | none => lb
    | some i => lb.eraseIdx i.val
  let pos : Nat :=
    match panel with
    | none => lb.length
    | some i => i.val
  let p0 : Panel :=
    match panel with
    | none => UI_panel_begin_new pt newptr
    | some i => { lb.get i with type := some pt }
  let p1 : Panel := UI_panel_begin_force_open pt p0
  let marked : Panel → Bool := fun q => flagTest q.runtime_flag PANEL_LAST_ADDED
  let found : Option Nat := (others.take pos ++ p1 :: others.drop pos).findIdx? marked
  if found = some pos then
    -- `panel_last == panel`
    let p2 : Panel :=
      { p1 with
        runtime_flag :=
          flagSet (flagClear p1.runtime_flag PANEL_LAST_ADDED)
            (PANEL_ACTIVE ||| PANEL_LAST_ADDED) }
    { lb := if others.isEmpty then [p2] else others
      panel := p2
      r_open := !flagTest p2.flag PNL_CLOSED }
  else
    let last : Option Nat := found.map (fun j => if pos < j then j - 1 else j)
    let sortorder : Int :=
      if newpanel then
        match last.bind (fun j => others.get? j) with
        | some panel_last => panel_last.sortorder + 1
        | none => 0
      else p1.sortorder
    let others1 : List Panel :=
      if newpanel then others.map (UI_panel_begin_bump sortorder) else others
    let others2 : List Panel :=
      match last with
      | some j =>
        others1.modify
          (fun q => { q with runtime_flag := flagClear q.runtime_flag PANEL_LAST_ADDED }) j
      | none => others1
    let p2 : Panel :=
      { p1 with
        sortorder := sortorder
        runtime_flag := flagSet p1.runtime_flag (PANEL_ACTIVE ||| PANEL_LAST_ADDED) }
    { lb :=
        match last with
        | some j => BLI_insertlinkafter others2 j p2
        | none => others2.take pos ++ p2 :: others2.drop pos
      panel := p2
      r_open := !flagTest p2.flag PNL_CLOSED }

/-! ## Panel alignment -/

/-- The function `UI_panel_category_is_visible`: more than one category tab. -/
def UI_panel_category_is_visible (region : ARegion) : Bool :=
  match region.panels_category with
  | [] => false
  | [_] => false
  | _ :: _ :: _ => true

/-- The function `panel_region_offset_x_get`, as the `int` its callers store. -/
def panel_region_offset_x_get (m : Metrics) (region : ARegion) : Int :=
  if UI_panel_category_is_visible region then
    if RGN_ALIGN_ENUM_FROM_MASK region.alignment ≠ RGN_ALIGN_RIGHT then
      m.UI_PANEL_CATEGORY_MARGIN_WIDTH
    else 0
  else 0

/-- The function `get_panel_size_y`. -/
def get_panel_size_y (m : Metrics) (panel : Panel) : Int :=
  if panel.type_has PNL_NO_HEADER then panel.sizey else m.PNL_HEADER + panel.sizey

/-- The function `get_panel_real_size_y`. -/
def get_panel_real_size_y (m : Metrics) (panel : Panel) : Int :=
  let sizey : Int := if flagTest panel.flag PNL_CLOSED then 0 else panel.sizey
  if panel.type_has PNL_NO_HEADER then sizey else m.PNL_HEADER + sizey

/-- The function `get_panel_real_ofsy`. -/
def get_panel_real_ofsy (panel : Panel) : Int :=
  if flagTest panel.flag PNL_CLOSED then panel.ofsy + panel.sizey else panel.ofsy

/-- An element of the `panel_sort` array. `index` is the position in `region->panels` of
the panel the element points to and `panel` the record at that address. -/
structure PanelSort where
  index : Nat
  panel : Panel
  new_offset_x : Int
  new_offset_y : Int

/-- The comparison function `find_highest_panel`. -/
def find_highest_panel (a b : PanelSort) : Int :=
  if a.panel.type_has PNL_NO_HEADER then -1
  else if b.panel.type_has PNL_NO_HEADER then 1
  else if a.panel.ofsy + a.panel.sizey < b.panel.ofsy + b.panel.sizey then 1
  else if a.panel.ofsy + a.panel.sizey > b.panel.ofsy + b.panel.sizey then -1
  else if a.panel.sortorder > b.panel.sortorder then 1
  else if a.panel.sortorder < b.panel.sortorder then -1
  else 0

/-- The comparison function `compare_panel`. -/
def compare_panel (a b : PanelSort) : Int :=
  if a.panel.sortorder > b.panel.sortorder then 1
  else if a.panel.sortorder < b.panel.sortorder then -1
  else 0

/-- The C library routine `qsort` with comparison function `cmp`, as an insertion sort:
an element goes in front of the first one it does not compare greater than. When no two
elements compare equal, every sorting routine returns this arrangement. -/
def qsort (cmp : PanelSort → PanelSort → Int) (base : List PanelSort) : List PanelSort :=
  base.insertionSort (fun a b => cmp a b ≤ 0)

/-- The interpolation factor, a `float` in the source: the ratio `num / den` of two
naturals (every finite `float` is such a ratio); `1.0` is `1 / 1`. -/
structure Factor where
  num : Nat
  den : Nat

/-- The distance between neighbouring `float` values (IEEE 754 binary32, 24 significant
bits) at the magnitude `a`: 1 below 2^24, and doubled with every further bit of `a`. `fuel`
bounds the number of doublings; 8 is enough for the magnitude of every `int`. -/
def float_spacing : Nat → Nat → Nat
  | 0, _ => 1
  | fuel + 1, a => if a < 2 ^ 24 then 1 else 2 * float_spacing fuel (a / 2)

/-- The cast `(float)v` of an `int`: the value of the nearest `float`, and of the one with
the even significand when `v` lies half-way between two. An integer of at most 2^24 in
magnitude is its own cast; `(float)(-16777217)` is -16777216. -/
def float_of_int (v : Int) : Int :=
  let a : Nat := v.natAbs
  let spacing : Nat := float_spacing 8 a
  let q : Nat := a / spacing
  let r : Nat := a % spacing
  let nearest : Nat :=
    if 2 * r > spacing ∨ (2 * r = spacing ∧ q % 2 = 1) then (q + 1) * spacing
    else q * spacing
  if v < 0 then -(nearest : Int) else (nearest : Int)

/-- Whether an integer is less than 2^23 in magnitude. Such an integer is its own cast to
`float`, and a `float` of that magnitude also holds the half-way points between the
integers, so that it is rounded back to the same `int` in whichever way `round_fl_to_int`
is written. -/
def float_exact (v : Int) : Bool := decide (-8388608 < v) && decide (v < 8388608)

/-- Modelled from the spec: `round_fl_to_int(interpf(target, origin, factor))` for two
`float` arguments that hold the integers `target` and `origin`, "linear interpolation,
rounding to the nearest integer unit; a factor of 1.0 snaps exactly to target". The helpers
`interpf` and `round_fl_to_int` are not among the source files; the value is
`floor(factor * target + (1 - factor) * origin + 1/2)` in exact arithmetic: the rounding of
the intermediate `float` results is left out, so that for a factor strictly between 0 and 1
the compiled code can arrive at a neighbouring integer. With factor 1.0 the value is
`target` and with factor 0.0 it is `origin`. This is also what `float` arithmetic gives for
a `float` of less than 2^23 or of at least 2^24 in magnitude; between the two, an odd
integer plus 1/2 lies half-way between two `float` values, and a rounding that adds 1/2
first can arrive at the next integer. -/
def interp_round (target origin : Int) (factor : Factor) : Int :=
  (2 * ((factor.num : Int) * target + ((factor.den : Int) - (factor.num : Int)) * origin)
      + (factor.den : Int)) / (2 * (factor.den : Int))

mutual
/-- The body of `align_sub_panels` for a panel that is first given the offsets `ofsx` and
`ofsy`: it positions the sub-panels below the panel's own content. -/
def align_sub_panels_moved (m : Metrics) (ofsx ofsy : Int) (panel : Panel) : Panel :=
  match panel with
  | ⟨_, _, _, _, _, _, _, _, _, _, _, _, _, _, _, _, children⟩ =>
    { panel with
      ofsx := ofsx
      ofsy := ofsy
      children :=
        if children.isEmpty then children
        else align_sub_panels_loop m ofsx (ofsy + panel.sizey - panel.blocksizey) children }
/-- The loop of `align_sub_panels` over the children, `ofsx` being the parent's offset and
`ofsy` the running lower edge. -/
def align_sub_panels_loop (m : Metrics) (ofsx ofsy : Int) : List Panel → List Panel
  | [] => []
  | pachild :: rest =>
    if flagTest pachild.runtime_flag PANEL_ACTIVE then
      align_sub_panels_moved m ofsx (ofsy - get_panel_size_y m pachild) pachild ::
        align_sub_panels_loop m ofsx (ofsy - get_panel_real_size_y m pachild) rest
    else pachild :: align_sub_panels_loop m ofsx ofsy rest
end

/-- The function `align_sub_panels`. -/
def align_sub_panels (m : Metrics) (panel : Panel) : Panel :=
  { panel with
    children :=
      align_sub_panels_loop m panel.ofsx (panel.ofsy + panel.sizey - panel.blocksizey)
        panel.children }

/-- The loop of `uiAlignPanelStep` that fills `panel_sort` with the active panels of
`region->panels`; `i` is the position of the head of the list. The offsets of a fresh
element are not initialised by the source and are written before they are read. -/
def align_collect (i : Nat) : List Panel → List PanelSort
  | [] => []
  | panel :: rest =>
    if flagTest panel.runtime_flag PANEL_ACTIVE then
      { index := i, panel := panel, new_offset_x := 0, new_offset_y := 0 } ::
        align_collect (i + 1) rest
    else align_collect (i + 1) rest

/-- The loop `panel_sort[i].panel->sortorder = i` of the drag mode, from index `i` on. -/
def align_assign_sortorder (i : Nat) : List PanelSort → List PanelSort
  | [] => []
  | ps :: rest =>
    { ps with panel := { ps.panel with sortorder := (i : Int) } } ::
      align_assign_sortorder (i + 1) rest

/-- One round of the "X offset" loop of `uiAlignPanelStep`. -/
def align_offset_x (m : Metrics) (region_offset_x : Int) (ps : PanelSort) : PanelSort :=
  let use_box : Bool := ps.panel.type_has PNL_DRAW_BOX
  { ps with
    panel := { ps.panel with region_ofsx := region_offset_x }
    new_offset_x := region_offset_x + (if use_box then m.UI_PANEL_BOX_STYLE_MARGIN else 0) }

/-- The "Y offset" loop of `uiAlignPanelStep`, `y` being the running cursor. -/
def align_offset_y (m : Metrics) (y : Int) : List PanelSort → List PanelSort
  | [] => []
  | ps :: rest =>
    let y1 : Int := y - get_panel_real_size_y m ps.panel
    let use_box : Bool := ps.panel.type_has PNL_DRAW_BOX
    let y2 : Int := if use_box then y1 - m.UI_PANEL_BOX_STYLE_MARGIN else y1
    { ps with
      new_offset_y := if flagTest ps.panel.flag PNL_CLOSED then y2 - ps.panel.sizey else y2 } ::
      align_offset_y m y2 rest

/-- One round of the interpolation loop of `uiAlignPanelStep`: the panel the element
points to after the round. The target and the stored offset are cast to `float` before
they are interpolated. -/
def align_interpolate (factor : Factor) (ps : PanelSort) : PanelSort :=
  if flagTest ps.panel.flag PNL_SELECT then ps
  else
    let ofsx : Int :=
      if ps.new_offset_x ≠ ps.panel.ofsx then
        interp_round (float_of_int ps.new_offset_x) (float_of_int ps.panel.ofsx) factor
      else ps.panel.ofsx
    let ofsy : Int :=
      if ps.new_offset_y ≠ ps.panel.ofsy then
        interp_round (float_of_int ps.new_offset_y) (float_of_int ps.panel.ofsy) factor
      else ps.panel.ofsy
    { ps with panel := { ps.panel with ofsx := ofsx, ofsy := ofsy } }

/-- One round of the interpolation loop of `uiAlignPanelStep`: whether the round sets
`changed`. -/
def align_interpolate_changed (ps : PanelSort) : Bool :=
  if flagTest ps.panel.flag PNL_SELECT then false
  else decide (ps.new_offset_x ≠ ps.panel.ofsx) || decide (ps.new_offset_y ≠ ps.panel.ofsy)

/-- The panel at position `i` of `region->panels` after the writes made through the
pointers of `panel_sort`: the record of the element that points to it, if there is one. -/
def align_write_back_panel (panel_sort : List PanelSort) (i : Nat) (panel : Panel) : Panel :=
  match panel_sort.find? (fun ps => ps.index == i) with
  | some ps => ps.panel
  | none => panel

/-- The panels of `region->panels` after the writes made through the pointers of
`panel_sort`; `i` is the position of the head of the list. -/
def align_write_back (panel_sort : List PanelSort) (i : Nat) : List Panel → List Panel
  | [] => []
  | panel :: rest =>
    align_write_back_panel panel_sort i panel :: align_write_back panel_sort (i + 1) rest

/-- One round of the last loop of `uiAlignPanelStep`, "Set locations for tabbed and sub
panels". -/
def align_sub_panels_pass (m : Metrics) (panel : Panel) : Panel :=
  if flagTest panel.runtime_flag PANEL_ACTIVE && !panel.children.isEmpty then
    align_sub_panels m panel
  else panel

/-- The factor `1.0`. -/
def factor_one : Factor := { num := 1, den := 1 }

/-- The function `uiAlignPanelStep(region, factor, drag)`: the value returned and the
region after the call, or `none` when an active panel has no type (the assertion
`panel->type != NULL` fails and the type pointer is dereferenced further down). -/
def uiAlignPanelStep (m : Metrics) (region : ARegion) (factor : Factor) (drag : Bool) :
    Option (Bool × ARegion) :=
  let panel_sort : List PanelSort := align_collect 0 region.panels
  if panel_sort.any (fun ps => ps.panel.type.isNone) then none
  else if panel_sort.length = 0 then some (false, region)
  else
    let sorted : List PanelSort :=
      if drag then align_assign_sortorder 0 (qsort find_highest_panel panel_sort)
      else qsort compare_panel panel_sort
    let region_offset_x : Int := panel_region_offset_x_get m region
    let with_x : List PanelSort := sorted.map (align_offset_x m region_offset_x)
    let with_y : List PanelSort := align_offset_y m 0 with_x
    let changed : Bool := with_y.any align_interpolate_changed
    let moved : List PanelSort := with_y.map (align_interpolate factor)
    let panels : List Panel := align_write_back moved 0 region.panels
    some (changed, { region with panels := panels.map (align_sub_panels_pass m) })

/-! ## Expansion flags of instanced panels -/

/-- The value a `short` holds after an `int` is stored into it: the low 16 bits. -/
def short_of_int (bits : Nat) : Nat := bits % 2 ^ 16

/-- The integer promotion of a `short` to a 32-bit `int`: sign extension of the bit
pattern. -/
def int_of_short (bits : Nat) : Nat :=
  if bits.testBit 15 then bits ||| (2 ^ 32 - 2 ^ 16) else bits

/-- The `int` expression `(1 << flag_index)` as a 32-bit pattern. The shift is defined by
the C standard for indices up to 30 only. -/
def expand_bit (flag_index : Nat) : Nat := (1 <<< flag_index) % 2 ^ 32

mutual
/-- The function `get_panel_expand_flag(panel, flag, flag_index)`: the values of `*flag`
and `*flag_index` after the call. -/
def get_panel_expand_flag (panel : Panel) (flag flag_index : Nat) : Nat × Nat :=
  match panel with
  | ⟨_, _, _, _, _, _, _, _, _, _, _, _, _, _, _, _, children⟩ =>
    let is_open : Bool := !flagTest panel.flag PNL_CLOSED
    get_panel_expand_flag_children children
      (short_of_int (SET_FLAG_FROM_TEST (int_of_short flag) is_open (expand_bit flag_index)))
      flag_index
/-- The loop of `get_panel_expand_flag` over the children. -/
def get_panel_expand_flag_children : List Panel → Nat → Nat → Nat × Nat
  | [], flag, flag_index => (flag, flag_index)
  | child :: rest, flag, flag_index =>
    let r := get_panel_expand_flag child flag (flag_index + 1)
    get_panel_expand_flag_children rest r.1 r.2
end

mutual
/-- The function `panel_set_expand_from_list_data_recursive(panel, flag, flag_index)`:
the panel and the value of `*flag_index` after the call, and the value returned. -/
def panel_set_expand_from_list_data_recursive (panel : Panel) (flag flag_index : Nat) :
    Panel × Nat × Bool :=
  match panel with
  | ⟨_, _, _, _, _, _, _, _, _, _, _, _, _, _, _, _, children⟩ =>
    let is_open : Bool := flagTest (int_of_short flag) (expand_bit flag_index)
    let changed : Bool := is_open == flagTest panel.flag PNL_CLOSED
    let r := panel_set_expand_from_list_data_children children flag flag_index
    ({ panel with
        flag := SET_FLAG_FROM_TEST panel.flag (!is_open) PNL_CLOSED
        children := r.1 },
      r.2.1, changed || r.2.2)
/-- The loop of `panel_set_expand_from_list_data_recursive` over the children. -/
def panel_set_expand_from_list_data_children :
    List Panel → Nat → Nat → List Panel × Nat × Bool
  | [], _, flag_index => ([], flag_index, false)
  | child :: rest, flag, flag_index =>
    let r1 := panel_set_expand_from_list_data_recursive child flag (flag_index + 1)
    let r2 := panel_set_expand_from_list_data_children rest flag r1.2.1
    (r1.1 :: r2.1, r2.2.1, r1.2.2 || r2.2.2)
end

/-! ## Instanced panels and their list data -/

/-- The loop of `UI_panel_list_matches_data` over `region->panels`: `data_link` is the
rest of the data list and `i` the counter; `none` stands for an early `return false`,
otherwise the final value of `i` is returned. -/
def UI_panel_list_matches_data_loop {Link : Type} (panel_idname_func : Link → String) :
    List Panel → List Link → Nat → Option Nat
  | [], _, i => some i
  | panel :: rest, data_link, i =>
    match panel.type with
    | none => UI_panel_list_matches_data_loop panel_idname_func rest data_link i
    | some pt =>
      if flagTest pt.flag PNL_INSTANCED then
        if flagTest panel.flag PNL_INSTANCED_LIST_ORDER_CHANGED then none
        else
          match data_link with
          | [] => none
          | link :: next =>
            if panel_idname_func link ≠ pt.idname then none
            else UI_panel_list_matches_data_loop panel_idname_func rest next (i + 1)
      else UI_panel_list_matches_data_loop panel_idname_func rest data_link i

/-- The function `UI_panel_list_matches_data(region, data, panel_idname_func)`; `data` is
`none` for a `NULL` list. -/
def UI_panel_list_matches_data {Link : Type} (region : ARegion) (data : Option (List Link))
    (panel_idname_func : Link → String) : Bool :=
  let data_len : Nat :=
    match data with
    | none => 0
    | some d => d.length
  let data_link : List Link :=
    match data with
    | none => []
    | some d => d
  match UI_panel_list_matches_data_loop panel_idname_func region.panels data_link 0 with
  | none => false
  | some i => if i ≠ data_len then false else true

/-! ## Category tabs -/

/-- The function `UI_panel_category_find`: the position of the first tab named `idname`. -/
def UI_panel_category_find (region : ARegion) (idname : String) : Option Nat :=
  region.panels_category.findIdx? (fun pc_dyn => pc_dyn.idname == idname)

/-- The function `UI_panel_category_active_find`: the position of the first stack entry
named `idname`. -/
def UI_panel_category_active_find (region : ARegion) (idname : String) : Option Nat :=
  region.panels_category_active.findIdx? (fun pc_act => pc_act.idname == idname)

/-- The function `ui_panel_category_active_set(region, idname, fallback)`. The entries
behind the one just linked in are dropped when no panel type of the region type has their
name as its category. -/
def ui_panel_category_active_set (region : ARegion) (idname : String) (fallback : Bool) :
    ARegion :=
  let lb : List PanelCategoryStack :=
    match UI_panel_category_active_find region idname with
    | some i => region.panels_category_active.eraseIdx i
    | none => region.panels_category_active
  let pc_act : PanelCategoryStack := { idname := idname }
  { region with
    panels_category_active :=
      if fallback then lb ++ [pc_act]
      else
        pc_act ::
          lb.filter (fun pc => region.paneltypes.any (fun pt => pt.category == pc.idname)) }

/-- The function `UI_panel_category_active_set`. -/
def UI_panel_category_active_set (region : ARegion) (idname : String) : ARegion :=
  ui_panel_category_active_set region idname false

/-- The function `UI_panel_category_active_get(region, set_fallback)`: the name returned
(`none` for `NULL`) and the region after the call. -/
def UI_panel_category_active_get (region : ARegion) (set_fallback : Bool) :
    Option String × ARegion :=
  match region.panels_category_active.find?
      (fun pc_act => (UI_panel_category_find region pc_act.idname).isSome) with
  | some pc_act => (some pc_act.idname, region)
  | none =>
    if set_fallback then
      match region.panels_category with
      | pc_dyn :: _ => (some pc_dyn.idname, ui_panel_category_active_set region pc_dyn.idname true)
      | [] => (none, region)
    else (none, region)

/-- Modelled from the spec: the kinds of input event the panel code tells apart (the event
codes of `WM_types.h`, which is not among the source files). -/
inductive EventType where
  | LEFTMOUSE
  | RIGHTMOUSE
  | MOUSEMOVE
  | INBETWEEN_MOUSEMOVE
  | WHEELUPMOUSE
  | WHEELDOWNMOUSE
  | EVT_TABKEY
  | EVT_RETKEY
  | EVT_PADENTER
  | EVT_AKEY
  | TIMER
  | OTHER (code : Nat)
deriving DecidableEq, Repr

/-- The members of `wmEvent` the category code reads. -/
structure wmEvent where
  type : EventType
  ctrl : Bool
  shift : Bool
  mval_x : Int

/-- Modelled from the spec: the handler results `WM_UI_HANDLER_CONTINUE` and
`WM_UI_HANDLER_BREAK` (declared in `WM_types.h`, which is not among the source files). -/
def WM_UI_HANDLER_CONTINUE : Nat := 0

/-- Modelled from the spec: see `WM_UI_HANDLER_CONTINUE`. -/
def WM_UI_HANDLER_BREAK : Nat := 1

/-- The function `ui_handle_panel_category_cycling(event, region, active_but)`: the value
returned and the region after the call. `active_but_cycles` is the value of
`active_but && ui_but_supports_cycling(active_but)`. The source reads the rectangle of the
first tab without a test; the function is only called when tabs are visible. -/
def ui_handle_panel_category_cycling (event : wmEvent) (region : ARegion)
    (active_but_cycles : Bool) : Nat × ARegion :=
  let is_mousewheel : Bool :=
    event.type = EventType.WHEELUPMOUSE || event.type = EventType.WHEELDOWNMOUSE
  let inside_tabregion : Bool :=
    match region.panels_category with
    | [] => false
    | first :: _ =>
      if RGN_ALIGN_ENUM_FROM_MASK region.alignment ≠ RGN_ALIGN_RIGHT then
        decide (event.mval_x < first.rect_xmax)
      else decide (event.mval_x > first.rect_xmin)
  if is_mousewheel && !event.ctrl && !inside_tabregion then (WM_UI_HANDLER_CONTINUE, region)
  else if active_but_cycles then (WM_UI_HANDLER_CONTINUE, region)
  else
    match (UI_panel_category_active_get region false).1 with
    | none => (WM_UI_HANDLER_BREAK, region)
    | some category =>
      match UI_panel_category_find region category with
      | none => (WM_UI_HANDLER_BREAK, region)
      | some i =>
        let next : Option PanelCategoryDyn := region.panels_category.get? (i + 1)
        let prev : Option PanelCategoryDyn :=
          if i = 0 then none else region.panels_category.get? (i - 1)
        let pc_dyn : Option PanelCategoryDyn :=
          if is_mousewheel then
            if event.type = EventType.WHEELDOWNMOUSE then next else prev
          else
            let backwards : Bool := event.shift
            match (if backwards then prev else next) with
            | some pc => some pc
            | none =>
              if backwards then region.panels_category.getLast? else region.panels_category.head?
        match pc_dyn with
        | some pc => (WM_UI_HANDLER_BREAK, UI_panel_category_active_set region pc.idname)
        | none => (WM_UI_HANDLER_BREAK, region)

/-! ## Panel flags and the interaction state machine -/

mutual
/-- The function `panel_set_flag_recursive(panel, flag, value)`: the panel after the call
and the value returned. -/
def panel_set_flag_recursive (panel : Panel) (flag : Nat) (value : Bool) : Panel × Bool :=
  match panel with
  | ⟨_, _, _, _, _, _, _, _, _, _, _, _, _, _, _, _, children⟩ =>
    let flag_original : Nat := panel.flag
    let flag_new : Nat := SET_FLAG_FROM_TEST panel.flag value flag
    let r := panel_set_flag_recursive_children children flag value
    ({ panel with flag := flag_new, children := r.1 }, (flag_original != flag_new) || r.2)
/-- The loop of `panel_set_flag_recursive` over the children. -/
def panel_set_flag_recursive_children : List Panel → Nat → Bool → List Panel × Bool
  | [], _, _ => ([], false)
  | child :: rest, flag, value =>
    let r1 := panel_set_flag_recursive child flag value
    let r2 := panel_set_flag_recursive_children rest flag value
    (r1.1 :: r2.1, r1.2 || r2.2)
end

/-- A handler of the window's `modalhandlers` list: a UI handler of a panel
(`ui_handler_panel` with `ui_handler_remove_panel`, its user data being the address of the
panel), the drag-collapse handler with its user data, or any other handler. -/
inductive wmEventHandler where
  | ui_handler_panel (user_data : Nat)
  | ui_panel_drag_collapse_handler (was_first_open : Bool) (x y : Int)
  | other (id : Nat)
deriving DecidableEq, Repr

/-- What the panel code reaches through the context `C`: the modal handlers of the window,
the timers of the window manager, the pointer position of `win->eventstate`, the scroll
origin `v2d.cur` of the region, the clock, and the number of edge-pan operators queued.

Modelled from the spec: "timer services: opaque handles with start/cancel semantics";
the window-manager code is not among the source files. `timer_next` is the handle the next
`WM_event_add_timer` returns. -/
structure bContext where
  modalhandlers : List wmEventHandler
  timers : List Nat
  timer_next : Nat
  eventstate_x : Int
  eventstate_y : Int
  cur_xmin : Int
  cur_ymin : Int
  time : Int
  edge_pan_queued : Nat

/-- The interaction data `MEM_callocN` returns: all members zero. -/
def uiHandlePanelData_calloc : uiHandlePanelData :=
  { state := uiHandlePanelState.PANEL_STATE_DRAG
    animtimer := none
    starttime := 0
    is_drag_drop := false
    startx := 0
    starty := 0
    startofsx := 0
    startofsy := 0
    startsizex := 0
    startsizey := 0
    start_cur_xmin := 0
    start_cur_ymin := 0 }

/-- The function `panel_activate_state(C, panel, state)`: the context and the panel after
the call. -/
def panel_activate_state (C : bContext) (panel : Panel) (state : uiHandlePanelState) :
    bContext × Panel :=
  if (match panel.activedata with
      | some data => decide (data.state = state)
      | none => false) then (C, panel)
  else
    let was_drag_drop : Bool :=
      match panel.activedata with
      | some data => decide (data.state = uiHandlePanelState.PANEL_STATE_DRAG)
      | none => false
    let selected : Bool :=
      !(decide (state = uiHandlePanelState.PANEL_STATE_EXIT) ||
        decide (state = uiHandlePanelState.PANEL_STATE_ANIMATION))
    let panel1 : Panel := (panel_set_flag_recursive panel PNL_SELECT selected).1
    -- `WM_event_remove_timer` for a running timer
    let C1 : bContext :=
      match panel.activedata.bind (fun data => data.animtimer) with
      | some timer => { C with timers := C.timers.erase timer }
      | none => C
    let data1 : Option uiHandlePanelData :=
      panel.activedata.map (fun data => { data with animtimer := none })
    if state = uiHandlePanelState.PANEL_STATE_EXIT then
      ({ C1 with
          modalhandlers := C1.modalhandlers.erase (wmEventHandler.ui_handler_panel panel.ptr) },
        { panel1 with activedata := none })
    else
      -- a handler is added with the interaction data
      let C2 : bContext :=
        match data1 with
        | some _ => C1
        | none =>
          { C1 with
            modalhandlers := wmEventHandler.ui_handler_panel panel.ptr :: C1.modalhandlers }
      let data2 : uiHandlePanelData :=
        match data1 with
        | some data => data
        | none => uiHandlePanelData_calloc
      let with_timer : Bool :=
        decide (state = uiHandlePanelState.PANEL_STATE_ANIMATION) ||
          decide (state = uiHandlePanelState.PANEL_STATE_DRAG)
      let C3 : bContext :=
        if with_timer then
          { C2 with timers := C2.timer_next :: C2.timers, timer_next := C2.timer_next + 1 }
        else C2
      let C4 : bContext :=
        if state = uiHandlePanelState.PANEL_STATE_DRAG then
          { C3 with edge_pan_queued := C3.edge_pan_queued + 1 }
        else C3
      (C4,
        { panel1 with
          activedata :=
            some
              { data2 with
                animtimer := if with_timer then some C2.timer_next else data2.animtimer
                state := state
                startx := C.eventstate_x
                starty := C.eventstate_y
                startofsx := panel.ofsx
                startofsy := panel.ofsy
                startsizex := panel.sizex
                startsizey := panel.sizey
                start_cur_xmin := C.cur_xmin
                start_cur_ymin := C.cur_ymin
                starttime := C.time
                is_drag_drop :=
                  was_drag_drop || decide (state = uiHandlePanelState.PANEL_STATE_DRAG) } })

/-! ## Deleting instanced panels -/

mutual
/-- The addresses of the records `panel_delete` frees for one panel: the panel and,
recursively, its children. -/
def panel_delete_freed (panel : Panel) : List Nat :=
  match panel with
  | ⟨ptr, _, _, _, _, _, _, _, _, _, _, _, _, _, _, _, children⟩ =>
    ptr :: panel_delete_freed_children children
/-- The addresses `panel_delete` frees for a list of children. -/
def panel_delete_freed_children : List Panel → List Nat
  | [] => []
  | child :: rest => panel_delete_freed child ++ panel_delete_freed_children rest
end

/-- The function `panel_delete(C, region, panels, panel)`: the context after the call.
The function frees the records listed by `panel_delete_freed`, together with their
interaction data, and unlinks the panel from `panels`; it uses neither its context nor its
region argument, so handlers and timers stay as they are. -/
def panel_delete (C : Option bContext) (_panel : Panel) : Option bContext := C

/-- The loop of `UI_panels_free_instanced(C, region)` over `region->panels`; `C` is `none`
for a `NULL` context. A panel whose type has the instanced flag is forced into the exit
state when it has interaction data and a context is given, and is then deleted. -/
def UI_panels_free_instanced_loop (C : Option bContext) : List Panel →
    Option bContext × List Panel
  | [] => (C, [])
  | panel :: rest =>
    if panel.type_has PNL_INSTANCED then
      let C1 : Option bContext :=
        match C with
        | some c =>
          if panel.activedata.isSome then
            some (panel_activate_state c panel uiHandlePanelState.PANEL_STATE_EXIT).1
          else some c
        | none => none
      UI_panels_free_instanced_loop (panel_delete C1 panel) rest
    else
      let r := UI_panels_free_instanced_loop C rest
      (r.1, panel :: r.2)

/-- The function `UI_panels_free_instanced(C, region)`: the context and the region after
the call. -/
def UI_panels_free_instanced (C : Option bContext) (region : ARegion) :
    Option bContext × ARegion :=
  let r := UI_panels_free_instanced_loop C region.panels
  (r.1, { region with panels := r.2 })

/-- The addresses of all records `UI_panels_free_instanced` frees. -/
def UI_panels_free_instanced_freed (region : ARegion) : List Nat :=
  panel_delete_freed_children (region.panels.filter (fun panel => panel.type_has PNL_INSTANCED))

/-! ## Header actions -/

/-- The panel a pointer into the panel tree refers to. The pointer is the path from
`region->panels`: the position of the top-level panel, then the positions in the
successive `children` lists. -/
def panel_at : List Panel → List Nat → Option Panel
  | _, [] => none
  | lb, [i] => lb.get? i
  | lb, i :: j :: rest =>
    match lb.get? i with
    | some parent => panel_at parent.children (j :: rest)
    | none => none

/-- The panel tree after the record a pointer refers to has been overwritten. -/
def panel_store : List Panel → List Nat → Panel → List Panel
  | lb, [], _ => lb
  | lb, [i], new => lb.set i new
  | lb, i :: j :: rest, new =>
    match lb.get? i with
    | some parent =>
      lb.set i { parent with children := panel_store parent.children (j :: rest) new }
    | none => lb

/-- One round of the loop of `panels_collapse_all`; `category` is `none` for `NULL`. -/
def panels_collapse_all_step (category : Option String) (from_pt : Option PanelType)
    (panel : Panel) : Panel :=
  match panel.type, from_pt with
  | some pt, some from_type =>
    if !flagTest pt.flag PNL_NO_HEADER then
      if pt.context.isEmpty || from_type.context.isEmpty || pt.context == from_type.context then
        if flagTest panel.flag PNL_PIN || category.isNone || pt.category.isEmpty ||
            some pt.category == category then
          { panel with flag := flagSet panel.flag PNL_CLOSED }
        else panel
      else panel
    else panel
  | _, _ => panel

/-- The function `panels_collapse_all(region, from_panel)`. -/
def panels_collapse_all (region : ARegion) (from_panel : Panel) : ARegion :=
  let has_category_tabs : Bool := UI_panel_category_is_visible region
  let category : Option String :=
    if has_category_tabs then (UI_panel_category_active_get region false).1 else none
  { region with
    panels := region.panels.map (panels_collapse_all_step category from_panel.type) }

/-- Modelled from the spec: the alignment value of floating regions (`RGN_ALIGN_FLOAT`,
declared in `DNA_screen_types.h`, which is not among the source files). -/
def RGN_ALIGN_FLOAT : Nat := 7

/-- Modelled from the spec: the macro `IN_RANGE(a, b, c)` of `BLI_utildefines.h` (not among
the source files): `a` lies strictly between `b` and `c`, whichever of the two is smaller.
The arguments are doubled coordinates, see `ui_handle_panel_header`. -/
def IN_RANGE (a b c : Int) : Bool :=
  if b < c then decide (b < a) && decide (a < c) else decide (c < a) && decide (a < b)

/-- The function `ui_panel_drag_collapse_handler_add(C, was_open)`. -/
def ui_panel_drag_collapse_handler_add (C : bContext) (was_open : Bool) : bContext :=
  { C with
    modalhandlers :=
      wmEventHandler.ui_panel_drag_collapse_handler was_open C.eventstate_x C.eventstate_y ::
        C.modalhandlers }

/-- The test "Handle panel pinning" of `ui_handle_panel_header`:
`use_pin && ELEM(event_type, EVT_RETKEY, EVT_PADENTER, LEFTMOUSE) && shift`. -/
def header_is_pin_action (region : ARegion) (pt : PanelType) (event_type : EventType)
    (shift : Bool) : Bool :=
  let use_pin : Bool := UI_panel_category_is_visible region && !pt.has_parent
  use_pin &&
    (decide (event_type = EventType.EVT_RETKEY) || decide (event_type = EventType.EVT_PADENTER) ||
      decide (event_type = EventType.LEFTMOUSE)) && shift

/-- The right end `expansion_area_xmax` of the expand/collapse zone of a header, doubled. -/
def header_expansion_area_xmax2 (m : Metrics) (region : ARegion) (rect_xmax : Int)
    (panel : Panel) (pt : PanelType) : Int :=
  let use_pin : Bool := UI_panel_category_is_visible region && !pt.has_parent
  let show_pin : Bool := use_pin && flagTest panel.flag PNL_PIN
  let show_drag : Bool := !pt.has_parent
  2 * rect_xmax - (if show_drag then 3 * m.PNL_ICON else 0) -
    (if show_pin then 2 * m.PNL_ICON else 0)

/-- The test "Collapse and expand panels" of `ui_handle_panel_header`:
`ELEM(event_type, EVT_RETKEY, EVT_PADENTER, EVT_AKEY) || mx < expansion_area_xmax`. -/
def header_is_expand_action (m : Metrics) (region : ARegion) (rect_xmax : Int)
    (panel : Panel) (pt : PanelType) (mx : Int) (event_type : EventType) : Bool :=
  decide (event_type = EventType.EVT_RETKEY) || decide (event_type = EventType.EVT_PADENTER) ||
    decide (event_type = EventType.EVT_AKEY) ||
    decide (2 * mx < header_expansion_area_xmax2 m region rect_xmax panel pt)

/-- The function `ui_handle_panel_header(C, block, mx, event_type, ctrl, shift)`: the
context and the region after the call, or `none` when `block->panel` points to no panel or
to a panel without a type.

`panel` is the pointer `block->panel` and `rect_xmax` the right edge `block->rect.xmax` in
whole units; the horizontal zones are compared in doubled coordinates because of the
factor `1.5` of the drag icon. `view_reset` is the scroll origin `UI_view2d_offset` leaves
behind. The assertion that the panel has a header is not checked (it is compiled out of
release builds), and the callbacks of `set_panels_list_data_expand_flag` write list data
outside the panel tree. -/
def ui_handle_panel_header (m : Metrics) (C : bContext) (region : ARegion) (rect_xmax : Int)
    (view_reset : Int × Int) (panel : List Nat) (mx : Int) (event_type : EventType)
    (ctrl shift : Bool) : Option (bContext × ARegion) :=
  match panel_at region.panels panel with
  | none => none
  | some p0 =>
    match p0.type with
    | none => none
    | some pt =>
      let is_subpanel : Bool := pt.has_parent
      let use_pin : Bool := UI_panel_category_is_visible region && !is_subpanel
      let show_pin : Bool := use_pin && flagTest p0.flag PNL_PIN
      let show_drag : Bool := !is_subpanel
      if header_is_pin_action region pt event_type shift then
        some (C, { region with
          panels := panel_store region.panels panel { p0 with flag := p0.flag ^^^ PNL_PIN } })
      else
        let expansion_area_xmax2 : Int := header_expansion_area_xmax2 m region rect_xmax p0 pt
        if header_is_expand_action m region rect_xmax p0 pt mx event_type then
          -- for parent panels, collapse all other panels or toggle children
          let toggled : bContext × ARegion :=
            if ctrl && !is_subpanel then
              if flagTest p0.flag PNL_CLOSED || p0.children.isEmpty then
                ({ C with cur_xmin := view_reset.1, cur_ymin := view_reset.2 },
                  panels_collapse_all region p0)
              else
                let first_closed : Bool :=
                  match p0.children with
                  | first_child :: _ => flagTest first_child.flag PNL_CLOSED
                  | [] => false
                let p1 : Panel := (panel_set_flag_recursive p0 PNL_CLOSED (!first_closed)).1
                (C, { region with
                  panels :=
                    panel_store region.panels panel { p1 with flag := flagSet p1.flag PNL_CLOSED } })
            else (C, region)
          match panel_at toggled.2.panels panel with
          | none => none
          | some p2 =>
            let was_closed : Bool := flagTest p2.flag PNL_CLOSED
            let p3 : Panel :=
              if was_closed then
                { p2 with
                  flag := flagClear p2.flag PNL_CLOSED
                  ofsy := if flagTest p2.snap PNL_SNAP_BOTTOM then 0 else p2.ofsy }
              else
                { p2 with
                  flag := flagSet p2.flag PNL_CLOSED
                  ofsy := if flagTest p2.snap PNL_SNAP_BOTTOM then -p2.sizey else p2.ofsy }
            let C1 : bContext :=
              if event_type = EventType.LEFTMOUSE then
                ui_panel_drag_collapse_handler_add toggled.1 (!was_closed)
              else toggled.1
            let r := panel_activate_state C1 p3 uiHandlePanelState.PANEL_STATE_ANIMATION
            some (r.1, { toggled.2 with panels := panel_store toggled.2.panels panel r.2 })
        else if show_drag && !decide (region.alignment = RGN_ALIGN_FLOAT) &&
            IN_RANGE (2 * mx) (2 * rect_xmax - 3 * m.PNL_ICON) (2 * rect_xmax) then
          let r := panel_activate_state C p0 uiHandlePanelState.PANEL_STATE_DRAG
          some (r.1, { region with panels := panel_store region.panels panel r.2 })
        else if show_pin &&
            IN_RANGE (2 * mx) expansion_area_xmax2 (expansion_area_xmax2 + 2 * m.PNL_ICON) then
          some (C, { region with
            panels := panel_store region.panels panel { p0 with flag := p0.flag ^^^ PNL_PIN } })
        else some (C, region)

/-! ## Closing a panel: `UI_panel_end` -/

/-- The loop "Compute total panel size including children" of `UI_panel_end`: the values
of `width` and `height` after the loop over the children. -/
def UI_panel_end_total (m : Metrics) (width height : Int) : List Panel → Int × Int
  | [] => (width, height)
  | pachild :: rest =>
    if flagTest pachild.runtime_flag PANEL_ACTIVE then
      UI_panel_end_total m (max width pachild.sizex)
        (height + get_panel_real_size_y m pachild) rest
    else UI_panel_end_total m width height rest

/-- The function `UI_panel_end(region, block, width, height, open)`, `panel` being
`block->panel`: the panel after the call. -/
def UI_panel_end (m : Metrics) (region : ARegion) (panel : Panel) (width height : Int)
    (open_ : Bool) : Panel :=
  let total : Int × Int := UI_panel_end_total m width height panel.children
  if flagTest panel.runtime_flag PANEL_NEW_ADDED then
    { panel with
      blocksizex := width
      blocksizey := height
      runtime_flag := flagClear panel.runtime_flag PANEL_NEW_ADDED
      sizex := total.1
      sizey := total.2 }
  else
    let old_sizex : Int := panel.sizex
    let old_sizey : Int := panel.sizey
    let old_region_ofsx : Int := panel.region_ofsx
    let sizex : Int := if total.1 ≠ 0 then total.1 else panel.sizex
    let sizey : Int := if total.2 ≠ 0 ∨ open_ = true then total.2 else panel.sizey
    let resized : Bool := decide (sizex ≠ old_sizex) || decide (sizey ≠ old_sizey)
    let runtime_flag1 : Nat :=
      if resized then flagSet panel.runtime_flag PANEL_ANIM_ALIGN else panel.runtime_flag
    let ofsy : Int := if resized then panel.ofsy + (old_sizey - sizey) else panel.ofsy
    let region_ofsx : Int := panel_region_offset_x_get m region
    { panel with
      blocksizex := width
      blocksizey := height
      sizex := sizex
      sizey := sizey
      ofsy := ofsy
      region_ofsx := region_ofsx
      runtime_flag :=
        if old_region_ofsx ≠ region_ofsx then flagSet runtime_flag1 PANEL_ANIM_ALIGN
        else runtime_flag1 }

/-! ## Adding instanced panels -/

/-- The value an `int` holds when the exact result of an addition is `v`: the integer of
the range -2^31 .. 2^31 - 1 that differs from `v` by a multiple of 2^32. Past the largest
`int` the addition overflows, which is undefined in C; the compiled code wraps around. -/
def int_wrap (v : Int) : Int := (v + 2147483648) % 4294967296 - 2147483648

/-- The loop of `UI_panel_add_instanced_ex` that finds `max_sortorder`, which starts
at 0. -/
def UI_panel_add_instanced_max_sortorder (max_sortorder : Int) : List Panel → Int
  | [] => max_sortorder
  | existing_panel :: rest =>
    UI_panel_add_instanced_max_sortorder
      (if existing_panel.sortorder > max_sortorder then existing_panel.sortorder
        else max_sortorder) rest

mutual
/-- The function `UI_panel_add_instanced_ex(region, panels, panel_type, custom_data)`: the
list `panels` after the call, the panel returned and the next free address. `newptr` is
the first address the allocator hands out; the region argument is not used by the
source. -/
def UI_panel_add_instanced_ex (panels : List Panel) (panel_type : PanelType)
    (custom_data : Option Nat) (newptr : Nat) : List Panel × Panel × Nat :=
  match panel_type with
  | ⟨idname, _, _, _, _, children⟩ =>
    let r := UI_panel_add_instanced_children children custom_data (newptr + 1) []
    let panel : Panel :=
      { ptr := newptr
        type := some panel_type
        panelname := idname
        ofsx := 0
        ofsy := 0
        sizex := 0
        sizey := 0
        blocksizex := 0
        blocksizey := 0
        flag := 0
        runtime_flag := flagSet 0 PANEL_NEW_ADDED
        sortorder := int_wrap (UI_panel_add_instanced_max_sortorder 0 panels + 1)
        snap := 0
        activedata := none
        region_ofsx := 0
        custom_data_ptr := custom_data
        children := r.1 }
    (panels ++ [panel], panel, r.2)
/-- The loop of `UI_panel_add_instanced_ex` over the child types, `acc` being the list
`panel->children` built so far. -/
def UI_panel_add_instanced_children :
    List PanelType → Option Nat → Nat → List Panel → List Panel × Nat
  | [], _, newptr, acc => (acc, newptr)
  | child_type :: rest, custom_data, newptr, acc =>
    let r := UI_panel_add_instanced_ex acc child_type custom_data newptr
    UI_panel_add_instanced_children rest custom_data r.2.2 r.1
end

/-! ## Drag state of a panel -/

/-- The function `UI_panel_is_dragging`. -/
def UI_panel_is_dragging (panel : Panel) : Bool :=
  match panel.activedata with
  | none => false
  | some data => data.is_drag_drop

/-! ## Auxiliary definitions of the statements and proofs -/

/-- Whether a panel carries the marker `PANEL_LAST_ADDED`. -/
def marked (q : Panel) : Bool := flagTest q.runtime_flag PANEL_LAST_ADDED

/-- The array `panel_sort` of `uiAlignPanelStep` in non-drag mode after the "Y offset" loop,
for the top-level panels `panels` and the region offset `region_offset_x`. -/
def align_targets (m : Metrics) (region_offset_x : Int) (panels : List Panel) :
    List PanelSort :=
  align_offset_y m 0
    ((qsort compare_panel (align_collect 0 panels)).map (align_offset_x m region_offset_x))

/-- What becomes of an element of `panel_sort` when the array is filled a second time, after
a step that left the elements `moved` behind: the element points to the panel as the step
wrote it, with `region_offset_x` as the stored region offset. -/
def align_second (m : Metrics) (region_offset_x : Int) (moved : List PanelSort)
    (ps : PanelSort) : PanelSort :=
  { ps with
    panel :=
      align_sub_panels_pass m
        { ps.panel with
          region_ofsx := region_offset_x
          ofsx := (align_write_back_panel moved ps.index ps.panel).ofsx
          ofsy := (align_write_back_panel moved ps.index ps.panel).ofsy } }

mutual
/-- The closed flags of a panel and its descendants, in depth-first order. -/
def panel_closed_flags : Panel → List Bool
  | ⟨_, _, _, _, _, _, _, _, _, flag, _, _, _, _, _, _, children⟩ =>
    flagTest flag PNL_CLOSED :: panel_closed_flags_children children
/-- The closed flags of a list of panels and their descendants, in depth-first order. -/
def panel_closed_flags_children : List Panel → List Bool
  | [] => []
  | child :: rest => panel_closed_flags child ++ panel_closed_flags_children rest
end

mutual
/-- Whether two panel trees have the same shape: the same number of children at every
node. -/
def panel_same_shape : Panel → Panel → Bool
  | ⟨_, _, _, _, _, _, _, _, _, _, _, _, _, _, _, _, children⟩, other =>
    panel_same_shape_children children other.children
/-- Whether two lists of panel trees have the same shape. -/
def panel_same_shape_children : List Panel → List Panel → Bool
  | [], [] => true
  | [], _ :: _ => false
  | _ :: _, [] => false
  | child :: rest, other :: others =>
    panel_same_shape child other && panel_same_shape_children rest others
end

/-- A panel without children, closed or open, for examples. -/
def leaf_panel (closed : Bool) : Panel :=
  { ptr := 0
    type := none
    panelname := ""
    ofsx := 0
    ofsy := 0
    sizex := 0
    sizey := 0
    blocksizex := 0
    blocksizey := 0
    flag := if closed then PNL_CLOSED else 0
    runtime_flag := 0
    sortorder := 0
    snap := 0
    activedata := none
    region_ofsx := 0
    custom_data_ptr := none
    children := [] }

/-- A panel tree of 17 nodes: an open panel with sixteen sub-panels, all open but the
last. -/
def expand_example : Panel :=
  { leaf_panel false with
    children := List.replicate 15 (leaf_panel false) ++ [leaf_panel true] }

/-- The instanced panels of a list of top-level panels, in list order. -/
def instanced_panels (panels : List Panel) : List Panel :=
  panels.filter (fun panel => panel.type_has PNL_INSTANCED)

/-- The identifier `panel->type->idname` of a panel with a type. -/
def panel_type_idname (panel : Panel) : String :=
  match panel.type with
  | some pt => pt.idname
  | none => ""

/-- An instanced panel type named `idname`, for examples. -/
def instanced_type (idname : String) : PanelType :=
  { idname := idname, context := "", category := "", flag := PNL_INSTANCED,
    has_parent := false, children := [] }

/-- A header-bearing panel type named `idname` without flags, for examples. -/
def plain_type (idname : String) : PanelType :=
  { idname := idname, context := "", category := idname, flag := 0,
    has_parent := false, children := [] }

/-- A headerless, default-closed panel type, for examples. -/
def headerless_type : PanelType :=
  { idname := "headerless", context := "", category := "",
    flag := PNL_NO_HEADER ||| PNL_DEFAULT_CLOSED, has_parent := false, children := [] }

/-- An active, open top-level panel without children, for examples. -/
def example_panel (ptr : Nat) (pt : PanelType) (sortorder sizey : Int) : Panel :=
  { leaf_panel false with
    ptr := ptr
    type := some pt
    panelname := pt.idname
    sortorder := sortorder
    sizey := sizey
    runtime_flag := PANEL_ACTIVE }

/-- Interface metrics with a header height of 20, for examples. -/
def example_metrics : Metrics :=
  { PNL_HEADER := 20, UI_PANEL_BOX_STYLE_MARGIN := 4, UI_PANEL_CATEGORY_MARGIN_WIDTH := 20,
    PNL_ICON := 20 }

/-- A wheel-down event with the control key held. -/
def example_wheel_down : wmEvent :=
  { type := EventType.WHEELDOWNMOUSE, ctrl := true, shift := false, mval_x := 0 }

/-- A context without handlers or timers, for examples. -/
def example_context : bContext :=
  { modalhandlers := [], timers := [], timer_next := 0, eventstate_x := 0, eventstate_y := 0,
    cur_xmin := 0, cur_ymin := 0, time := 0, edge_pan_queued := 0 }

/-- A region that holds the given top-level panels and nothing else, for examples. -/
def region_of_panels (panels : List Panel) : ARegion :=
  { panels := panels, panels_category := [], panels_category_active := [],
    alignment := 0, paneltypes := [] }

/-- Three open header-bearing panels of real heights 40, 120 and 60 in sort order. -/
def example_three : ARegion :=
  region_of_panels
    [example_panel 1 (plain_type "a") 0 20, example_panel 2 (plain_type "b") 1 100,
      example_panel 3 (plain_type "c") 2 40]

/-- A region with the category tabs A, B, C, the last of which is the active one. -/
def example_categories : ARegion :=
  { panels := []
    panels_category :=
      [{ idname := "A", rect_xmin := 0, rect_xmax := 20 },
        { idname := "B", rect_xmin := 0, rect_xmax := 20 },
        { idname := "C", rect_xmin := 0, rect_xmax := 20 }]
    panels_category_active := [{ idname := "C" }]
    alignment := 0
    paneltypes := [plain_type "A", plain_type "B", plain_type "C"] }

/-- A panel tree of depth 2 with mixed flags: an open panel, its closed sub-panel and an
open sub-panel of that. -/
def example_tree : Panel :=
  { leaf_panel false with
    children := [{ leaf_panel true with children := [leaf_panel false] }] }

/-- A panel tree of the shape of `example_tree` with the opposite flags. -/
def example_tree_target : Panel :=
  { leaf_panel true with
    children := [{ leaf_panel false with children := [leaf_panel true] }] }

/-- A closed panel with the bottom-snap flag in a region of its own. -/
def example_snapped : ARegion :=
  region_of_panels
    [{ example_panel 1 (plain_type "a") 0 20 with snap := PNL_SNAP_BOTTOM, flag := PNL_CLOSED }]

/-- An instanced panel at address 1 whose sub-panel at address 2 is animating with timer
7. -/
def example_instanced : ARegion :=
  region_of_panels
    [{ example_panel 1 (instanced_type "modifier") 0 20 with
        children :=
          [{ example_panel 2 (plain_type "sub") 0 20 with
              activedata :=
                some
                  { uiHandlePanelData_calloc with
                    state := uiHandlePanelState.PANEL_STATE_ANIMATION
                    animtimer := some 7 } }] }]

/-- The context in which the sub-panel of `example_instanced` is animating: its handler is
registered and its timer runs. -/
def example_instanced_context : bContext :=
  { example_context with
    modalhandlers := [wmEventHandler.ui_handler_panel 2]
    timers := [7]
    timer_next := 8 }

mutual
/-- A panel and all its descendants, depth first. -/
def panel_subtree (panel : Panel) : List Panel :=
  match panel with
  | ⟨_, _, _, _, _, _, _, _, _, _, _, _, _, _, _, _, children⟩ =>
    panel :: panel_subtree_children children
/-- The panels of a list of siblings with all their descendants, depth first. -/
def panel_subtree_children : List Panel → List Panel
  | [] => []
  | child :: rest => panel_subtree child ++ panel_subtree_children rest
end

/-- Whether a panel has the active runtime flag. -/
def panel_is_active (panel : Panel) : Bool := flagTest panel.runtime_flag PANEL_ACTIVE

/-- The sorted `panel_sort` array of `uiAlignPanelStep` in either mode: in drag mode the
array is sorted on location and the panels are renumbered, otherwise it is sorted on
`sortorder`. -/
def align_sorted (drag : Bool) (panel_sort : List PanelSort) : List PanelSort :=
  if drag then align_assign_sortorder 0 (qsort find_highest_panel panel_sort)
  else qsort compare_panel panel_sort

/-- The `panel_sort` array of `uiAlignPanelStep` after the two offset loops, in either
mode. -/
def align_with_y (m : Metrics) (region_offset_x : Int) (drag : Bool) (panels : List Panel) :
    List PanelSort :=
  align_offset_y m 0
    ((align_sorted drag (align_collect 0 panels)).map (align_offset_x m region_offset_x))

/-- Whether every target offset that `uiAlignPanelStep` can store is held exactly by a
`float`: for every element of `panel_sort` whose panel is not selected, `new_offset_x` and
`new_offset_y` are less than 2^23 in magnitude. -/
def align_targets_exact (m : Metrics) (region : ARegion) (drag : Bool) : Bool :=
  (align_with_y m (panel_region_offset_x_get m region) drag region.panels).all
    (fun y =>
      flagTest y.panel.flag PNL_SELECT ||
        (float_exact y.new_offset_x && float_exact y.new_offset_y))

/-- The factor `0.0`. -/
def factor_zero : Factor := { num := 0, den := 1 }

/-- An active panel with sortorder 5 followed by an inactive panel with sortorder 0. -/
def example_inactive : ARegion :=
  region_of_panels
    [example_panel 1 (plain_type "a") 5 20,
      { example_panel 2 (plain_type "b") 0 20 with runtime_flag := 0 }]

/-- The region of `example_three` after a non-drag align step with factor 1.0. -/
def example_three_aligned : ARegion :=
  region_of_panels
    [{ example_panel 1 (plain_type "a") 0 20 with ofsy := -40 },
      { example_panel 2 (plain_type "b") 1 100 with ofsy := -160 },
      { example_panel 3 (plain_type "c") 2 40 with ofsy := -220 }]

/-- The region of `example_three` after an align step in drag mode with factor 1.0: the
panels are renumbered from the highest upper edge down. -/
def example_three_dragged : ARegion :=
  region_of_panels
    [{ example_panel 1 (plain_type "a") 2 20 with ofsy := -220 },
      { example_panel 2 (plain_type "b") 0 100 with ofsy := -120 },
      { example_panel 3 (plain_type "c") 1 40 with ofsy := -180 }]

/-- Two open header-bearing panels of real heights 16777217, which is 2^24 + 1, and 40, in
sort order. -/
def example_tall : ARegion :=
  region_of_panels
    [example_panel 1 (plain_type "a") 0 16777197, example_panel 2 (plain_type "b") 1 20]

/-- The region of `example_tall` with the panels at the vertical offsets -16777216 and
-16777256. -/
def example_tall_aligned : ARegion :=
  region_of_panels
    [{ example_panel 1 (plain_type "a") 0 16777197 with ofsy := -16777216 },
      { example_panel 2 (plain_type "b") 1 20 with ofsy := -16777256 }]

/-- A newly added panel with an active sub-panel of width 300 and an inactive sub-panel of
width 400. -/
def example_parent : Panel :=
  { example_panel 1 (plain_type "a") 0 0 with
    runtime_flag := PANEL_ACTIVE ||| PANEL_NEW_ADDED
    children :=
      [{ example_panel 2 (plain_type "b") 0 30 with sizex := 300 },
        { example_panel 3 (plain_type "c") 1 50 with sizex := 400, runtime_flag := 0 }] }

/-- A panel that is animating with timer 7, at address 2: the sub-panel of
`example_instanced`. -/
def example_animating : Panel :=
  { example_panel 2 (plain_type "sub") 0 20 with
    activedata :=
      some
        { uiHandlePanelData_calloc with
          state := uiHandlePanelState.PANEL_STATE_ANIMATION
          animtimer := some 7 } }

/-- The vertical space a top-level panel takes in the stack of the align step: its real
height and, for a box-style panel, the box margin. -/
def align_cost (m : Metrics) (panel : Panel) : Int :=
  get_panel_real_size_y m panel +
    (if panel.type_has PNL_DRAW_BOX then m.UI_PANEL_BOX_STYLE_MARGIN else 0)

/-- The order `find_highest_panel` sorts by, `a` not behind `b`: a headerless panel is
behind no panel, a header-bearing panel is behind every headerless one, and two
header-bearing panels are ordered by their upper edge `ofsy + sizey`, the higher one first,
and by `sortorder` when the upper edges are equal. -/
def highest_first (a b : Panel) : Prop :=
  a.type_has PNL_NO_HEADER = true ∨
    (b.type_has PNL_NO_HEADER = false ∧
      (b.ofsy + b.sizey < a.ofsy + a.sizey ∨
        (a.ofsy + a.sizey = b.ofsy + b.sizey ∧ a.sortorder ≤ b.sortorder)))

instance highest_first_decidable (a b : Panel) : Decidable (highest_first a b) := by
  unfold highest_first
  infer_instance

/-- A headerless panel whose upper edge is at 20, as an element of `panel_sort`. -/
def example_headerless_high : PanelSort :=
  { index := 0, panel := example_panel 1 headerless_type 0 20,
    new_offset_x := 0, new_offset_y := 0 }

/-- A headerless panel whose upper edge is at -30, as an element of `panel_sort`. -/
def example_headerless_low : PanelSort :=
  { index := 1, panel := { example_panel 2 headerless_type 1 20 with ofsy := -50 },
    new_offset_x := 0, new_offset_y := 0 }

/-- The region of `example_categories` with an active-category stack that holds only the
name "X", which is the category of no panel type. -/
def example_stale : ARegion :=
  { example_categories with panels_category_active := [{ idname := "X" }] }

/-- Two header-bearing panels: the first has its lower edge at 0 and its upper edge at 10,
the second has its lower edge at -5 and its upper edge at 95. -/
def example_edges : ARegion :=
  region_of_panels
    [example_panel 1 (plain_type "a") 0 10,
      { example_panel 2 (plain_type "b") 1 100 with ofsy := -5 }]

/-- An open panel with an open sub-panel, in a region of its own. -/
def example_with_child : ARegion :=
  region_of_panels
    [{ example_panel 1 (plain_type "a") 0 20 with
        children := [example_panel 2 (plain_type "sub") 0 20] }]

/-- A Control+Tab key event. -/
def example_ctrl_tab : wmEvent :=
  { type := EventType.EVT_TABKEY, ctrl := true, shift := false, mval_x := 0 }

/-- The panel `example_parent` after `UI_panel_end` with width 200 and height 100. -/
def example_ended : Panel :=
  UI_panel_end example_metrics example_three example_parent 200 100 true

/-- A left click with the control key on the header of the first panel of a region: the
context and region after `ui_handle_panel_header`. -/
def example_ctrl_click (region : ARegion) : Option (bContext × ARegion) :=
  ui_handle_panel_header example_metrics example_context region 200 (0, 0) [0] 10
    EventType.LEFTMOUSE true false

/-! # Theorems -/

set_option maxRecDepth 100000

/-! ## Bit-field lemmas -/

theorem flagTest_flagSet_self (v f : Nat) (hf : f ≠ 0) : flagTest (flagSet v f) f = true := by
  have h : (v ||| f) &&& f = f := by
    apply Nat.eq_of_testBit_eq
    intro i
    simp only [Nat.testBit_and, Nat.testBit_or]
    cases v.testBit i <;> cases f.testBit i <;> rfl
  simp [flagTest, flagSet, h, hf]

theorem flagTest_flagClear_self (v f : Nat) : flagTest (flagClear v f) f = false := by
  have h : (v ^^^ (v &&& f)) &&& f = 0 := by
    apply Nat.eq_of_testBit_eq
    intro i
    simp only [Nat.testBit_and, Nat.testBit_xor, Nat.zero_testBit]
    cases v.testBit i <;> cases f.testBit i <;> rfl
  simp [flagTest, flagClear, h]

theorem and_eq_of_disjoint_or (v f g : Nat) (h : f &&& g = 0) : (v ||| f) &&& g = v &&& g := by
  apply Nat.eq_of_testBit_eq
  intro i
  have hi : (f &&& g).testBit i = false := by rw [h]; exact Nat.zero_testBit i
  simp only [Nat.testBit_and, Nat.testBit_or] at hi ⊢
  revert hi
  cases v.testBit i <;> cases f.testBit i <;> cases g.testBit i <;> simp

theorem and_eq_of_disjoint_clear (v f g : Nat) (h : f &&& g = 0) :
    (v ^^^ (v &&& f)) &&& g = v &&& g := by
  apply Nat.eq_of_testBit_eq
  intro i
  have hi : (f &&& g).testBit i = false := by rw [h]; exact Nat.zero_testBit i
  simp only [Nat.testBit_and, Nat.testBit_xor] at hi ⊢
  revert hi
  cases v.testBit i <;> cases f.testBit i <;> cases g.testBit i <;> simp

theorem flagTest_flagSet_of_disjoint (v f g : Nat) (h : f &&& g = 0) :
    flagTest (flagSet v f) g = flagTest v g := by
  simp [flagTest, flagSet, and_eq_of_disjoint_or v f g h]

theorem flagTest_flagClear_of_disjoint (v f g : Nat) (h : f &&& g = 0) :
    flagTest (flagClear v f) g = flagTest v g := by
  simp [flagTest, flagClear, and_eq_of_disjoint_clear v f g h]

theorem force_open_not_closed (pt : PanelType) (p : Panel)
    (h : flagTest pt.flag PNL_NO_HEADER = true) :
    flagTest (UI_panel_begin_force_open pt p).flag PNL_CLOSED = false := by
  unfold UI_panel_begin_force_open
  by_cases hc : flagTest p.flag PNL_CLOSED = true
  · simp [h, hc, flagTest_flagClear_self]
  · simp [h, hc]

/-- C1: for a panel type with the no-header flag, whatever panel `UI_panel_begin` is given
(none, or an existing one, closed or open, default-closed type or not), the returned panel
has its closed flag clear and `*r_open` is true. -/
theorem UI_panel_begin_headerless_open (lb : List Panel) (pt : PanelType)
    (panel : Option (Fin lb.length)) (newptr : Nat)
    (h : flagTest pt.flag PNL_NO_HEADER = true) :
    flagTest (UI_panel_begin lb pt panel newptr).panel.flag PNL_CLOSED = false ∧
      (UI_panel_begin lb pt panel newptr).r_open = true := by
  unfold UI_panel_begin
  simp only []
  split <;> simp [force_open_not_closed _ _ h]

theorem moved_eq (m : Metrics) (a b : Int) (p : Panel) :
    align_sub_panels_moved m a b p =
      { p with
        ofsx := a
        ofsy := b
        children :=
          if p.children.isEmpty then p.children
          else align_sub_panels_loop m a (b + p.sizey - p.blocksizey) p.children } := by
  cases p
  rw [align_sub_panels_moved]

theorem length_loop (m : Metrics) (cs : List Panel) :
    ∀ a b, (align_sub_panels_loop m a b cs).length = cs.length := by
  induction cs with
  | nil => intro a b; simp [align_sub_panels_loop]
  | cons c rest ih =>
    intro a b
    rw [align_sub_panels_loop]
    split <;> simp [ih]

theorem size_y_moved (m : Metrics) (a b : Int) (p : Panel) :
    get_panel_size_y m (align_sub_panels_moved m a b p) = get_panel_size_y m p := by
  rw [moved_eq]
  rfl

theorem real_size_y_moved (m : Metrics) (a b : Int) (p : Panel) :
    get_panel_real_size_y m (align_sub_panels_moved m a b p) = get_panel_real_size_y m p := by
  rw [moved_eq]
  rfl

theorem runtime_flag_moved (m : Metrics) (a b : Int) (p : Panel) :
    (align_sub_panels_moved m a b p).runtime_flag = p.runtime_flag := by
  rw [moved_eq]

mutual
theorem moved_moved (m : Metrics) :
    ∀ (p : Panel) (a b a' b' : Int),
      align_sub_panels_moved m a b (align_sub_panels_moved m a' b' p)
        = align_sub_panels_moved m a b p
  | ⟨ptr, type, panelname, ofsx, ofsy, sizex, sizey, blocksizex, blocksizey, flag, runtime_flag,
      sortorder, snap, activedata, region_ofsx, custom_data_ptr, children⟩, a, b, a', b' => by
    have ih := loop_loop m children
    rw [moved_eq m a' b', moved_eq m a b, moved_eq m a b]
    simp only
    by_cases hc : children.isEmpty = true
    · simp [hc]
    · have hne : (align_sub_panels_loop m a' (b' + sizey - blocksizey) children).isEmpty = false := by
        have hl := length_loop m children a' (b' + sizey - blocksizey)
        cases hcs : children with
        | nil => simp [hcs] at hc
        | cons c rest =>
          rw [hcs] at hl
          cases hr : align_sub_panels_loop m a' (b' + sizey - blocksizey) (c :: rest) with
          | nil => rw [hr] at hl; simp at hl
          | cons _ _ => rfl
      simp [hc, hne, ih]
theorem loop_loop (m : Metrics) :
    ∀ (cs : List Panel) (a b a' b' : Int),
      align_sub_panels_loop m a b (align_sub_panels_loop m a' b' cs)
        = align_sub_panels_loop m a b cs
  | [], a, b, a', b' => by simp [align_sub_panels_loop]
  | c :: rest, a, b, a', b' => by
    have ih1 := moved_moved m c
    have ih2 := loop_loop m rest
    rw [align_sub_panels_loop.eq_2 m a' b', align_sub_panels_loop.eq_2 m a b c]
    by_cases hact : flagTest c.runtime_flag PANEL_ACTIVE = true
    · rw [if_pos hact, if_pos hact, align_sub_panels_loop,
        if_pos (by rw [runtime_flag_moved]; exact hact), size_y_moved, real_size_y_moved, ih1, ih2]
    · rw [if_neg hact, if_neg hact, align_sub_panels_loop, if_neg hact, ih2]
end

/-! ### Stages of the align step -/

theorem interp_round_one (target origin : Int) : interp_round target origin factor_one = target := by
  unfold interp_round factor_one
  simp only [Nat.cast_one, sub_self, zero_mul, add_zero, one_mul, mul_one]
  omega

/-- An integer of less than 2^23 in magnitude is its own cast to `float`. -/
theorem float_of_int_exact (v : Int) (h : float_exact v = true) : float_of_int v = v := by
  unfold float_exact at h
  simp only [Bool.and_eq_true, decide_eq_true_eq] at h
  have ha : v.natAbs < 2 ^ 24 := by omega
  unfold float_of_int
  have hs : float_spacing 8 v.natAbs = 1 := by
    simp only [float_spacing, ha, if_true]
  simp only [hs, Nat.div_one, Nat.mod_one, Nat.mul_zero, Nat.mul_one]
  have hc : ¬ (0 > 1 ∨ (0 = 1 ∧ v.natAbs % 2 = 1)) := by omega
  rw [if_neg hc]
  split_ifs <;> omega

/-- The cast at work: small integers are kept, and past 2^24 the nearest `float` with an
even significand is taken. -/
theorem float_of_int_values :
    [-40, 16777216, -16777217, -16777257, 16777219, 2147483647].map float_of_int
      = [-40, 16777216, -16777216, -16777256, 16777220, 2147483648] := by
  decide

theorem pass_eq (m : Metrics) (p : Panel) :
    align_sub_panels_pass m p =
      if flagTest p.runtime_flag PANEL_ACTIVE = true then align_sub_panels m p else p := by
  unfold align_sub_panels_pass
  by_cases ha : flagTest p.runtime_flag PANEL_ACTIVE = true
  · by_cases hc : p.children.isEmpty = true
    · have : p.children = [] := by simpa using hc
      simp only [ha, hc, Bool.not_true, Bool.and_false, if_true]
      unfold align_sub_panels
      rw [this]
      cases p
      simp_all [align_sub_panels_loop]
    · simp [ha, hc]
  · simp [ha]

theorem pass_pass (m : Metrics) (p : Panel) :
    align_sub_panels_pass m (align_sub_panels_pass m p) = align_sub_panels_pass m p := by
  rw [pass_eq m p]
  by_cases ha : flagTest p.runtime_flag PANEL_ACTIVE = true
  · rw [if_pos ha, pass_eq, if_pos (by exact ha)]
    unfold align_sub_panels
    simp only [loop_loop]
  · rw [if_neg ha, pass_eq, if_neg ha]

theorem collect_spec (l : List Panel) :
    ∀ (k : Nat) (w : PanelSort), w ∈ align_collect k l ↔
      ∃ j p, l[j]? = some p ∧ flagTest p.runtime_flag PANEL_ACTIVE = true ∧
        w = { index := k + j, panel := p, new_offset_x := 0, new_offset_y := 0 } := by
  induction l with
  | nil => intro k w; simp [align_collect]
  | cons a rest ih =>
    intro k w
    rw [align_collect]
    constructor
    · intro hw
      by_cases ha : flagTest a.runtime_flag PANEL_ACTIVE = true
      · rw [if_pos ha, List.mem_cons] at hw
        rcases hw with hw | hw
        · exact ⟨0, a, by simp, ha, by simpa using hw⟩
        · obtain ⟨j, p, h1, h2, h3⟩ := (ih (k + 1) w).mp hw
          exact ⟨j + 1, p, by simpa using h1, h2, by rw [h3]; congr 1; omega⟩
      · rw [if_neg ha] at hw
        obtain ⟨j, p, h1, h2, h3⟩ := (ih (k + 1) w).mp hw
        exact ⟨j + 1, p, by simpa using h1, h2, by rw [h3]; congr 1; omega⟩
    · rintro ⟨j, p, h1, h2, h3⟩
      cases j with
      | zero =>
        simp at h1
        subst h1
        rw [if_pos h2, h3]
        simp
      | succ j =>
        have hmem : w ∈ align_collect (k + 1) rest :=
          (ih (k + 1) w).mpr ⟨j, p, by simpa using h1, h2, by rw [h3]; congr 1; omega⟩
        split
        · exact List.mem_cons_of_mem _ hmem
        · exact hmem

theorem collect_index_nodup (l : List Panel) :
    ∀ k, ((align_collect k l).map (fun ps => ps.index)).Nodup := by
  induction l with
  | nil => intro k; simp [align_collect]
  | cons a rest ih =>
    intro k
    rw [align_collect]
    split
    · rw [List.map_cons, List.nodup_cons]
      refine ⟨?_, ih (k + 1)⟩
      intro hmem
      rw [List.mem_map] at hmem
      obtain ⟨w, hw, hk⟩ := hmem
      obtain ⟨j, p, _, _, h3⟩ := (collect_spec rest (k + 1) w).mp hw
      rw [h3] at hk
      simp at hk
      omega
    · exact ih (k + 1)

theorem map_index_offset_y (m : Metrics) (l : List PanelSort) :
    ∀ y, (align_offset_y m y l).map (fun ps => ps.index) = l.map (fun ps => ps.index) := by
  induction l with
  | nil => intro y; rfl
  | cons a rest ih => intro y; simp [align_offset_y, ih]

theorem mem_offset_y (m : Metrics) (l : List PanelSort) :
    ∀ (y : Int) (w : PanelSort), w ∈ align_offset_y m y l →
      ∃ z ∈ l, w.index = z.index ∧ w.panel = z.panel ∧ w.new_offset_x = z.new_offset_x := by
  induction l with
  | nil => intro y w hw; simp [align_offset_y] at hw
  | cons a rest ih =>
    intro y w hw
    rw [align_offset_y, List.mem_cons] at hw
    rcases hw with hw | hw
    · exact ⟨a, by simp, by rw [hw], by rw [hw], by rw [hw]⟩
    · obtain ⟨z, hz, h⟩ := ih _ w hw
      exact ⟨z, List.mem_cons_of_mem _ hz, h⟩

theorem index_interpolate (f : Factor) (ps : PanelSort) :
    (align_interpolate f ps).index = ps.index := by
  unfold align_interpolate
  split <;> rfl

theorem find?_index_of_mem (l : List PanelSort) (a : PanelSort)
    (hn : (l.map (fun ps => ps.index)).Nodup) (ha : a ∈ l) :
    l.find? (fun ps => ps.index == a.index) = some a := by
  induction l with
  | nil => simp at ha
  | cons b rest ih =>
    rw [List.map_cons, List.nodup_cons] at hn
    rw [List.find?_cons]
    by_cases hb : b.index = a.index
    · have hab : a = b := by
        rcases List.mem_cons.mp ha with h | h
        · exact h
        · exfalso
          apply hn.1
          rw [hb]
          exact List.mem_map.mpr ⟨a, h, rfl⟩
      simp [hb, hab]
    · have hmem : a ∈ rest := by
        rcases List.mem_cons.mp ha with h | h
        · exact absurd (by rw [h]) hb
        · exact h
      have hbe : (b.index == a.index) = false := by simpa using hb
      simp [hbe, ih hn.2 hmem]

theorem find?_index_none (l : List PanelSort) (i : Nat)
    (h : i ∉ l.map (fun ps => ps.index)) :
    l.find? (fun ps => ps.index == i) = none := by
  rw [List.find?_eq_none]
  intro x hx hxi
  apply h
  simp at hxi
  exact List.mem_map.mpr ⟨x, hx, hxi⟩

theorem targets_index_perm (m : Metrics) (rox : Int) (panels : List Panel) :
    ((align_targets m rox panels).map (fun ps => ps.index)).Perm
      ((align_collect 0 panels).map (fun ps => ps.index)) := by
  unfold align_targets qsort
  rw [map_index_offset_y, List.map_map]
  have h : ((fun ps : PanelSort => ps.index) ∘ align_offset_x m rox) = fun ps => ps.index := by
    funext ps
    rfl
  rw [h]
  exact (List.perm_insertionSort _ _).map _

theorem targets_index_nodup (m : Metrics) (rox : Int) (panels : List Panel) :
    ((align_targets m rox panels).map (fun ps => ps.index)).Nodup :=
  (targets_index_perm m rox panels).nodup_iff.mpr (collect_index_nodup panels 0)

theorem targets_mem (m : Metrics) (rox : Int) (panels : List Panel) (y : PanelSort)
    (hy : y ∈ align_targets m rox panels) :
    ∃ p, panels[y.index]? = some p ∧ flagTest p.runtime_flag PANEL_ACTIVE = true ∧
      y.panel = { p with region_ofsx := rox } := by
  unfold align_targets at hy
  obtain ⟨z, hz, h1, h2, _⟩ := mem_offset_y m _ _ _ hy
  rw [List.mem_map] at hz
  obtain ⟨w, hw, rfl⟩ := hz
  unfold qsort at hw
  rw [List.mem_insertionSort] at hw
  obtain ⟨j, p, hp, hact, rfl⟩ := (collect_spec panels 0 w).mp hw
  refine ⟨p, ?_, hact, ?_⟩
  · rw [h1]
    simpa [align_offset_x] using hp
  · rw [h2]
    rfl

theorem targets_of_active (m : Metrics) (rox : Int) (panels : List Panel) (i : Nat) (p : Panel)
    (hp : panels[i]? = some p) (hact : flagTest p.runtime_flag PANEL_ACTIVE = true) :
    ∃ y ∈ align_targets m rox panels, y.index = i ∧ y.panel = { p with region_ofsx := rox } := by
  have hi : i ∈ (align_collect 0 panels).map (fun ps => ps.index) := by
    rw [List.mem_map]
    exact ⟨⟨0 + i, p, 0, 0⟩, (collect_spec panels 0 _).mpr ⟨i, p, hp, hact, rfl⟩, by simp⟩
  rw [← (targets_index_perm m rox panels).mem_iff, List.mem_map] at hi
  obtain ⟨y, hy, hyi⟩ := hi
  obtain ⟨p2, h1, _, h3⟩ := targets_mem m rox panels y hy
  rw [hyi, hp] at h1
  cases h1
  exact ⟨y, hy, hyi, h3⟩

theorem targets_of_inactive (m : Metrics) (rox : Int) (panels : List Panel) (i : Nat) (p : Panel)
    (hp : panels[i]? = some p) (hact : ¬ flagTest p.runtime_flag PANEL_ACTIVE = true) :
    i ∉ (align_targets m rox panels).map (fun ps => ps.index) := by
  intro hi
  rw [List.mem_map] at hi
  obtain ⟨y, hy, hyi⟩ := hi
  obtain ⟨p2, h1, h2, _⟩ := targets_mem m rox panels y hy
  rw [hyi, hp] at h1
  cases h1
  exact hact h2

theorem map_index_interpolate (f : Factor) (l : List PanelSort) :
    (l.map (align_interpolate f)).map (fun ps => ps.index) = l.map (fun ps => ps.index) := by
  rw [List.map_map]
  congr 1
  funext ps
  exact index_interpolate f ps

theorem interpolate_panel_eq (f : Factor) (ps : PanelSort) :
    (align_interpolate f ps).panel =
      { ps.panel with
        ofsx := (align_interpolate f ps).panel.ofsx
        ofsy := (align_interpolate f ps).panel.ofsy } := by
  unfold align_interpolate
  split
  · cases ps.panel
    rfl
  · rfl

/-- The record written to an active panel by the step. -/
theorem write_back_active (m : Metrics) (rox : Int) (f : Factor) (panels : List Panel) (i : Nat)
    (p : Panel) (hp : panels[i]? = some p) (hact : flagTest p.runtime_flag PANEL_ACTIVE = true) :
    ∃ y ∈ align_targets m rox panels, y.index = i ∧ y.panel = { p with region_ofsx := rox } ∧
      ∀ q, align_write_back_panel ((align_targets m rox panels).map (align_interpolate f)) i q
        = (align_interpolate f y).panel := by
  obtain ⟨y, hy, hyi, hyp⟩ := targets_of_active m rox panels i p hp hact
  refine ⟨y, hy, hyi, hyp, ?_⟩
  intro q
  have hn : (((align_targets m rox panels).map (align_interpolate f)).map (fun ps => ps.index)).Nodup := by
    rw [map_index_interpolate]
    exact targets_index_nodup m rox panels
  have hmem : align_interpolate f y ∈ (align_targets m rox panels).map (align_interpolate f) :=
    List.mem_map_of_mem _ hy
  have hfind := find?_index_of_mem _ _ hn hmem
  rw [index_interpolate, hyi] at hfind
  unfold align_write_back_panel
  rw [hfind]

theorem write_back_inactive (m : Metrics) (rox : Int) (f : Factor) (panels : List Panel) (i : Nat)
    (p : Panel) (hp : panels[i]? = some p) (hact : ¬ flagTest p.runtime_flag PANEL_ACTIVE = true)
    (q : Panel) :
    align_write_back_panel ((align_targets m rox panels).map (align_interpolate f)) i q = q := by
  have hi := targets_of_inactive m rox panels i p hp hact
  rw [← map_index_interpolate f] at hi
  unfold align_write_back_panel
  rw [find?_index_none _ _ hi]

theorem pass_children (m : Metrics) (p : Panel) :
    ∃ cs, align_sub_panels_pass m p = { p with children := cs } := by
  rw [pass_eq]
  split
  · exact ⟨_, rfl⟩
  · exact ⟨p.children, by cases p; rfl⟩

theorem getElem?_write_back (L : List PanelSort) (l : List Panel) :
    ∀ k j, (align_write_back L k l)[j]? = (l[j]?).map (align_write_back_panel L (k + j)) := by
  induction l with
  | nil => intro k j; simp [align_write_back]
  | cons a rest ih =>
    intro k j
    rw [align_write_back]
    cases j with
    | zero => simp
    | succ j =>
      simp only [List.getElem?_cons_succ]
      rw [ih (k + 1) j, show k + 1 + j = k + (j + 1) by omega]

theorem write_back_id (L : List PanelSort) (l : List Panel) :
    ∀ k, (∀ j q, l[j]? = some q → align_write_back_panel L (k + j) q = q) →
      align_write_back L k l = l := by
  induction l with
  | nil => intro k _; rfl
  | cons a rest ih =>
    intro k h
    have h0 := h 0 a (by simp)
    rw [Nat.add_zero] at h0
    rw [align_write_back, h0, ih (k + 1)]
    intro j q hq
    have := h (j + 1) q (by simpa using hq)
    rw [← this]
    congr 1
    omega

theorem collect_second (m : Metrics) (rox : Int) (M : List PanelSort) (l : List Panel) :
    ∀ k,
      (∀ j p, l[j]? = some p → flagTest p.runtime_flag PANEL_ACTIVE = true →
        align_write_back_panel M (k + j) p =
          { p with
            region_ofsx := rox
            ofsx := (align_write_back_panel M (k + j) p).ofsx
            ofsy := (align_write_back_panel M (k + j) p).ofsy }) →
      (∀ j p, l[j]? = some p → ¬ flagTest p.runtime_flag PANEL_ACTIVE = true →
        align_write_back_panel M (k + j) p = p) →
      align_collect k ((align_write_back M k l).map (align_sub_panels_pass m))
        = (align_collect k l).map (align_second m rox M) := by
  induction l with
  | nil => intro k _ _; rfl
  | cons a rest ih =>
    intro k hact hin
    have ih2 := ih (k + 1)
      (fun j p hp ha => by
        have := hact (j + 1) p (by simpa using hp) ha
        rw [show k + (j + 1) = k + 1 + j by omega] at this
        exact this)
      (fun j p hp ha => by
        have := hin (j + 1) p (by simpa using hp) ha
        rw [show k + (j + 1) = k + 1 + j by omega] at this
        exact this)
    rw [align_write_back, List.map_cons, align_collect, align_collect, ih2]
    obtain ⟨cs, hcs⟩ := pass_children m (align_write_back_panel M k a)
    by_cases ha : flagTest a.runtime_flag PANEL_ACTIVE = true
    · have h0 := hact 0 a (by simp) ha
      rw [Nat.add_zero] at h0
      have hr : (align_sub_panels_pass m (align_write_back_panel M k a)).runtime_flag
          = a.runtime_flag := by
        rw [hcs]
        show (align_write_back_panel M k a).runtime_flag = _
        rw [h0]
      rw [hr, if_pos ha, if_pos ha, List.map_cons]
      congr 1
      unfold align_second
      simp only
      congr 2
    · have h0 := hin 0 a (by simp) ha
      rw [Nat.add_zero] at h0
      have hr : (align_sub_panels_pass m (align_write_back_panel M k a)).runtime_flag
          = a.runtime_flag := by
        rw [hcs]
        show (align_write_back_panel M k a).runtime_flag = _
        rw [h0]
      rw [hr, if_neg ha, if_neg ha]

/-! ### What `align_second` keeps -/

theorem second_index (m : Metrics) (rox : Int) (M : List PanelSort) (ps : PanelSort) :
    (align_second m rox M ps).index = ps.index := rfl

theorem second_panel (m : Metrics) (rox : Int) (M : List PanelSort) (ps : PanelSort) :
    ∃ cs, (align_second m rox M ps).panel =
      { ps.panel with
        region_ofsx := rox
        ofsx := (align_write_back_panel M ps.index ps.panel).ofsx
        ofsy := (align_write_back_panel M ps.index ps.panel).ofsy
        children := cs } := by
  unfold align_second
  obtain ⟨cs, hcs⟩ := pass_children m
    { ps.panel with
      region_ofsx := rox
      ofsx := (align_write_back_panel M ps.index ps.panel).ofsx
      ofsy := (align_write_back_panel M ps.index ps.panel).ofsy }
  exact ⟨cs, hcs⟩

theorem second_sortorder (m : Metrics) (rox : Int) (M : List PanelSort) (ps : PanelSort) :
    (align_second m rox M ps).panel.sortorder = ps.panel.sortorder := by
  obtain ⟨cs, h⟩ := second_panel m rox M ps
  rw [h]

theorem second_type (m : Metrics) (rox : Int) (M : List PanelSort) (ps : PanelSort) :
    (align_second m rox M ps).panel.type = ps.panel.type := by
  obtain ⟨cs, h⟩ := second_panel m rox M ps
  rw [h]

theorem second_flag (m : Metrics) (rox : Int) (M : List PanelSort) (ps : PanelSort) :
    (align_second m rox M ps).panel.flag = ps.panel.flag := by
  obtain ⟨cs, h⟩ := second_panel m rox M ps
  rw [h]

theorem second_sizey (m : Metrics) (rox : Int) (M : List PanelSort) (ps : PanelSort) :
    (align_second m rox M ps).panel.sizey = ps.panel.sizey := by
  obtain ⟨cs, h⟩ := second_panel m rox M ps
  rw [h]

theorem second_type_has (m : Metrics) (rox : Int) (M : List PanelSort) (ps : PanelSort) (f : Nat) :
    (align_second m rox M ps).panel.type_has f = ps.panel.type_has f := by
  unfold Panel.type_has
  rw [second_type]

theorem second_real_size_y (m : Metrics) (rox : Int) (M : List PanelSort) (ps : PanelSort) :
    get_panel_real_size_y m (align_second m rox M ps).panel = get_panel_real_size_y m ps.panel := by
  unfold get_panel_real_size_y
  rw [second_type_has, second_flag, second_sizey]

theorem qsort_second (m : Metrics) (rox : Int) (M : List PanelSort) (l : List PanelSort) :
    qsort compare_panel (l.map (align_second m rox M))
      = (qsort compare_panel l).map (align_second m rox M) := by
  unfold qsort
  symm
  apply List.map_insertionSort
  intro a _ b _
  unfold compare_panel
  rw [second_sortorder, second_sortorder]

theorem write_back_panel_ofs (M : List PanelSort) (i : Nat) (p : Panel) (r : Int) :
    (align_write_back_panel M i { p with region_ofsx := r }).ofsx
        = (align_write_back_panel M i p).ofsx ∧
      (align_write_back_panel M i { p with region_ofsx := r }).ofsy
        = (align_write_back_panel M i p).ofsy := by
  unfold align_write_back_panel
  split <;> exact ⟨rfl, rfl⟩

theorem offset_x_second (m : Metrics) (rox : Int) (M : List PanelSort) (ps : PanelSort) :
    align_offset_x m rox (align_second m rox M ps)
      = align_second m rox M (align_offset_x m rox ps) := by
  obtain ⟨cs, hcs⟩ := pass_children m
    { ps.panel with
      region_ofsx := rox
      ofsx := (align_write_back_panel M ps.index ps.panel).ofsx
      ofsy := (align_write_back_panel M ps.index ps.panel).ofsy }
  have h1 := (write_back_panel_ofs M ps.index ps.panel rox).1
  have h2 := (write_back_panel_ofs M ps.index ps.panel rox).2
  unfold align_offset_x align_second
  simp only [h1, h2]
  rw [hcs]
  rfl

theorem offset_y_second (m : Metrics) (rox : Int) (M : List PanelSort) (l : List PanelSort) :
    ∀ y, align_offset_y m y (l.map (align_second m rox M))
      = (align_offset_y m y l).map (align_second m rox M) := by
  induction l with
  | nil => intro y; rfl
  | cons a rest ih =>
    intro y
    rw [List.map_cons, align_offset_y, align_offset_y, List.map_cons]
    simp only [second_real_size_y, second_type_has, second_flag, second_sizey, ih]
    rfl

theorem targets_second (m : Metrics) (rox : Int) (M : List PanelSort) (l : List PanelSort) :
    align_offset_y m 0 ((qsort compare_panel (l.map (align_second m rox M))).map
        (align_offset_x m rox))
      = (align_offset_y m 0 ((qsort compare_panel l).map (align_offset_x m rox))).map
          (align_second m rox M) := by
  rw [qsort_second, ← offset_y_second, List.map_map, List.map_map]
  congr 1
  apply List.map_congr_left
  intro a _
  exact offset_x_second m rox M a

/-- With factor 1.0 a panel that is not selected is put on the `float` its target is cast
to. -/
theorem interpolate_one_float (ps : PanelSort) (h : flagTest ps.panel.flag PNL_SELECT = false) :
    (align_interpolate factor_one ps).panel.ofsx =
        (if ps.new_offset_x = ps.panel.ofsx then ps.panel.ofsx
          else float_of_int ps.new_offset_x) ∧
      (align_interpolate factor_one ps).panel.ofsy =
        (if ps.new_offset_y = ps.panel.ofsy then ps.panel.ofsy
          else float_of_int ps.new_offset_y) := by
  unfold align_interpolate
  simp only [h, interp_round_one]
  constructor
  · by_cases hx : ps.new_offset_x = ps.panel.ofsx <;> simp [hx]
  · by_cases hy : ps.new_offset_y = ps.panel.ofsy <;> simp [hy]

theorem interpolate_one_ofsx (ps : PanelSort) (h : flagTest ps.panel.flag PNL_SELECT = false)
    (hx : float_exact ps.new_offset_x = true) :
    (align_interpolate factor_one ps).panel.ofsx = ps.new_offset_x := by
  rw [(interpolate_one_float ps h).1, float_of_int_exact _ hx]
  split_ifs with hc
  · exact hc.symm
  · rfl

theorem interpolate_one_ofsy (ps : PanelSort) (h : flagTest ps.panel.flag PNL_SELECT = false)
    (hy : float_exact ps.new_offset_y = true) :
    (align_interpolate factor_one ps).panel.ofsy = ps.new_offset_y := by
  rw [(interpolate_one_float ps h).2, float_of_int_exact _ hy]
  split_ifs with hc
  · exact hc.symm
  · rfl

theorem interpolate_fixed (f : Factor) (ps : PanelSort)
    (h : flagTest ps.panel.flag PNL_SELECT = false →
      ps.panel.ofsx = ps.new_offset_x ∧ ps.panel.ofsy = ps.new_offset_y) :
    align_interpolate f ps = ps ∧ align_interpolate_changed ps = false := by
  unfold align_interpolate align_interpolate_changed
  by_cases hs : flagTest ps.panel.flag PNL_SELECT = true
  · simp [hs]
  · have hs2 : flagTest ps.panel.flag PNL_SELECT = false := by simpa using hs
    obtain ⟨h1, h2⟩ := h hs2
    obtain ⟨index, panel, nx, ny⟩ := ps
    cases panel
    simp only at h1 h2 hs2
    subst h1 h2
    simp [hs2]

theorem second_write_back (m : Metrics) (rox : Int) (panels : List Panel) (y : PanelSort)
    (hy : y ∈ align_targets m rox panels) (q : Panel) :
    align_write_back_panel ((align_targets m rox panels).map (align_interpolate factor_one))
        y.index q = (align_interpolate factor_one y).panel := by
  have hn : (((align_targets m rox panels).map (align_interpolate factor_one)).map
      (fun ps => ps.index)).Nodup := by
    rw [map_index_interpolate]
    exact targets_index_nodup m rox panels
  have hmem : align_interpolate factor_one y ∈
      (align_targets m rox panels).map (align_interpolate factor_one) :=
    List.mem_map_of_mem _ hy
  have hfind := find?_index_of_mem _ _ hn hmem
  rw [index_interpolate] at hfind
  unfold align_write_back_panel
  rw [hfind]

theorem second_fixed (m : Metrics) (rox : Int) (panels : List Panel) (y : PanelSort)
    (hy : y ∈ align_targets m rox panels)
    (hexact : flagTest y.panel.flag PNL_SELECT = false →
      float_exact y.new_offset_x = true ∧ float_exact y.new_offset_y = true) :
    align_interpolate factor_one
        (align_second m rox ((align_targets m rox panels).map (align_interpolate factor_one)) y)
      = align_second m rox ((align_targets m rox panels).map (align_interpolate factor_one)) y ∧
    align_interpolate_changed
        (align_second m rox ((align_targets m rox panels).map (align_interpolate factor_one)) y)
      = false := by
  apply interpolate_fixed
  intro hs
  rw [second_flag] at hs
  obtain ⟨cs, hp⟩ := second_panel m rox
    ((align_targets m rox panels).map (align_interpolate factor_one)) y
  rw [hp]
  simp only [second_write_back m rox panels y hy]
  exact ⟨interpolate_one_ofsx y hs (hexact hs).1, interpolate_one_ofsy y hs (hexact hs).2⟩

theorem map_index_second (m : Metrics) (rox : Int) (M : List PanelSort) (l : List PanelSort) :
    (l.map (align_second m rox M)).map (fun ps => ps.index) = l.map (fun ps => ps.index) := by
  rw [List.map_map]
  rfl

theorem second_panel_of_mem (m : Metrics) (rox : Int) (panels : List Panel) (y : PanelSort)
    (hy : y ∈ align_targets m rox panels) :
    (align_second m rox ((align_targets m rox panels).map (align_interpolate factor_one)) y).panel
      = align_sub_panels_pass m (align_interpolate factor_one y).panel := by
  obtain ⟨p, _, _, hp⟩ := targets_mem m rox panels y hy
  unfold align_second
  simp only [second_write_back m rox panels y hy]
  congr 1
  have hr : y.panel.region_ofsx = rox := by rw [hp]
  rw [interpolate_panel_eq factor_one y]
  simp only
  rw [← hr]

/-- The panels a non-drag step with factor 1.0 leaves behind are not changed by the writes of
a second step. -/
theorem second_write_back_id (m : Metrics) (rox : Int) (panels : List Panel) :
    align_write_back
        ((align_targets m rox panels).map
          (align_second m rox ((align_targets m rox panels).map (align_interpolate factor_one))))
        0
        ((align_write_back ((align_targets m rox panels).map (align_interpolate factor_one)) 0
          panels).map (align_sub_panels_pass m))
      = (align_write_back ((align_targets m rox panels).map (align_interpolate factor_one)) 0
          panels).map (align_sub_panels_pass m) := by
  apply write_back_id
  intro j q hq
  rw [List.getElem?_map, getElem?_write_back] at hq
  cases hp : panels[j]? with
  | none => rw [hp] at hq; simp at hq
  | some p =>
    rw [hp] at hq
    simp only [Option.map_some', Option.some.injEq, Nat.zero_add] at hq
    rw [Nat.zero_add]
    by_cases hact : flagTest p.runtime_flag PANEL_ACTIVE = true
    · obtain ⟨y, hy, hyi, _, hw⟩ := write_back_active m rox factor_one panels j p hp hact
      rw [hw p] at hq
      have hn : (((align_targets m rox panels).map
          (align_second m rox ((align_targets m rox panels).map (align_interpolate factor_one)))).map
          (fun ps => ps.index)).Nodup := by
        rw [map_index_second]
        exact targets_index_nodup m rox panels
      have hfind := find?_index_of_mem _ _ hn (List.mem_map_of_mem
        (align_second m rox ((align_targets m rox panels).map (align_interpolate factor_one))) hy)
      rw [second_index, hyi] at hfind
      unfold align_write_back_panel
      rw [hfind]
      simp only
      rw [second_panel_of_mem m rox panels y hy, hq]
    · have hi := targets_of_inactive m rox panels j p hp hact
      rw [← map_index_second m rox
        ((align_targets m rox panels).map (align_interpolate factor_one))] at hi
      unfold align_write_back_panel
      rw [find?_index_none _ _ hi]

theorem uiAlignPanelStep_nodrag (m : Metrics) (region : ARegion) (f : Factor) :
    uiAlignPanelStep m region f false =
      if (align_collect 0 region.panels).any (fun ps => ps.panel.type.isNone) = true then none
      else if (align_collect 0 region.panels).length = 0 then some (false, region)
      else
        some ((align_targets m (panel_region_offset_x_get m region) region.panels).any
            align_interpolate_changed,
          { region with
            panels :=
              (align_write_back
                ((align_targets m (panel_region_offset_x_get m region) region.panels).map
                  (align_interpolate f)) 0 region.panels).map (align_sub_panels_pass m) }) := by
  unfold uiAlignPanelStep align_targets
  simp

theorem collect_guard (panels : List Panel)
    (htype : ∀ p ∈ panels, flagTest p.runtime_flag PANEL_ACTIVE = true → p.type.isSome = true) :
    (align_collect 0 panels).any (fun ps => ps.panel.type.isNone) = false := by
  rw [List.any_eq_false]
  intro w hw
  obtain ⟨j, p, hp, hact, rfl⟩ := (collect_spec panels 0 w).mp hw
  have := htype p (List.getElem?_mem hp) hact
  simp only
  cases ht : p.type with
  | none => rw [ht] at this; simp at this
  | some _ => simp

theorem collect_after_step (m : Metrics) (rox : Int) (panels : List Panel) :
    align_collect 0
        ((align_write_back ((align_targets m rox panels).map (align_interpolate factor_one)) 0
          panels).map (align_sub_panels_pass m))
      = (align_collect 0 panels).map
          (align_second m rox ((align_targets m rox panels).map (align_interpolate factor_one))) := by
  apply collect_second
  · intro j p hp hact
    obtain ⟨y, _, _, hyp, hw⟩ := write_back_active m rox factor_one panels j p hp hact
    rw [Nat.zero_add, hw p, interpolate_panel_eq factor_one y, hyp]
  · intro j p hp hact
    rw [Nat.zero_add]
    exact write_back_inactive m rox factor_one panels j p hp hact p

/-- A non-drag align step with factor 1.0, on a region whose active panels all have a type
and whose targets (of the panels that are not selected) are held exactly by a `float`,
returns a region on which a second such step changes nothing and returns false. -/
theorem step_twice (m : Metrics) (region : ARegion)
    (htype : ∀ p ∈ region.panels,
      flagTest p.runtime_flag PANEL_ACTIVE = true → p.type.isSome = true)
    (hexact : ∀ y ∈ align_targets m (panel_region_offset_x_get m region) region.panels,
      flagTest y.panel.flag PNL_SELECT = false →
        float_exact y.new_offset_x = true ∧ float_exact y.new_offset_y = true) :
    ∃ changed region1,
      uiAlignPanelStep m region factor_one false = some (changed, region1) ∧
        uiAlignPanelStep m region1 factor_one false = some (false, region1) := by
  have hguard := collect_guard region.panels htype
  by_cases hlen : (align_collect 0 region.panels).length = 0
  · refine ⟨false, region, ?_, ?_⟩ <;>
      · rw [uiAlignPanelStep_nodrag, hguard, if_neg (by simp), if_pos hlen]
  · refine ⟨(align_targets m (panel_region_offset_x_get m region) region.panels).any
        align_interpolate_changed,
      { region with
        panels :=
          (align_write_back
            ((align_targets m (panel_region_offset_x_get m region) region.panels).map
              (align_interpolate factor_one)) 0 region.panels).map (align_sub_panels_pass m) },
      ?_, ?_⟩
    · rw [uiAlignPanelStep_nodrag, hguard, if_neg (by simp), if_neg hlen]
    · rw [uiAlignPanelStep_nodrag]
      have hrox : ∀ ps : List Panel,
          panel_region_offset_x_get m { region with panels := ps }
            = panel_region_offset_x_get m region := fun _ => rfl
      simp only [hrox]
      generalize hr : panel_region_offset_x_get m region = rox at hexact ⊢
      have hc := collect_after_step m rox region.panels
      have ht : align_targets m rox
            ((align_write_back ((align_targets m rox region.panels).map
              (align_interpolate factor_one)) 0 region.panels).map (align_sub_panels_pass m))
          = (align_targets m rox region.panels).map
              (align_second m rox ((align_targets m rox region.panels).map
                (align_interpolate factor_one))) := by
        unfold align_targets
        rw [← targets_second]
        unfold align_targets at hc
        rw [hc]
      rw [hc, ht]
      have hg2 : ((align_collect 0 region.panels).map
          (align_second m rox ((align_targets m rox region.panels).map
            (align_interpolate factor_one)))).any (fun ps => ps.panel.type.isNone) = false := by
        rw [List.any_map]
        rw [← hguard]
        congr 1
        funext ps
        simp only [Function.comp, second_type]
      rw [hg2, if_neg (by simp), if_neg (by rw [List.length_map]; exact hlen)]
      have hch : ((align_targets m rox region.panels).map
          (align_second m rox ((align_targets m rox region.panels).map
            (align_interpolate factor_one)))).any align_interpolate_changed = false := by
        rw [List.any_eq_false]
        intro w hw
        rw [List.mem_map] at hw
        obtain ⟨y, hy, rfl⟩ := hw
        rw [(second_fixed m rox region.panels y hy (hexact y hy)).2]
        simp
      have hmv : ((align_targets m rox region.panels).map
          (align_second m rox ((align_targets m rox region.panels).map
            (align_interpolate factor_one)))).map (align_interpolate factor_one)
          = (align_targets m rox region.panels).map
            (align_second m rox ((align_targets m rox region.panels).map
              (align_interpolate factor_one))) := by
        rw [List.map_map]
        apply List.map_congr_left
        intro y hy
        exact (second_fixed m rox region.panels y hy (hexact y hy)).1
      rw [hch, hmv, second_write_back_id, List.map_map]
      have hpp : (align_sub_panels_pass m ∘ align_sub_panels_pass m) = align_sub_panels_pass m :=
        funext (pass_pass m)
      rw [hpp]

/-! ### Expansion bit-field -/

theorem flagTest_two_pow (v j : Nat) : flagTest v (2 ^ j) = v.testBit j := by
  unfold flagTest
  rw [Nat.and_two_pow]
  cases v.testBit j <;> simp

theorem expand_bit_lt (j : Nat) (h : j < 32) : expand_bit j = 2 ^ j := by
  unfold expand_bit
  rw [Nat.one_shiftLeft, Nat.mod_eq_of_lt (Nat.pow_lt_pow_right (by decide) h)]

theorem expand_bit_ge (j : Nat) (h : 32 ≤ j) : expand_bit j = 0 := by
  unfold expand_bit
  rw [Nat.one_shiftLeft]
  obtain ⟨k, rfl⟩ : ∃ k, j = 32 + k := ⟨j - 32, by omega⟩
  rw [Nat.pow_add]
  exact Nat.mul_mod_right _ _

theorem testBit_int_of_short (f j : Nat) (h : j < 16) :
    (int_of_short f).testBit j = f.testBit j := by
  unfold int_of_short
  split
  · rw [Nat.testBit_or]
    have : (2 ^ 32 - 2 ^ 16).testBit j = false := by
      interval_cases j <;> rfl
    rw [this, Bool.or_false]
  · rfl

theorem read_bit (f j : Nat) (h : j < 16) :
    flagTest (int_of_short f) (expand_bit j) = f.testBit j := by
  rw [expand_bit_lt j (by omega), flagTest_two_pow, testBit_int_of_short f j h]

theorem testBit_set (f idx j : Nat) (b : Bool) (hj : j < 16) :
    (short_of_int (SET_FLAG_FROM_TEST (int_of_short f) b (expand_bit idx))).testBit j
      = if j = idx then b else f.testBit j := by
  unfold short_of_int
  rw [Nat.testBit_mod_two_pow]
  simp only [hj, decide_True, Bool.true_and]
  by_cases hidx : idx < 32
  · rw [expand_bit_lt idx hidx]
    unfold SET_FLAG_FROM_TEST flagSet flagClear
    cases b
    · simp only [Bool.false_eq_true, if_false, Nat.testBit_xor, Nat.testBit_and, Nat.testBit_two_pow,
        testBit_int_of_short f j hj]
      by_cases hji : j = idx
      · subst hji
        simp
      · have : ¬ idx = j := fun h => hji h.symm
        simp [hji, this]
    · simp only [if_true, Nat.testBit_or, Nat.testBit_two_pow, testBit_int_of_short f j hj]
      by_cases hji : j = idx
      · subst hji
        simp
      · have : ¬ idx = j := fun h => hji h.symm
        simp [hji, this]
  · rw [expand_bit_ge idx (by omega)]
    have hji : ¬ j = idx := by omega
    unfold SET_FLAG_FROM_TEST flagSet flagClear
    cases b <;> simp [hji, testBit_int_of_short f j hj]

theorem flagTest_SET (v : Nat) (b : Bool) : flagTest (SET_FLAG_FROM_TEST v b PNL_CLOSED) PNL_CLOSED = b := by
  unfold SET_FLAG_FROM_TEST
  cases b
  · simp [flagTest_flagClear_self]
  · simp [flagTest_flagSet_self v PNL_CLOSED (by decide)]

/-! ### Packing -/

theorem closed_flags_eq (p : Panel) :
    panel_closed_flags p = flagTest p.flag PNL_CLOSED :: panel_closed_flags_children p.children := by
  cases p
  rw [panel_closed_flags]

theorem expand_flag_eq (p : Panel) (flag flag_index : Nat) :
    get_panel_expand_flag p flag flag_index =
      get_panel_expand_flag_children p.children
        (short_of_int (SET_FLAG_FROM_TEST (int_of_short flag) (!flagTest p.flag PNL_CLOSED)
          (expand_bit flag_index))) flag_index := by
  cases p
  rw [get_panel_expand_flag]

mutual
theorem pack_spec :
    ∀ (p : Panel) (f k : Nat),
      (get_panel_expand_flag p f k).2 + 1 = k + (panel_closed_flags p).length ∧
      ∀ j, j < 16 →
        (get_panel_expand_flag p f k).1.testBit j =
          if k ≤ j ∧ j < k + (panel_closed_flags p).length then
            !(panel_closed_flags p).getD (j - k) false
          else f.testBit j
  | ⟨ptr, type, panelname, ofsx, ofsy, sizex, sizey, blocksizex, blocksizey, flag, runtime_flag,
      sortorder, snap, activedata, region_ofsx, custom_data_ptr, children⟩, f, k => by
    have ih := pack_children_spec children
      (short_of_int (SET_FLAG_FROM_TEST (int_of_short f) (!flagTest flag PNL_CLOSED) (expand_bit k))) k
    rw [expand_flag_eq, closed_flags_eq]
    simp only [List.length_cons]
    refine ⟨by rw [ih.1]; omega, ?_⟩
    intro j hj
    rw [ih.2 j hj]
    by_cases h1 : k < j ∧ j ≤ k + (panel_closed_flags_children children).length
    · have h2 : k ≤ j ∧ j < k + ((panel_closed_flags_children children).length + 1) := by omega
      rw [if_pos h1, if_pos h2]
      obtain ⟨d, hd⟩ : ∃ d, j - k = d + 1 := ⟨j - k - 1, by omega⟩
      rw [hd, List.getD_cons_succ]
      have : j - (k + 1) = d := by omega
      rw [this]
    · rw [if_neg h1, testBit_set _ _ _ _ hj]
      by_cases hjk : j = k
      · subst hjk
        simp
      · have h2 : ¬ (k ≤ j ∧ j < k + ((panel_closed_flags_children children).length + 1)) := by omega
        rw [if_neg hjk, if_neg h2]
theorem pack_children_spec :
    ∀ (cs : List Panel) (f k : Nat),
      (get_panel_expand_flag_children cs f k).2 = k + (panel_closed_flags_children cs).length ∧
      ∀ j, j < 16 →
        (get_panel_expand_flag_children cs f k).1.testBit j =
          if k < j ∧ j ≤ k + (panel_closed_flags_children cs).length then
            !(panel_closed_flags_children cs).getD (j - (k + 1)) false
          else f.testBit j
  | [], f, k => by
    simp [get_panel_expand_flag_children, panel_closed_flags_children]
  | c :: rest, f, k => by
    have ih1 := pack_spec c f (k + 1)
    have ih2 := pack_children_spec rest (get_panel_expand_flag c f (k + 1)).1
      (get_panel_expand_flag c f (k + 1)).2
    rw [get_panel_expand_flag_children, panel_closed_flags_children]
    simp only [List.length_append]
    have hpos : 0 < (panel_closed_flags c).length := by rw [closed_flags_eq]; simp
    refine ⟨by rw [ih2.1]; omega, ?_⟩
    intro j hj
    rw [ih2.2 j hj]
    have hk2 : (get_panel_expand_flag c f (k + 1)).2 = k + (panel_closed_flags c).length := by omega
    rw [hk2]
    by_cases h1 : k + (panel_closed_flags c).length < j ∧
        j ≤ k + (panel_closed_flags c).length + (panel_closed_flags_children rest).length
    · have h2 : k < j ∧ j ≤ k + ((panel_closed_flags c).length +
          (panel_closed_flags_children rest).length) := by omega
      rw [if_pos h1, if_pos h2, List.getD_append_right _ _ _ _ (by omega)]
      congr 2
      omega
    · rw [if_neg h1, ih1.2 j hj]
      by_cases h3 : k + 1 ≤ j ∧ j < k + 1 + (panel_closed_flags c).length
      · have h2 : k < j ∧ j ≤ k + ((panel_closed_flags c).length +
            (panel_closed_flags_children rest).length) := by omega
        rw [if_pos h3, if_pos h2, List.getD_append _ _ _ _ (by omega)]
      · have h2 : ¬ (k < j ∧ j ≤ k + ((panel_closed_flags c).length +
            (panel_closed_flags_children rest).length)) := by omega
        rw [if_neg h3, if_neg h2]
end

/-! ### Unpacking -/

theorem set_expand_eq (p : Panel) (flag flag_index : Nat) :
    panel_set_expand_from_list_data_recursive p flag flag_index =
      ({ p with
          flag :=
            SET_FLAG_FROM_TEST p.flag (!flagTest (int_of_short flag) (expand_bit flag_index))
              PNL_CLOSED
          children := (panel_set_expand_from_list_data_children p.children flag flag_index).1 },
        (panel_set_expand_from_list_data_children p.children flag flag_index).2.1,
        (flagTest (int_of_short flag) (expand_bit flag_index) == flagTest p.flag PNL_CLOSED) ||
          (panel_set_expand_from_list_data_children p.children flag flag_index).2.2) := by
  cases p
  rw [panel_set_expand_from_list_data_recursive]

mutual
theorem unpack_spec :
    ∀ (p : Panel) (f k : Nat),
      (panel_set_expand_from_list_data_recursive p f k).2.1 + 1
          = k + (panel_closed_flags p).length ∧
        panel_closed_flags (panel_set_expand_from_list_data_recursive p f k).1 =
          (List.range (panel_closed_flags p).length).map
            (fun i => !flagTest (int_of_short f) (expand_bit (k + i)))
  | ⟨ptr, type, panelname, ofsx, ofsy, sizex, sizey, blocksizex, blocksizey, flag, runtime_flag,
      sortorder, snap, activedata, region_ofsx, custom_data_ptr, children⟩, f, k => by
    have ih := unpack_children_spec children f k
    rw [set_expand_eq, closed_flags_eq, closed_flags_eq]
    simp only [List.length_cons]
    refine ⟨by rw [ih.1]; omega, ?_⟩
    rw [flagTest_SET, ih.2, List.range_succ_eq_map, List.map_cons, List.map_map]
    simp only [Nat.add_zero]
    congr 1
    apply List.map_congr_left
    intro i _
    simp only [Function.comp, Nat.succ_eq_add_one]
    congr 3
    omega
theorem unpack_children_spec :
    ∀ (cs : List Panel) (f k : Nat),
      (panel_set_expand_from_list_data_children cs f k).2.1
          = k + (panel_closed_flags_children cs).length ∧
        panel_closed_flags_children (panel_set_expand_from_list_data_children cs f k).1 =
          (List.range (panel_closed_flags_children cs).length).map
            (fun i => !flagTest (int_of_short f) (expand_bit (k + 1 + i)))
  | [], f, k => by
    simp [panel_set_expand_from_list_data_children, panel_closed_flags_children]
  | c :: rest, f, k => by
    have ih1 := unpack_spec c f (k + 1)
    have ih2 := unpack_children_spec rest f
      (panel_set_expand_from_list_data_recursive c f (k + 1)).2.1
    have hpos : 0 < (panel_closed_flags c).length := by rw [closed_flags_eq]; simp
    have hk2 : (panel_set_expand_from_list_data_recursive c f (k + 1)).2.1
        = k + (panel_closed_flags c).length := by omega
    rw [panel_set_expand_from_list_data_children]
    simp only [panel_closed_flags_children, List.length_append]
    refine ⟨by rw [ih2.1]; omega, ?_⟩
    rw [ih1.2, ih2.2, hk2, List.range_add, List.map_append, List.map_map]
    congr 1
    apply List.map_congr_left
    intro i _
    simp only [Function.comp]
    congr 3
    omega
end

mutual
theorem same_shape_length :
    ∀ (a b : Panel), panel_same_shape a b = true →
      (panel_closed_flags a).length = (panel_closed_flags b).length
  | ⟨ptr, type, panelname, ofsx, ofsy, sizex, sizey, blocksizex, blocksizey, flag, runtime_flag,
      sortorder, snap, activedata, region_ofsx, custom_data_ptr, children⟩, b, h => by
    rw [panel_same_shape] at h
    rw [closed_flags_eq, closed_flags_eq b]
    simp only [List.length_cons]
    rw [same_shape_children_length children b.children h]
theorem same_shape_children_length :
    ∀ (as bs : List Panel), panel_same_shape_children as bs = true →
      (panel_closed_flags_children as).length = (panel_closed_flags_children bs).length
  | [], [], _ => rfl
  | [], _ :: _, h => by simp [panel_same_shape_children] at h
  | _ :: _, [], h => by simp [panel_same_shape_children] at h
  | a :: as, b :: bs, h => by
    rw [panel_same_shape_children, Bool.and_eq_true] at h
    simp only [panel_closed_flags_children, List.length_append]
    rw [same_shape_length a b h.1, same_shape_children_length as bs h.2]
end

theorem map_range_getD (l : List Bool) :
    (List.range l.length).map (fun i => l.getD i false) = l := by
  apply List.ext_getElem
  · simp
  · intro n h1 h2
    simp at h1
    simp [List.getD_eq_getElem?_getD, List.getElem?_eq_getElem h2]

/-- C5 (amended): for a panel tree with at most 16 nodes, packing the open/closed state with
`get_panel_expand_flag` (from any initial value of the bit-field) and unpacking the result
with `panel_set_expand_from_list_data_recursive` onto a tree of the same shape gives every
node the closed flag it had in the packed tree, whatever the target tree held before. -/
theorem expand_flag_roundtrip (src tgt : Panel) (flag0 : Nat)
    (hshape : panel_same_shape src tgt = true)
    (hcount : (panel_closed_flags src).length ≤ 16) :
    panel_closed_flags
        (panel_set_expand_from_list_data_recursive tgt
          (get_panel_expand_flag src flag0 0).1 0).1
      = panel_closed_flags src := by
  rw [(unpack_spec tgt _ 0).2, ← same_shape_length src tgt hshape]
  conv_rhs => rw [← map_range_getD (panel_closed_flags src)]
  apply List.map_congr_left
  intro i hi
  rw [List.mem_range] at hi
  rw [Nat.zero_add, read_bit _ i (by omega), (pack_spec src flag0 0).2 i (by omega)]
  simp [hi]

/-- C5 (counterexample): on a tree of 17 nodes whose seventeenth node is closed, unpacking
the packed bit-field onto the same tree opens that node. -/
theorem expand_flag_roundtrip_fails :
    panel_same_shape expand_example expand_example = true ∧
      panel_closed_flags
          (panel_set_expand_from_list_data_recursive expand_example
            (get_panel_expand_flag expand_example 0 0).1 0).1
        ≠ panel_closed_flags expand_example := by
  decide

/-! ### Matching instanced panels against list data -/

theorem instanced_cons (p : Panel) (ps : List Panel) :
    instanced_panels (p :: ps) =
      if p.type_has PNL_INSTANCED = true then p :: instanced_panels ps else instanced_panels ps := by
  unfold instanced_panels
  rw [List.filter_cons]

theorem matches_loop_spec {Link : Type} (f : Link → String) (panels : List Panel) :
    ∀ (dl : List Link) (i k : Nat),
      UI_panel_list_matches_data_loop f panels dl i = some k ↔
        (∀ p ∈ instanced_panels panels,
          flagTest p.flag PNL_INSTANCED_LIST_ORDER_CHANGED = false) ∧
        ∃ pre rest, dl = pre ++ rest ∧
          pre.map f = (instanced_panels panels).map panel_type_idname ∧ k = i + pre.length := by
  induction panels with
  | nil =>
    intro dl i k
    simp only [UI_panel_list_matches_data_loop, instanced_panels, List.filter_nil, List.map_nil,
      List.not_mem_nil, false_implies, implies_true, true_and, Option.some.injEq]
    constructor
    · intro h
      exact ⟨[], dl, rfl, rfl, by simp [h]⟩
    · rintro ⟨pre, rest, _, h2, h3⟩
      have : pre = [] := by simpa using h2
      subst this
      simp at h3
      exact h3.symm
  | cons p ps ih =>
    intro dl i k
    rw [UI_panel_list_matches_data_loop, instanced_cons]
    cases ht : p.type with
    | none =>
      have hni : ¬ p.type_has PNL_INSTANCED = true := by simp [Panel.type_has, ht]
      rw [if_neg hni]
      exact ih dl i k
    | some pt =>
      simp only
      by_cases hinst : flagTest pt.flag PNL_INSTANCED = true
      · have hi : p.type_has PNL_INSTANCED = true := by simp [Panel.type_has, ht, hinst]
        have hid : panel_type_idname p = pt.idname := by simp [panel_type_idname, ht]
        rw [if_pos hi, if_pos hinst, List.map_cons, hid]
        by_cases hflag : flagTest p.flag PNL_INSTANCED_LIST_ORDER_CHANGED = true
        · rw [if_pos hflag]
          constructor
          · intro h
            cases h
          · rintro ⟨h1, _⟩
            have := h1 p (List.mem_cons_self _ _)
            rw [hflag] at this
            cases this
        · have hflag2 : flagTest p.flag PNL_INSTANCED_LIST_ORDER_CHANGED = false := by
            simpa using hflag
          rw [if_neg hflag]
          cases dl with
          | nil =>
            simp only
            constructor
            · intro h
              cases h
            · rintro ⟨_, pre, rest, h1, h2, _⟩
              cases pre with
              | nil => simp at h2
              | cons a b => simp at h1
          | cons link next =>
            simp only
            by_cases hname : f link = pt.idname
            · rw [if_neg (by simpa using hname), ih next (i + 1) k]
              constructor
              · rintro ⟨h1, pre, rest, h2, h3, h4⟩
                refine ⟨?_, link :: pre, rest, by simp [h2], by simp [hname, h3],
                  by simp [h4]; omega⟩
                intro q hq
                rcases List.mem_cons.mp hq with h | h
                · rw [h]; exact hflag2
                · exact h1 q h
              · rintro ⟨h1, pre, rest, h2, h3, h4⟩
                cases pre with
                | nil => simp at h3
                | cons a pre =>
                  simp at h2 h3 h4
                  exact ⟨fun q hq => h1 q (List.mem_cons_of_mem _ hq), pre, rest, h2.2, h3.2,
                    by omega⟩
            · rw [if_pos (by simpa using hname)]
              constructor
              · intro h
                cases h
              · rintro ⟨_, pre, rest, h2, h3, _⟩
                cases pre with
                | nil => simp at h3
                | cons a pre =>
                  simp at h2 h3
                  exact absurd (by rw [h2.1, h3.1]) hname
      · have hi : ¬ p.type_has PNL_INSTANCED = true := by simp [Panel.type_has, ht, hinst]
        rw [if_neg hi, if_neg hinst]
        exact ih dl i k

theorem matches_aux {Link : Type} (f : Link → String) (panels : List Panel) (dl : List Link) :
    (match UI_panel_list_matches_data_loop f panels dl 0 with
      | none => false
      | some i => if i ≠ dl.length then false else true) = true ↔
      (∀ p ∈ instanced_panels panels,
        flagTest p.flag PNL_INSTANCED_LIST_ORDER_CHANGED = false) ∧
      (instanced_panels panels).map panel_type_idname = dl.map f := by
  cases hloop : UI_panel_list_matches_data_loop f panels dl 0 with
  | none =>
    simp only [Bool.false_eq_true, false_iff]
    rintro ⟨h1, h2⟩
    have := (matches_loop_spec f panels dl 0 dl.length).mpr
      ⟨h1, dl, [], by simp, h2.symm, by simp⟩
    rw [hloop] at this
    cases this
  | some k =>
    obtain ⟨h1, pre, rest, h2, h3, h4⟩ := (matches_loop_spec f panels dl 0 k).mp hloop
    simp only
    constructor
    · intro h
      have hk : k = dl.length := by
        by_contra hne
        simp [hne] at h
      refine ⟨h1, ?_⟩
      have hr : rest = [] := by
        have := congrArg List.length h2
        simp at this
        have : rest.length = 0 := by omega
        exact List.length_eq_zero.mp this
      rw [h2, hr, List.append_nil, h3]
    · rintro ⟨_, h5⟩
      have hk : k = dl.length := by
        have := congrArg List.length h5
        have h6 := congrArg List.length h3
        have h7 := congrArg List.length h2
        simp at this h6 h7
        omega
      simp [hk]

theorem matches_data_iff {Link : Type} (region : ARegion) (data : Option (List Link))
    (f : Link → String) :
    UI_panel_list_matches_data region data f = true ↔
      (∀ p ∈ instanced_panels region.panels,
        flagTest p.flag PNL_INSTANCED_LIST_ORDER_CHANGED = false) ∧
      (instanced_panels region.panels).map panel_type_idname = (data.getD []).map f := by
  cases data with
  | none => exact matches_aux f region.panels []
  | some d => exact matches_aux f region.panels d

/-- C6: `UI_panel_list_matches_data` returns true exactly when no instanced panel of the
region carries the list-order-changed flag and the type identifiers of the instanced
panels, in list order, are the identifiers the callback yields for the data items (a `NULL`
list counting as empty), panels that are not instanced being ignored; in particular
instanced panels `[X, Y, Z]` against data `[X, Z]` give false. -/
theorem UI_panel_list_matches_data_spec {Link : Type} (region : ARegion)
    (data : Option (List Link)) (panel_idname_func : Link → String) :
    (UI_panel_list_matches_data region data panel_idname_func = true ↔
      (∀ p ∈ instanced_panels region.panels,
        flagTest p.flag PNL_INSTANCED_LIST_ORDER_CHANGED = false) ∧
      (instanced_panels region.panels).map panel_type_idname
        = (data.getD []).map panel_idname_func) ∧
    (∀ X Y Z : String,
      (instanced_panels region.panels).map panel_type_idname = [X, Y, Z] →
      (data.getD []).map panel_idname_func = [X, Z] →
      UI_panel_list_matches_data region data panel_idname_func = false) := by
  refine ⟨matches_data_iff region data panel_idname_func, ?_⟩
  intro X Y Z h1 h2
  cases h : UI_panel_list_matches_data region data panel_idname_func with
  | false => rfl
  | true =>
    have := ((matches_data_iff region data panel_idname_func).mp h).2
    rw [h1, h2] at this
    simp at this

/-- C6 (instance): three instanced panels X, Y, Z against the data list X, Z. -/
theorem UI_panel_list_matches_data_spec_witness :
    UI_panel_list_matches_data
        (region_of_panels
          [example_panel 1 (instanced_type "X") 0 20, example_panel 2 (instanced_type "Y") 1 20,
            example_panel 3 (instanced_type "Z") 2 20])
        (some ["X", "Z"]) id = false :=
  (UI_panel_list_matches_data_spec _ (some ["X", "Z"]) id).2 "X" "Y" "Z" (by decide) (by decide)

/-! ### Category cycling -/

/-- C8 (counterexample): with the tabs A, B, C and C active, an accepted wheel-down event
leaves C the active category; A does not become active. -/
theorem category_wheel_down_does_not_wrap :
    (ui_handle_panel_category_cycling example_wheel_down example_categories false).1
        = WM_UI_HANDLER_BREAK ∧
      (UI_panel_category_active_get example_categories false).1 = some "C" ∧
      (UI_panel_category_active_get
        (ui_handle_panel_category_cycling example_wheel_down example_categories false).2
        false).1 = some "C" ∧
      (UI_panel_category_active_get
        (ui_handle_panel_category_cycling example_wheel_down example_categories false).2
        false).1 ≠ some "A" := by
  decide

/-- C8 (amended): in a region with the three category tabs A, B, C, the last of which is
the active one, a wheel-down event handled by `ui_handle_panel_category_cycling` leaves the
region as it is, so C stays the active category: the wheel does not wrap around. -/
theorem category_wheel_down_at_last (event : wmEvent) (region : ARegion)
    (A B C : PanelCategoryDyn) (active_but_cycles : Bool)
    (htype : event.type = EventType.WHEELDOWNMOUSE)
    (hcat : region.panels_category = [A, B, C])
    (hAC : A.idname ≠ C.idname) (hBC : B.idname ≠ C.idname)
    (hactive : (UI_panel_category_active_get region false).1 = some C.idname) :
    (ui_handle_panel_category_cycling event region active_but_cycles).2 = region ∧
      (UI_panel_category_active_get
        (ui_handle_panel_category_cycling event region active_but_cycles).2 false).1
        = some C.idname := by
  have hfind : UI_panel_category_find region C.idname = some 2 := by
    unfold UI_panel_category_find
    rw [hcat]
    have h1 : (A.idname == C.idname) = false := by simpa using hAC
    have h2 : (B.idname == C.idname) = false := by simpa using hBC
    simp [List.findIdx?_cons, h1, h2]
  have hreg : (ui_handle_panel_category_cycling event region active_but_cycles).2 = region := by
    have hnext : region.panels_category.get? (2 + 1) = none := by rw [hcat]; rfl
    unfold ui_handle_panel_category_cycling
    simp only [htype, hactive, hfind, hnext]
    simp only [decide_True, Bool.or_true, if_true]
    split_ifs <;> rfl
  rw [hreg]
  exact ⟨rfl, hactive⟩

/-- C8 (amended, instance): the tabs A, B, C with C active and a wheel-down event. -/
theorem category_wheel_down_at_last_witness :
    (ui_handle_panel_category_cycling example_wheel_down example_categories false).2
        = example_categories ∧
      (UI_panel_category_active_get
        (ui_handle_panel_category_cycling example_wheel_down example_categories false).2
        false).1 = some "C" :=
  category_wheel_down_at_last example_wheel_down example_categories
    { idname := "A", rect_xmin := 0, rect_xmax := 20 }
    { idname := "B", rect_xmin := 0, rect_xmax := 20 }
    { idname := "C", rect_xmin := 0, rect_xmax := 20 } false rfl rfl (by decide) (by decide)
    (by decide)

/-! ### Deleting instanced panels -/

/-- C10 (failing input): an instanced panel whose sub-panel (address 2) is animating.
`UI_panels_free_instanced` with a context frees both panels, and afterwards the modal
handler of the sub-panel is still registered and its timer still runs. -/
theorem UI_panels_free_instanced_keeps_sub_panel_handler :
    2 ∈ UI_panels_free_instanced_freed example_instanced ∧
      (UI_panels_free_instanced (some example_instanced_context) example_instanced).2.panels.length
        = 0 ∧
      (UI_panels_free_instanced (some example_instanced_context) example_instanced).1.map
          (fun C => (C.modalhandlers, C.timers))
        = some ([wmEventHandler.ui_handler_panel 2], [7]) := by
  decide

/-! ### Header actions -/

theorem panel_at_store (path : List Nat) :
    ∀ (lb : List Panel) (p q : Panel), panel_at lb path = some p →
      panel_at (panel_store lb path q) path = some q := by
  induction path with
  | nil => intro lb p q h; simp [panel_at] at h
  | cons i rest ih =>
    intro lb p q h
    cases rest with
    | nil =>
      simp only [panel_at, panel_store] at h ⊢
      rw [List.get?_eq_getElem?] at h ⊢
      rw [List.getElem?_set_self', h]
      rfl
    | cons j rest =>
      simp only [panel_at, panel_store] at h ⊢
      cases hg : lb.get? i with
      | none => rw [hg] at h; simp at h
      | some parent =>
        rw [hg] at h
        simp only at h ⊢
        rw [List.get?_eq_getElem?] at hg ⊢
        rw [List.getElem?_set_self', hg]
        exact ih parent.children p q h

theorem set_flag_eq (p : Panel) (flag : Nat) (value : Bool) :
    (panel_set_flag_recursive p flag value).1 =
      { p with
        flag := SET_FLAG_FROM_TEST p.flag value flag
        children := (panel_set_flag_recursive_children p.children flag value).1 } := by
  cases p
  rw [panel_set_flag_recursive]

theorem flagTest_SET_select_closed (v : Nat) (b : Bool) :
    flagTest (SET_FLAG_FROM_TEST v b PNL_SELECT) PNL_CLOSED = flagTest v PNL_CLOSED := by
  unfold SET_FLAG_FROM_TEST
  cases b
  · simp [flagTest_flagClear_of_disjoint v PNL_SELECT PNL_CLOSED (by decide)]
  · simp [flagTest_flagSet_of_disjoint v PNL_SELECT PNL_CLOSED (by decide)]

theorem activate_state_keeps (C : bContext) (p : Panel) (state : uiHandlePanelState) :
    (panel_activate_state C p state).2.ofsy = p.ofsy ∧
      flagTest (panel_activate_state C p state).2.flag PNL_CLOSED = flagTest p.flag PNL_CLOSED := by
  unfold panel_activate_state
  simp only []
  split_ifs <;>
    first
    | exact ⟨rfl, rfl⟩
    | (simp only [set_flag_eq]
       exact ⟨trivial, flagTest_SET_select_closed _ _⟩)

/-- C9: the expand/collapse header action of `ui_handle_panel_header` without the control
modifier toggles the closed flag of the panel; with the bottom-snap flag it sets `ofsy` to 0
when it opens a closed panel and to `-sizey` when it closes an open one, and without that
flag it leaves `ofsy` unchanged. -/
theorem ui_handle_panel_header_snap (m : Metrics) (C : bContext) (region : ARegion)
    (rect_xmax : Int) (view_reset : Int × Int) (panel : List Nat) (mx : Int)
    (event_type : EventType) (shift : Bool) (p : Panel) (pt : PanelType)
    (hp : panel_at region.panels panel = some p) (ht : p.type = some pt)
    (_hheader : flagTest pt.flag PNL_NO_HEADER = false)
    (hpin : header_is_pin_action region pt event_type shift = false)
    (hexp : header_is_expand_action m region rect_xmax p pt mx event_type = true) :
    ∃ C1 region1 p1,
      ui_handle_panel_header m C region rect_xmax view_reset panel mx event_type false shift
        = some (C1, region1) ∧
      panel_at region1.panels panel = some p1 ∧
      flagTest p1.flag PNL_CLOSED = !flagTest p.flag PNL_CLOSED ∧
      p1.ofsy =
        if flagTest p.snap PNL_SNAP_BOTTOM then
          (if flagTest p.flag PNL_CLOSED then 0 else -p.sizey)
        else p.ofsy := by
  unfold ui_handle_panel_header
  simp only [hp, ht, hpin, hexp, Bool.false_and, Bool.false_eq_true, if_false, if_true]
  refine ⟨_, _, _, rfl, panel_at_store panel region.panels p _ hp, ?_, ?_⟩
  · rw [(activate_state_keeps _ _ _).2]
    by_cases hc : flagTest p.flag PNL_CLOSED = true
    · simp [hc, flagTest_flagClear_self]
    · have hc2 : flagTest p.flag PNL_CLOSED = false := by simpa using hc
      simp [hc2, flagTest_flagSet_self p.flag PNL_CLOSED (by decide)]
  · rw [(activate_state_keeps _ _ _).1]
    by_cases hc : flagTest p.flag PNL_CLOSED = true
    · simp [hc]
    · have hc2 : flagTest p.flag PNL_CLOSED = false := by simpa using hc
      simp [hc2]

/-! ### Three stacked panels -/

theorem collect_map_panel (l : List Panel) :
    ∀ k, (align_collect k l).map (fun ps => ps.panel)
      = l.filter (fun p => flagTest p.runtime_flag PANEL_ACTIVE) := by
  induction l with
  | nil => intro k; rfl
  | cons a rest ih =>
    intro k
    rw [align_collect, List.filter_cons]
    split <;> simp [ih]

theorem compare_panel_le (x y : PanelSort) :
    compare_panel x y ≤ 0 ↔ x.panel.sortorder ≤ y.panel.sortorder := by
  unfold compare_panel
  split_ifs <;> constructor <;> intro h <;> omega

theorem qsort_sorted (l : List PanelSort) :
    List.Pairwise (fun x y : PanelSort => x.panel.sortorder ≤ y.panel.sortorder)
      (qsort compare_panel l) := by
  have hrel : (fun x y : PanelSort => compare_panel x y ≤ 0)
      = fun x y => x.panel.sortorder ≤ y.panel.sortorder := by
    funext x y
    exact propext (compare_panel_le x y)
  unfold qsort
  induction l with
  | nil => simp
  | cons a rest ih =>
    rw [List.insertionSort]
    have key : ∀ (s : List PanelSort),
        List.Pairwise (fun x y : PanelSort => x.panel.sortorder ≤ y.panel.sortorder) s →
        List.Pairwise (fun x y : PanelSort => x.panel.sortorder ≤ y.panel.sortorder)
          (List.orderedInsert (fun a b => compare_panel a b ≤ 0) a s) := by
      intro s hs
      induction s with
      | nil => simp
      | cons b s ihs =>
        rw [List.orderedInsert]
        rw [List.pairwise_cons] at hs
        by_cases hab : compare_panel a b ≤ 0
        · rw [if_pos hab]
          have hab2 := (compare_panel_le a b).mp hab
          refine List.Pairwise.cons ?_ (List.Pairwise.cons hs.1 hs.2)
          intro z hz
          rcases List.mem_cons.mp hz with h | h
          · rw [h]; exact hab2
          · exact le_trans hab2 (hs.1 z h)
        · rw [if_neg hab]
          have hba : b.panel.sortorder ≤ a.panel.sortorder := by
            have := (compare_panel_le a b).not.mp hab
            omega
          refine List.Pairwise.cons ?_ (ihs hs.2)
          intro z hz
          rw [List.mem_orderedInsert] at hz
          rcases hz with h | h
          · rw [h]; exact hba
          · exact hs.1 z h
    exact key _ ih

theorem sorted_panels_eq (l : List Panel) (a b c : Panel)
    (hperm : l.Perm [a, b, c])
    (hsorted : List.Pairwise (fun x y : Panel => x.sortorder ≤ y.sortorder) l)
    (hab : a.sortorder < b.sortorder) (hbc : b.sortorder < c.sortorder) :
    l = [a, b, c] := by
  have hlen := hperm.length_eq
  match l, hlen with
  | [x, y, z], _ =>
    simp only [List.pairwise_cons, List.mem_cons, List.mem_singleton, forall_eq_or_imp,
      forall_eq, List.not_mem_nil, false_implies, implies_true, List.Pairwise.nil,
      and_true] at hsorted
    obtain ⟨⟨hxy, hxz⟩, hyz⟩ := hsorted
    have hx : x ∈ [a, b, c] := hperm.mem_iff.mp (by simp)
    have hy : y ∈ [a, b, c] := hperm.mem_iff.mp (by simp)
    have hz : z ∈ [a, b, c] := hperm.mem_iff.mp (by simp)
    have ha : a ∈ [x, y, z] := hperm.mem_iff.mpr (by simp)
    have hb : b ∈ [x, y, z] := hperm.mem_iff.mpr (by simp)
    have hc : c ∈ [x, y, z] := hperm.mem_iff.mpr (by simp)
    simp only [List.mem_cons, List.mem_singleton, List.not_mem_nil, or_false] at hx hy hz ha hb hc
    have hxa : x = a := by
      rcases ha with h | h | h
      · exact h.symm
      · rcases hx with h2 | h2 | h2
        · exact h2
        · subst h h2; omega
        · subst h h2; omega
      · rcases hx with h2 | h2 | h2
        · exact h2
        · subst h h2; omega
        · subst h h2; omega
    have hzc : z = c := by
      rcases hc with h | h | h
      · rcases hz with h2 | h2 | h2
        · subst h h2; omega
        · subst h h2; omega
        · exact h2
      · rcases hz with h2 | h2 | h2
        · subst h h2; omega
        · subst h h2; omega
        · exact h2
      · exact h.symm
    have hyb : y = b := by
      rcases hb with h | h | h
      · rw [hxa] at h; rw [h] at hab; omega
      · exact h.symm
      · rw [hzc] at h; rw [h] at hbc; omega
    rw [hxa, hyb, hzc]

theorem real_size_region_ofsx (m : Metrics) (p : Panel) (r : Int) :
    get_panel_real_size_y m { p with region_ofsx := r } = get_panel_real_size_y m p := rfl

theorem targets_three (m : Metrics) (rox : Int) (panels : List Panel) (a b c : Panel)
    (hperm : (panels.filter (fun p => flagTest p.runtime_flag PANEL_ACTIVE)).Perm [a, b, c])
    (hab : a.sortorder < b.sortorder) (hbc : b.sortorder < c.sortorder)
    (hbox : ∀ p ∈ [a, b, c], p.type_has PNL_DRAW_BOX = false)
    (hclosed : ∀ p ∈ [a, b, c], flagTest p.flag PNL_CLOSED = false)
    (y : PanelSort) (hy : y ∈ align_targets m rox panels) :
    (y.panel = { a with region_ofsx := rox } ∧ y.new_offset_y = 0 - get_panel_real_size_y m a) ∨
    (y.panel = { b with region_ofsx := rox } ∧
      y.new_offset_y = 0 - get_panel_real_size_y m a - get_panel_real_size_y m b) ∨
    (y.panel = { c with region_ofsx := rox } ∧
      y.new_offset_y = 0 - get_panel_real_size_y m a - get_panel_real_size_y m b
        - get_panel_real_size_y m c) := by
  have hS : (qsort compare_panel (align_collect 0 panels)).map (fun ps => ps.panel) = [a, b, c] := by
    apply sorted_panels_eq _ a b c _ _ hab hbc
    · have h1 : ((qsort compare_panel (align_collect 0 panels)).map (fun ps => ps.panel)).Perm
          ((align_collect 0 panels).map (fun ps => ps.panel)) :=
        (List.perm_insertionSort _ _).map _
      rw [collect_map_panel] at h1
      exact h1.trans hperm
    · rw [List.pairwise_map]
      exact qsort_sorted _
  unfold align_targets at hy
  match hq : qsort compare_panel (align_collect 0 panels), hS with
  | [s0, s1, s2], hS =>
    rw [hq] at hy
    simp only [List.map_cons, List.map_nil, List.cons.injEq, and_true] at hS
    obtain ⟨h0, h1, h2⟩ := hS
    have ba := hbox a (by simp)
    have bb := hbox b (by simp)
    have bc := hbox c (by simp)
    have ca := hclosed a (by simp)
    have cb := hclosed b (by simp)
    have cc := hclosed c (by simp)
    have t0 : (align_offset_x m rox s0).panel = { a with region_ofsx := rox } := by
      rw [← h0]; rfl
    have t1 : (align_offset_x m rox s1).panel = { b with region_ofsx := rox } := by
      rw [← h1]; rfl
    have t2 : (align_offset_x m rox s2).panel = { c with region_ofsx := rox } := by
      rw [← h2]; rfl
    have hbx : ∀ p : Panel, ({ p with region_ofsx := rox } : Panel).type_has PNL_DRAW_BOX
        = p.type_has PNL_DRAW_BOX := fun _ => rfl
    simp only [List.map_cons, List.map_nil, align_offset_y, t0, t1, t2, real_size_region_ofsx,
      hbx, ba, bb, bc, ca, cb, cc, Bool.false_eq_true, if_false, List.mem_cons,
      List.mem_singleton, List.not_mem_nil, or_false] at hy
    rcases hy with h | h | h
    · left
      rw [h]
      exact ⟨rfl, rfl⟩
    · right; left
      rw [h]
      exact ⟨rfl, rfl⟩
    · right; right
      rw [h]
      exact ⟨rfl, rfl⟩

/-- C7 (counterexample): three open header-bearing panels of real heights 40, 120 and 60:
the align step with factor 1.0 gives them the vertical offsets -40, -160 and -220, not 0,
-40 and -160. -/
theorem align_three_example_offsets :
    [example_panel 1 (plain_type "a") 0 20, example_panel 2 (plain_type "b") 1 100,
        example_panel 3 (plain_type "c") 2 40].map (get_panel_real_size_y example_metrics)
      = [40, 120, 60] ∧
    (uiAlignPanelStep example_metrics example_three factor_one false).map
        (fun r => r.2.panels.map (fun p => p.ofsy)) = some [-40, -160, -220] ∧
    (uiAlignPanelStep example_metrics example_three factor_one false).map
        (fun r => r.2.panels.map (fun p => p.ofsy)) ≠ some [0, -40, -160] := by
  decide

/-- C7 (amended): for a region whose active top-level panels are three open, header-bearing,
non-box, non-selected panels `a`, `b`, `c` (in ascending sort order) of real heights 40, 120
and 60, the non-drag align step with factor 1.0 gives them the vertical offsets -40, -160
and -220: the offset is the lower edge of a panel, and the upper edges (offset plus real
height) are 0, -40 and -160. -/
theorem align_three_panels (m : Metrics) (region : ARegion) (a b c : Panel)
    (hperm : (region.panels.filter (fun p => flagTest p.runtime_flag PANEL_ACTIVE)).Perm [a, b, c])
    (hab : a.sortorder < b.sortorder) (hbc : b.sortorder < c.sortorder)
    (htype : ∀ p ∈ [a, b, c], p.type.isSome = true)
    (_hheader : ∀ p ∈ [a, b, c], p.type_has PNL_NO_HEADER = false)
    (hbox : ∀ p ∈ [a, b, c], p.type_has PNL_DRAW_BOX = false)
    (hclosed : ∀ p ∈ [a, b, c], flagTest p.flag PNL_CLOSED = false)
    (hselect : ∀ p ∈ [a, b, c], flagTest p.flag PNL_SELECT = false)
    (ha : get_panel_real_size_y m a = 40) (hb : get_panel_real_size_y m b = 120)
    (hc : get_panel_real_size_y m c = 60) :
    ∃ changed region1,
      uiAlignPanelStep m region factor_one false = some (changed, region1) ∧
      ∀ (i : Nat) (p : Panel), region.panels[i]? = some p →
        flagTest p.runtime_flag PANEL_ACTIVE = true →
        ∃ q, region1.panels[i]? = some q ∧ q.ptr = p.ptr ∧ q.sortorder = p.sortorder ∧
          q.ofsy = (if p.sortorder = a.sortorder then -40
            else if p.sortorder = b.sortorder then -160 else -220) ∧
          q.ofsy + get_panel_real_size_y m q = (if p.sortorder = a.sortorder then 0
            else if p.sortorder = b.sortorder then -40 else -160) := by
  have hmem : ∀ p ∈ region.panels, flagTest p.runtime_flag PANEL_ACTIVE = true → p ∈ [a, b, c] := by
    intro p hp hact
    exact hperm.mem_iff.mp (List.mem_filter.mpr ⟨hp, hact⟩)
  have hguard := collect_guard region.panels (fun p hp hact => htype p (hmem p hp hact))
  have hlen : ¬ (align_collect 0 region.panels).length = 0 := by
    have h1 := congrArg List.length (collect_map_panel region.panels 0)
    rw [List.length_map, hperm.length_eq] at h1
    rw [h1]
    simp
  refine ⟨_, _, by rw [uiAlignPanelStep_nodrag, hguard, if_neg (by simp), if_neg hlen], ?_⟩
  intro i p hp hact
  generalize panel_region_offset_x_get m region = rox
  obtain ⟨y, hy, _, hyp, hw⟩ := write_back_active m rox factor_one region.panels i p hp hact
  have hpm := hmem p (List.getElem?_mem hp) hact
  have hsel : flagTest y.panel.flag PNL_SELECT = false := by
    rw [hyp]
    exact hselect p hpm
  obtain ⟨cs, hcs⟩ := pass_children m (align_interpolate factor_one y).panel
  have hq : ((align_write_back ((align_targets m rox region.panels).map
      (align_interpolate factor_one)) 0 region.panels).map (align_sub_panels_pass m))[i]?
      = some (align_sub_panels_pass m (align_interpolate factor_one y).panel) := by
    rw [List.getElem?_map, getElem?_write_back, hp, Nat.zero_add]
    simp only [Option.map_some', hw]
  have hexact : float_exact y.new_offset_y = true := by
    rcases targets_three m rox region.panels a b c hperm hab hbc hbox hclosed y hy with
      ⟨_, h2⟩ | ⟨_, h2⟩ | ⟨_, h2⟩
    · rw [h2, ha]
      decide
    · rw [h2, ha, hb]
      decide
    · rw [h2, ha, hb, hc]
      decide
  have hofs := interpolate_one_ofsy y hsel hexact
  have hreal : get_panel_real_size_y m (align_sub_panels_pass m (align_interpolate factor_one y).panel)
      = get_panel_real_size_y m p := by
    rw [hcs, interpolate_panel_eq, hyp]
    rfl
  refine ⟨_, hq, by rw [hcs, interpolate_panel_eq, hyp], by rw [hcs, interpolate_panel_eq, hyp], ?_⟩
  have hofs2 : (align_sub_panels_pass m (align_interpolate factor_one y).panel).ofsy
      = y.new_offset_y := by
    rw [hcs]
    exact hofs
  rw [hreal, hofs2]
  have hso : y.panel.sortorder = p.sortorder := by rw [hyp]
  rcases targets_three m rox region.panels a b c hperm hab hbc hbox hclosed y hy with
    ⟨h1, h2⟩ | ⟨h1, h2⟩ | ⟨h1, h2⟩
  · have e : p.sortorder = a.sortorder := by rw [← hso, h1]
    have er : get_panel_real_size_y m p = 40 := by
      have : get_panel_real_size_y m y.panel = get_panel_real_size_y m p := by rw [hyp]; rfl
      rw [← this, h1]
      exact ha
    rw [h2, ha, er]
    simp [e]
  · have e : p.sortorder = b.sortorder := by rw [← hso, h1]
    have er : get_panel_real_size_y m p = 120 := by
      have : get_panel_real_size_y m y.panel = get_panel_real_size_y m p := by rw [hyp]; rfl
      rw [← this, h1]
      exact hb
    have ne : ¬ b.sortorder = a.sortorder := by omega
    rw [h2, ha, hb, er, e]
    simp [ne]
  · have e : p.sortorder = c.sortorder := by rw [← hso, h1]
    have er : get_panel_real_size_y m p = 60 := by
      have : get_panel_real_size_y m y.panel = get_panel_real_size_y m p := by rw [hyp]; rfl
      rw [← this, h1]
      exact hc
    have ne1 : ¬ c.sortorder = a.sortorder := by omega
    have ne2 : ¬ c.sortorder = b.sortorder := by omega
    rw [h2, ha, hb, hc, er, e]
    simp [ne1, ne2]

/-- C1 (instance): a closed panel begun with a headerless, default-closed type. -/
theorem UI_panel_begin_headerless_open_witness :
    flagTest headerless_type.flag PNL_NO_HEADER = true ∧
      flagTest (UI_panel_begin [leaf_panel true] headerless_type (some ⟨0, by decide⟩) 0).panel.flag
          PNL_CLOSED = false ∧
      (UI_panel_begin [leaf_panel true] headerless_type (some ⟨0, by decide⟩) 0).r_open = true :=
  ⟨by decide,
    UI_panel_begin_headerless_open [leaf_panel true] headerless_type (some ⟨0, by decide⟩) 0
      (by decide)⟩

/-- C5 (amended, instance): a tree of depth 2 with mixed flags, unpacked onto a tree of
the same shape with the opposite flags. -/
theorem expand_flag_roundtrip_witness :
    panel_same_shape example_tree example_tree_target = true ∧
      (panel_closed_flags example_tree).length ≤ 16 ∧
      panel_closed_flags
          (panel_set_expand_from_list_data_recursive example_tree_target
            (get_panel_expand_flag example_tree 12345 0).1 0).1
        = panel_closed_flags example_tree :=
  ⟨by decide, by decide,
    expand_flag_roundtrip example_tree example_tree_target 12345 (by decide) (by decide)⟩

/-- C7 (amended, instance): the region of `example_three`. -/
theorem align_three_panels_witness :
    [example_panel 1 (plain_type "a") 0 20, example_panel 2 (plain_type "b") 1 100,
        example_panel 3 (plain_type "c") 2 40].map (get_panel_real_size_y example_metrics)
      = [40, 120, 60] ∧
    ∃ changed region1,
      uiAlignPanelStep example_metrics example_three factor_one false = some (changed, region1) ∧
      ∀ (i : Nat) (p : Panel), example_three.panels[i]? = some p →
        flagTest p.runtime_flag PANEL_ACTIVE = true →
        ∃ q, region1.panels[i]? = some q ∧ q.ptr = p.ptr ∧ q.sortorder = p.sortorder ∧
          q.ofsy = (if p.sortorder = (example_panel 1 (plain_type "a") 0 20).sortorder then -40
            else if p.sortorder = (example_panel 2 (plain_type "b") 1 100).sortorder then -160
            else -220) ∧
          q.ofsy + get_panel_real_size_y example_metrics q =
            (if p.sortorder = (example_panel 1 (plain_type "a") 0 20).sortorder then 0
            else if p.sortorder = (example_panel 2 (plain_type "b") 1 100).sortorder then -40
            else -160) :=
  ⟨by decide,
    align_three_panels example_metrics example_three
      (example_panel 1 (plain_type "a") 0 20) (example_panel 2 (plain_type "b") 1 100)
      (example_panel 3 (plain_type "c") 2 40) (List.Perm.refl _) (by decide) (by decide)
      (by decide) (by decide) (by decide) (by decide) (by decide) (by decide) (by decide)
      (by decide)⟩

/-- C9 (instance): the A key over the header of a closed panel with the bottom-snap flag
opens it and sets its vertical offset to 0. -/
theorem ui_handle_panel_header_snap_witness :
    panel_at example_snapped.panels [0] =
        some { example_panel 1 (plain_type "a") 0 20 with
          snap := PNL_SNAP_BOTTOM, flag := PNL_CLOSED } ∧
      ∃ C1 region1 p1,
        ui_handle_panel_header example_metrics example_context example_snapped 100 (0, 0) [0] 0
            EventType.EVT_AKEY false false = some (C1, region1) ∧
          panel_at region1.panels [0] = some p1 ∧
          flagTest p1.flag PNL_CLOSED = false ∧ p1.ofsy = 0 :=
  ⟨rfl,
    ui_handle_panel_header_snap example_metrics example_context example_snapped 100 (0, 0) [0] 0
      EventType.EVT_AKEY false
      { example_panel 1 (plain_type "a") 0 20 with snap := PNL_SNAP_BOTTOM, flag := PNL_CLOSED }
      (plain_type "a") rfl rfl (by decide) (by decide) (by decide)⟩

/-! ### Closing a panel -/

theorem end_total_height (m : Metrics) (children : List Panel) :
    ∀ width height : Int,
      (UI_panel_end_total m width height children).2 =
        height + ((children.filter panel_is_active).map (get_panel_real_size_y m)).sum := by
  induction children with
  | nil => intro width height; simp [UI_panel_end_total]
  | cons c rest ih =>
    intro width height
    rw [UI_panel_end_total]
    by_cases hc : flagTest c.runtime_flag PANEL_ACTIVE = true
    · have hf : panel_is_active c = true := hc
      rw [if_pos hc, ih, List.filter_cons_of_pos hf, List.map_cons, List.sum_cons]
      ring
    · have hf : ¬ panel_is_active c = true := hc
      rw [if_neg hc, ih, List.filter_cons_of_neg hf]

theorem end_total_width (m : Metrics) (children : List Panel) :
    ∀ width height : Int,
      (UI_panel_end_total m width height children).1 =
        ((children.filter panel_is_active).map (fun c => c.sizex)).foldl max width := by
  induction children with
  | nil => intro width height; simp [UI_panel_end_total]
  | cons c rest ih =>
    intro width height
    rw [UI_panel_end_total]
    by_cases hc : flagTest c.runtime_flag PANEL_ACTIVE = true
    · have hf : panel_is_active c = true := hc
      rw [if_pos hc, ih, List.filter_cons_of_pos hf, List.map_cons, List.foldl_cons]
    · have hf : ¬ panel_is_active c = true := hc
      rw [if_neg hc, ih, List.filter_cons_of_neg hf]

theorem foldl_max_spec (l : List Int) :
    ∀ w : Int, w ≤ l.foldl max w ∧ (∀ x ∈ l, x ≤ l.foldl max w) ∧
      (l.foldl max w = w ∨ l.foldl max w ∈ l) := by
  induction l with
  | nil => intro w; simp
  | cons a rest ih =>
    intro w
    obtain ⟨h1, h2, h3⟩ := ih (max w a)
    rw [List.foldl_cons]
    refine ⟨le_trans (le_max_left w a) h1, ?_, ?_⟩
    · intro x hx
      rcases List.mem_cons.mp hx with hx | hx
      · rw [hx]; exact le_trans (le_max_right w a) h1
      · exact h2 x hx
    · rcases h3 with h3 | h3
      · rcases max_choice w a with hm | hm
        · left; rw [h3, hm]
        · right; rw [h3, hm]; exact List.mem_cons_self _ _
      · right; exact List.mem_cons_of_mem _ h3

/-- C11: for a panel carrying the newly-added flag, `UI_panel_end(width, height)` stores
`blocksizex = width` and `blocksizey = height`, sets `sizey` to `height` plus the sum of the
real heights of the active children, sets `sizex` to the maximum of `width` and the widths
of the active children (it is at least each of them and equal to one of them), and clears
the newly-added flag; inactive children do not enter the sum or the maximum. -/
theorem UI_panel_end_new_added (m : Metrics) (region : ARegion) (panel : Panel)
    (width height : Int) (open_ : Bool)
    (hnew : flagTest panel.runtime_flag PANEL_NEW_ADDED = true) :
    (UI_panel_end m region panel width height open_).blocksizex = width ∧
      (UI_panel_end m region panel width height open_).blocksizey = height ∧
      (UI_panel_end m region panel width height open_).sizey =
        height + ((panel.children.filter panel_is_active).map (get_panel_real_size_y m)).sum ∧
      width ≤ (UI_panel_end m region panel width height open_).sizex ∧
      (∀ c ∈ panel.children, panel_is_active c = true →
        c.sizex ≤ (UI_panel_end m region panel width height open_).sizex) ∧
      ((UI_panel_end m region panel width height open_).sizex = width ∨
        ∃ c ∈ panel.children, panel_is_active c = true ∧
          c.sizex = (UI_panel_end m region panel width height open_).sizex) ∧
      flagTest (UI_panel_end m region panel width height open_).runtime_flag PANEL_NEW_ADDED
        = false := by
  have hr : UI_panel_end m region panel width height open_ =
      { panel with
        blocksizex := width
        blocksizey := height
        runtime_flag := flagClear panel.runtime_flag PANEL_NEW_ADDED
        sizex := (UI_panel_end_total m width height panel.children).1
        sizey := (UI_panel_end_total m width height panel.children).2 } := by
    unfold UI_panel_end
    simp only [hnew, if_true]
  rw [hr]
  simp only
  rw [end_total_height, end_total_width]
  obtain ⟨h1, h2, h3⟩ :=
    foldl_max_spec ((panel.children.filter panel_is_active).map (fun c => c.sizex)) width
  refine ⟨trivial, trivial, rfl, h1, ?_, ?_, flagTest_flagClear_self _ _⟩
  · intro c hc hact
    exact h2 c.sizex (List.mem_map.mpr ⟨c, List.mem_filter.mpr ⟨hc, hact⟩, rfl⟩)
  · rcases h3 with h3 | h3
    · exact Or.inl h3
    · obtain ⟨c, hc, hcx⟩ := List.mem_map.mp h3
      exact Or.inr ⟨c, (List.mem_filter.mp hc).1, (List.mem_filter.mp hc).2, hcx⟩

theorem UI_panel_end_old (m : Metrics) (region : ARegion) (panel : Panel)
    (width height : Int) (open_ : Bool)
    (hold : flagTest panel.runtime_flag PANEL_NEW_ADDED = false) :
    (UI_panel_end m region panel width height open_).sizex =
        (if (UI_panel_end_total m width height panel.children).1 ≠ 0 then
          (UI_panel_end_total m width height panel.children).1 else panel.sizex) ∧
      (UI_panel_end m region panel width height open_).sizey =
        (if (UI_panel_end_total m width height panel.children).2 ≠ 0 ∨ open_ = true then
          (UI_panel_end_total m width height panel.children).2 else panel.sizey) := by
  unfold UI_panel_end
  simp only [hold, Bool.false_eq_true, if_false]
  exact ⟨trivial, trivial⟩

/-- C12 (counterexample): an open panel of height 100 that is not newly added and has no
children is ended with a measured width and height of 0 and `open` true: the measured total
height is 0, yet `sizey` becomes 0. -/
theorem UI_panel_end_open_zero_height :
    flagTest (example_panel 1 (plain_type "a") 0 100).runtime_flag PANEL_NEW_ADDED = false ∧
      0 + (((example_panel 1 (plain_type "a") 0 100).children.filter panel_is_active).map
        (get_panel_real_size_y example_metrics)).sum = 0 ∧
      (example_panel 1 (plain_type "a") 0 100).sizey = 100 ∧
      (UI_panel_end example_metrics example_three (example_panel 1 (plain_type "a") 0 100)
        0 0 true).sizey = 0 := by
  decide

/-- C12 (amended): for a panel that is not newly added, `UI_panel_end` leaves `sizex`
unchanged when the measured total width (the maximum of `width` and the widths of the active
children) is 0, and leaves `sizey` unchanged when the measured total height (`height` plus
the real heights of the active children) is 0 and `open` is false; with `open` true `sizey`
becomes the measured total height, also when that is 0. -/
theorem UI_panel_end_zero_measurement (m : Metrics) (region : ARegion) (panel : Panel)
    (width height : Int) (open_ : Bool)
    (hold : flagTest panel.runtime_flag PANEL_NEW_ADDED = false) :
    (((panel.children.filter panel_is_active).map (fun c => c.sizex)).foldl max width = 0 →
        (UI_panel_end m region panel width height open_).sizex = panel.sizex) ∧
      (height + ((panel.children.filter panel_is_active).map (get_panel_real_size_y m)).sum = 0 →
        open_ = false →
        (UI_panel_end m region panel width height open_).sizey = panel.sizey) ∧
      (open_ = true →
        (UI_panel_end m region panel width height open_).sizey =
          height + ((panel.children.filter panel_is_active).map (get_panel_real_size_y m)).sum) := by
  obtain ⟨hx, hy⟩ := UI_panel_end_old m region panel width height open_ hold
  rw [hx, hy, end_total_height, end_total_width]
  refine ⟨?_, ?_, ?_⟩
  · intro h0
    rw [if_neg (by simp [h0])]
  · intro h0 hopen
    rw [if_neg (by simp [h0, hopen])]
  · intro hopen
    rw [if_pos (Or.inr hopen)]

/-- C13: for a panel that is not newly added, `UI_panel_end` keeps the top edge fixed,
`ofsy + sizey` has the same value after the call as before it, for every measured width
and height; and whenever `sizex` or `sizey` differs from its previous value the
alignment-animation flag is set. -/
theorem UI_panel_end_keeps_top_edge (m : Metrics) (region : ARegion) (panel : Panel)
    (width height : Int) (open_ : Bool)
    (hold : flagTest panel.runtime_flag PANEL_NEW_ADDED = false) :
    (UI_panel_end m region panel width height open_).ofsy +
          (UI_panel_end m region panel width height open_).sizey
        = panel.ofsy + panel.sizey ∧
      (((UI_panel_end m region panel width height open_).sizex ≠ panel.sizex ∨
          (UI_panel_end m region panel width height open_).sizey ≠ panel.sizey) →
        flagTest (UI_panel_end m region panel width height open_).runtime_flag PANEL_ANIM_ALIGN
          = true) := by
  have hanim : ∀ v : Nat, flagTest (flagSet v PANEL_ANIM_ALIGN) PANEL_ANIM_ALIGN = true :=
    fun v => flagTest_flagSet_self v PANEL_ANIM_ALIGN (by decide)
  unfold UI_panel_end
  simp only [hold, Bool.false_eq_true, if_false]
  generalize (UI_panel_end_total m width height panel.children).1 = tw
  generalize (UI_panel_end_total m width height panel.children).2 = th
  constructor
  · split_ifs <;> simp_all <;> omega
  · intro hne
    have hres : (decide ((if tw ≠ 0 then tw else panel.sizex) ≠ panel.sizex) ||
        decide ((if th ≠ 0 ∨ open_ = true then th else panel.sizey) ≠ panel.sizey)) = true := by
      rcases hne with h | h
      · simp only [Bool.or_eq_true, decide_eq_true_eq]; exact Or.inl h
      · simp only [Bool.or_eq_true, decide_eq_true_eq]; exact Or.inr h
    rw [if_pos hres]
    split_ifs
    · exact hanim _
    · exact hanim _

/-! ### Adding instanced panels -/

theorem max_sortorder_spec (l : List Panel) :
    ∀ s : Int, s ≤ UI_panel_add_instanced_max_sortorder s l ∧
      (∀ p ∈ l, p.sortorder ≤ UI_panel_add_instanced_max_sortorder s l) ∧
      (UI_panel_add_instanced_max_sortorder s l = s ∨
        ∃ p ∈ l, p.sortorder = UI_panel_add_instanced_max_sortorder s l) := by
  induction l with
  | nil => intro s; simp [UI_panel_add_instanced_max_sortorder]
  | cons a rest ih =>
    intro s
    rw [UI_panel_add_instanced_max_sortorder]
    by_cases ha : a.sortorder > s
    · rw [if_pos ha]
      obtain ⟨h1, h2, h3⟩ := ih a.sortorder
      refine ⟨by omega, ?_, ?_⟩
      · intro p hp
        rcases List.mem_cons.mp hp with hp | hp
        · rw [hp]; exact h1
        · exact h2 p hp
      · rcases h3 with h3 | ⟨p, hp, h3⟩
        · exact Or.inr ⟨a, List.mem_cons_self _ _, h3.symm⟩
        · exact Or.inr ⟨p, List.mem_cons_of_mem _ hp, h3⟩
    · rw [if_neg ha]
      obtain ⟨h1, h2, h3⟩ := ih s
      refine ⟨h1, ?_, ?_⟩
      · intro p hp
        rcases List.mem_cons.mp hp with hp | hp
        · rw [hp]; omega
        · exact h2 p hp
      · rcases h3 with h3 | ⟨p, hp, h3⟩
        · exact Or.inl h3
        · exact Or.inr ⟨p, List.mem_cons_of_mem _ hp, h3⟩

theorem int_wrap_id (v : Int) (h1 : -2147483648 ≤ v) (h2 : v < 2147483648) : int_wrap v = v := by
  unfold int_wrap
  omega

theorem add_instanced_eq (panels : List Panel) (pt : PanelType) (custom_data : Option Nat)
    (newptr : Nat) :
    (UI_panel_add_instanced_ex panels pt custom_data newptr).1 =
        panels ++ [(UI_panel_add_instanced_ex panels pt custom_data newptr).2.1] ∧
      (UI_panel_add_instanced_ex panels pt custom_data newptr).2.1.sortorder =
        int_wrap (UI_panel_add_instanced_max_sortorder 0 panels + 1) := by
  cases pt
  rw [UI_panel_add_instanced_ex]
  exact ⟨rfl, rfl⟩

/-- C14 (counterexample): for a list whose only panel has sortorder -3 the new panel gets
sortorder 1, which is not one past the current maximum -3; and for a list whose only panel
has the largest `int` 2147483647 as its sortorder the new panel gets -2147483648, which is
not greater. -/
theorem UI_panel_add_instanced_ex_sortorder_cases :
    [example_panel 1 (instanced_type "m") (-3) 20].map (fun p => p.sortorder) = [-3] ∧
      (UI_panel_add_instanced_ex [example_panel 1 (instanced_type "m") (-3) 20]
        (instanced_type "m") none 2).2.1.sortorder = 1 ∧
      (UI_panel_add_instanced_ex [example_panel 1 (instanced_type "m") (-3) 20]
        (instanced_type "m") none 2).2.1.sortorder ≠ -3 + 1 ∧
      [example_panel 1 (instanced_type "m") 2147483647 20].map (fun p => p.sortorder)
        = [2147483647] ∧
      (UI_panel_add_instanced_ex [example_panel 1 (instanced_type "m") 2147483647 20]
        (instanced_type "m") none 2).2.1.sortorder = -2147483648 := by
  decide

/-- C14 (amended): `UI_panel_add_instanced_ex` appends the new panel as the last element of
the given list and leaves the existing panels, their order and their sortorder as they were;
when no panel of the list has the largest `int`, 2147483647, as its sortorder, the new
sortorder is strictly greater than the sortorder of every panel already in the list: it is
one past the larger of 0 and the current maximum, so at least 1, and one past the current
maximum whenever some panel of the list has a sortorder that is not negative. -/
theorem UI_panel_add_instanced_ex_appends (panels : List Panel) (panel_type : PanelType)
    (custom_data : Option Nat) (newptr : Nat)
    (hmax : ∀ p ∈ panels, p.sortorder < 2147483647) :
    (UI_panel_add_instanced_ex panels panel_type custom_data newptr).1 =
        panels ++ [(UI_panel_add_instanced_ex panels panel_type custom_data newptr).2.1] ∧
      (∀ p ∈ panels,
        p.sortorder <
          (UI_panel_add_instanced_ex panels panel_type custom_data newptr).2.1.sortorder) ∧
      1 ≤ (UI_panel_add_instanced_ex panels panel_type custom_data newptr).2.1.sortorder ∧
      ((UI_panel_add_instanced_ex panels panel_type custom_data newptr).2.1.sortorder = 1 ∨
        ∃ p ∈ panels,
          (UI_panel_add_instanced_ex panels panel_type custom_data newptr).2.1.sortorder =
            p.sortorder + 1) ∧
      ((∃ p ∈ panels, 0 ≤ p.sortorder) →
        ∃ p ∈ panels, (∀ q ∈ panels, q.sortorder ≤ p.sortorder) ∧
          (UI_panel_add_instanced_ex panels panel_type custom_data newptr).2.1.sortorder =
            p.sortorder + 1) := by
  obtain ⟨hlist, hsort0⟩ := add_instanced_eq panels panel_type custom_data newptr
  obtain ⟨h1, h2, h3⟩ := max_sortorder_spec panels 0
  have hlt : UI_panel_add_instanced_max_sortorder 0 panels < 2147483647 := by
    rcases h3 with h3 | ⟨p, hp, h3⟩
    · rw [h3]
      decide
    · rw [← h3]
      exact hmax p hp
  have hsort : (UI_panel_add_instanced_ex panels panel_type custom_data newptr).2.1.sortorder =
      UI_panel_add_instanced_max_sortorder 0 panels + 1 := by
    rw [hsort0]
    exact int_wrap_id _ (by omega) (by omega)
  refine ⟨hlist, ?_, ?_, ?_, ?_⟩
  · intro p hp
    rw [hsort]
    have := h2 p hp
    omega
  · rw [hsort]; omega
  · rw [hsort]
    rcases h3 with h3 | ⟨p, hp, h3⟩
    · left; rw [h3]; rfl
    · right; exact ⟨p, hp, by rw [h3]⟩
  · rintro ⟨p0, hp0, hnonneg⟩
    rw [hsort]
    rcases h3 with h3 | ⟨p, hp, h3⟩
    · refine ⟨p0, hp0, ?_, ?_⟩
      · intro q hq
        have := h2 q hq
        have := h2 p0 hp0
        omega
      · have := h2 p0 hp0
        omega
    · exact ⟨p, hp, fun q hq => by rw [h3]; exact h2 q hq, by rw [h3]⟩

/-- C14 (amended, instance): a list whose only panel has sortorder 5; the new panel is
appended and gets sortorder 6. -/
theorem UI_panel_add_instanced_ex_appends_witness :
    (UI_panel_add_instanced_ex [example_panel 1 (instanced_type "m") 5 20]
        (instanced_type "m") none 2).1 =
      [example_panel 1 (instanced_type "m") 5 20] ++
        [(UI_panel_add_instanced_ex [example_panel 1 (instanced_type "m") 5 20]
          (instanced_type "m") none 2).2.1] ∧
      (UI_panel_add_instanced_ex [example_panel 1 (instanced_type "m") 5 20]
        (instanced_type "m") none 2).2.1.sortorder = 6 ∧
      1 ≤ (UI_panel_add_instanced_ex [example_panel 1 (instanced_type "m") 5 20]
        (instanced_type "m") none 2).2.1.sortorder :=
  ⟨(UI_panel_add_instanced_ex_appends [example_panel 1 (instanced_type "m") 5 20]
      (instanced_type "m") none 2 (by decide)).1,
    by decide,
    (UI_panel_add_instanced_ex_appends [example_panel 1 (instanced_type "m") 5 20]
      (instanced_type "m") none 2 (by decide)).2.2.1⟩

/-! ### Deleting instanced panels: what remains -/

theorem free_instanced_loop_panels (l : List Panel) :
    ∀ C : Option bContext,
      (UI_panels_free_instanced_loop C l).2 =
        l.filter (fun panel => !panel.type_has PNL_INSTANCED) := by
  induction l with
  | nil => intro C; rfl
  | cons a rest ih =>
    intro C
    by_cases ha : a.type_has PNL_INSTANCED = true
    · rw [List.filter_cons_of_neg (by simp [ha])]
      simp only [UI_panels_free_instanced_loop, ha, if_true]
      exact ih _
    · rw [List.filter_cons_of_pos (by simpa using ha)]
      simp only [UI_panels_free_instanced_loop, ha, if_false, Bool.false_eq_true]
      rw [ih]

/-- C15: after `UI_panels_free_instanced`, with or without a context, the panel list of the
region is exactly the previous list with every panel whose type has the instanced flag
removed: no instanced panel remains, and the panels that are not instanced or have no type
remain in their previous relative order with all their fields unchanged. -/
theorem UI_panels_free_instanced_panels (C : Option bContext) (region : ARegion) :
    (UI_panels_free_instanced C region).2.panels =
        region.panels.filter (fun panel => !panel.type_has PNL_INSTANCED) ∧
      (∀ panel ∈ (UI_panels_free_instanced C region).2.panels,
        panel.type_has PNL_INSTANCED = false) ∧
      (∀ panel ∈ region.panels, panel.type_has PNL_INSTANCED = false →
        panel ∈ (UI_panels_free_instanced C region).2.panels) ∧
      (UI_panels_free_instanced C region).2.panels.Sublist region.panels := by
  have h : (UI_panels_free_instanced C region).2.panels =
      region.panels.filter (fun panel => !panel.type_has PNL_INSTANCED) := by
    unfold UI_panels_free_instanced
    exact free_instanced_loop_panels region.panels C
  rw [h]
  refine ⟨rfl, ?_, ?_, List.filter_sublist _⟩
  · intro panel hp
    simpa using (List.mem_filter.mp hp).2
  · intro panel hp hn
    exact List.mem_filter.mpr ⟨hp, by simp [hn]⟩

/-! ### The interaction state machine -/

/-- C16: `panel_activate_state` called with the state the interaction data of the panel is
already in changes nothing: the panel (its flags and those of its descendants, its
interaction data with state, timer, start time, drag-start snapshot and drag-drop bit) and
the context (handler registration and timers) are returned as they were. -/
theorem panel_activate_state_same_state (C : bContext) (panel : Panel)
    (state : uiHandlePanelState) (data : uiHandlePanelData)
    (hdata : panel.activedata = some data) (hstate : data.state = state) :
    panel_activate_state C panel state = (C, panel) := by
  unfold panel_activate_state
  simp [hdata, hstate]

/-- C17 (counterexample): a panel that is animating with timer 7 is moved into the state
`PANEL_STATE_DRAG_SCALE`. Its timer is cancelled and no timer is started: `animtimer` is
`NULL` and no timer runs. -/
theorem panel_activate_state_drag_scale_no_timer :
    (panel_activate_state example_instanced_context example_animating
        uiHandlePanelState.PANEL_STATE_DRAG_SCALE).2.activedata.map
        (fun data => (data.state, data.animtimer))
      = some (uiHandlePanelState.PANEL_STATE_DRAG_SCALE, none) ∧
    (panel_activate_state example_instanced_context example_animating
        uiHandlePanelState.PANEL_STATE_DRAG_SCALE).1.timers = [] := by
  decide

/-- C17 (amended): after `panel_activate_state` moves a panel into the state
`PANEL_STATE_ANIMATION` or `PANEL_STATE_DRAG`, the interaction data of the panel holds a
freshly started timer (`animtimer` is the handle the timer service returned, not `NULL`),
the previous timer, if any, having been cancelled; after a move into
`PANEL_STATE_DRAG_SCALE` the previous timer is cancelled as well, but no timer is started
and `animtimer` is `NULL`. -/
theorem panel_activate_state_timer (C : bContext) (panel : Panel)
    (state : uiHandlePanelState)
    (hchange : ∀ data, panel.activedata = some data → data.state ≠ state) :
    ((state = uiHandlePanelState.PANEL_STATE_ANIMATION ∨
          state = uiHandlePanelState.PANEL_STATE_DRAG) →
        ∃ data, (panel_activate_state C panel state).2.activedata = some data ∧
          data.state = state ∧ data.animtimer = some C.timer_next ∧
          (panel_activate_state C panel state).1.timers =
            C.timer_next ::
              (match panel.activedata.bind (fun old => old.animtimer) with
                | some timer => C.timers.erase timer
                | none => C.timers)) ∧
      (state = uiHandlePanelState.PANEL_STATE_DRAG_SCALE →
        ∃ data, (panel_activate_state C panel state).2.activedata = some data ∧
          data.state = state ∧ data.animtimer = none ∧
          (panel_activate_state C panel state).1.timers =
            (match panel.activedata.bind (fun old => old.animtimer) with
              | some timer => C.timers.erase timer
              | none => C.timers)) := by
  constructor
  · intro hs
    cases hd : panel.activedata with
    | none =>
      rcases hs with hs | hs <;> subst hs <;> simp [panel_activate_state, hd]
    | some old =>
      have hne := hchange old hd
      cases ht : old.animtimer <;>
        rcases hs with hs | hs <;> subst hs <;> simp [panel_activate_state, hd, hne, ht]
  · intro hs
    subst hs
    cases hd : panel.activedata with
    | none => simp [panel_activate_state, hd, uiHandlePanelData_calloc]
    | some old =>
      have hne := hchange old hd
      cases ht : old.animtimer <;> simp [panel_activate_state, hd, hne, ht]

/-! ### Selection of a panel and its descendants -/

theorem subtree_eq (p : Panel) : panel_subtree p = p :: panel_subtree_children p.children := by
  cases p
  rw [panel_subtree]

theorem testBit_SET_select (v : Nat) (b : Bool) (bit : Nat) (hbit : 1 <<< bit ≠ PNL_SELECT) :
    (SET_FLAG_FROM_TEST v b PNL_SELECT).testBit bit = v.testBit bit := by
  have hb : bit ≠ 0 := by
    intro h
    apply hbit
    rw [h]
    rfl
  have hsel : PNL_SELECT.testBit bit = false := by
    have : PNL_SELECT = 2 ^ 0 := rfl
    rw [this, Nat.testBit_two_pow]
    simpa using fun h => hb h.symm
  unfold SET_FLAG_FROM_TEST flagSet flagClear
  cases b
  · simp [Nat.testBit_xor, Nat.testBit_and, hsel]
  · simp [Nat.testBit_or, hsel]

theorem flagTest_SET_select (v : Nat) (b : Bool) :
    flagTest (SET_FLAG_FROM_TEST v b PNL_SELECT) PNL_SELECT = b := by
  unfold SET_FLAG_FROM_TEST
  cases b
  · simp [flagTest_flagClear_self]
  · simp [flagTest_flagSet_self v PNL_SELECT (by decide)]

mutual
theorem subtree_set_flag :
    ∀ (p : Panel) (value : Bool),
      (panel_subtree (panel_set_flag_recursive p PNL_SELECT value).1).map
          (fun q => (q.flag, q.runtime_flag))
        = (panel_subtree p).map
          (fun q => (SET_FLAG_FROM_TEST q.flag value PNL_SELECT, q.runtime_flag))
  | ⟨ptr, type, panelname, ofsx, ofsy, sizex, sizey, blocksizex, blocksizey, flag, runtime_flag,
      sortorder, snap, activedata, region_ofsx, custom_data_ptr, children⟩, value => by
    have ih := subtree_set_flag_children children value
    rw [set_flag_eq, subtree_eq, subtree_eq]
    simp only [List.map_cons]
    rw [ih]
theorem subtree_set_flag_children :
    ∀ (cs : List Panel) (value : Bool),
      (panel_subtree_children (panel_set_flag_recursive_children cs PNL_SELECT value).1).map
          (fun q => (q.flag, q.runtime_flag))
        = (panel_subtree_children cs).map
          (fun q => (SET_FLAG_FROM_TEST q.flag value PNL_SELECT, q.runtime_flag))
  | [], value => by
    simp [panel_set_flag_recursive_children, panel_subtree_children]
  | c :: rest, value => by
    have ih1 := subtree_set_flag c value
    have ih2 := subtree_set_flag_children rest value
    rw [panel_set_flag_recursive_children]
    simp only [panel_subtree_children, List.map_append]
    rw [ih1, ih2]
end

theorem activate_state_subtree (C : bContext) (panel : Panel) (state : uiHandlePanelState)
    (hchange : ∀ data, panel.activedata = some data → data.state ≠ state) :
    (panel_subtree (panel_activate_state C panel state).2).map
        (fun q => (q.flag, q.runtime_flag))
      = (panel_subtree panel).map
        (fun q =>
          (SET_FLAG_FROM_TEST q.flag
            (!(decide (state = uiHandlePanelState.PANEL_STATE_EXIT) ||
              decide (state = uiHandlePanelState.PANEL_STATE_ANIMATION))) PNL_SELECT,
            q.runtime_flag)) := by
  rw [← subtree_set_flag]
  cases hd : panel.activedata with
  | none =>
    simp only [panel_activate_state, hd, Bool.false_eq_true, if_false]
    split_ifs <;> simp only [subtree_eq, List.map_cons]
  | some old =>
    have hne := hchange old hd
    simp only [panel_activate_state, hd, hne, decide_False, Bool.false_eq_true, if_false]
    split_ifs <;> simp only [subtree_eq, List.map_cons]

/-- C18: after a state-changing `panel_activate_state`, the selected flag of the panel and
of every descendant is set when the entered state is `PANEL_STATE_DRAG` or
`PANEL_STATE_DRAG_SCALE` and is clear when the entered state is `PANEL_STATE_EXIT` or
`PANEL_STATE_ANIMATION`; every other bit of `flag`, and the whole of `runtime_flag`, of every
panel in the subtree is as before. -/
theorem panel_activate_state_select (C : bContext) (panel : Panel)
    (state : uiHandlePanelState)
    (hchange : ∀ data, panel.activedata = some data → data.state ≠ state) :
    ((state = uiHandlePanelState.PANEL_STATE_DRAG ∨
          state = uiHandlePanelState.PANEL_STATE_DRAG_SCALE) →
        ∀ q ∈ panel_subtree (panel_activate_state C panel state).2,
          flagTest q.flag PNL_SELECT = true) ∧
      ((state = uiHandlePanelState.PANEL_STATE_EXIT ∨
          state = uiHandlePanelState.PANEL_STATE_ANIMATION) →
        ∀ q ∈ panel_subtree (panel_activate_state C panel state).2,
          flagTest q.flag PNL_SELECT = false) ∧
      (∀ bit : Nat, 1 <<< bit ≠ PNL_SELECT →
        (panel_subtree (panel_activate_state C panel state).2).map
            (fun q => q.flag.testBit bit)
          = (panel_subtree panel).map (fun q => q.flag.testBit bit)) ∧
      (panel_subtree (panel_activate_state C panel state).2).map (fun q => q.runtime_flag)
        = (panel_subtree panel).map (fun q => q.runtime_flag) := by
  have h := activate_state_subtree C panel state hchange
  have hsel : ∀ q ∈ panel_subtree (panel_activate_state C panel state).2,
      flagTest q.flag PNL_SELECT =
        !(decide (state = uiHandlePanelState.PANEL_STATE_EXIT) ||
          decide (state = uiHandlePanelState.PANEL_STATE_ANIMATION)) := by
    intro q hq
    have hmem : (q.flag, q.runtime_flag) ∈
        (panel_subtree (panel_activate_state C panel state).2).map
          (fun q => (q.flag, q.runtime_flag)) := List.mem_map.mpr ⟨q, hq, rfl⟩
    rw [h] at hmem
    obtain ⟨q0, _, hq0⟩ := List.mem_map.mp hmem
    have hflag : q.flag = SET_FLAG_FROM_TEST q0.flag
        (!(decide (state = uiHandlePanelState.PANEL_STATE_EXIT) ||
          decide (state = uiHandlePanelState.PANEL_STATE_ANIMATION))) PNL_SELECT :=
      (congrArg Prod.fst hq0).symm
    rw [hflag, flagTest_SET_select]
  refine ⟨?_, ?_, ?_, ?_⟩
  · intro hs q hq
    rw [hsel q hq]
    rcases hs with hs | hs <;> subst hs <;> rfl
  · intro hs q hq
    rw [hsel q hq]
    rcases hs with hs | hs <;> subst hs <;> rfl
  · intro bit hbit
    have h2 := congrArg (List.map (fun x : Nat × Nat => x.1.testBit bit)) h
    simp only [List.map_map, Function.comp_def, testBit_SET_select _ _ bit hbit] at h2
    exact h2
  · have h2 := congrArg (List.map (fun x : Nat × Nat => x.2)) h
    simp only [List.map_map, Function.comp_def] at h2
    exact h2

/-! ### The align step in either mode -/

theorem map_index_assign (l : List PanelSort) :
    ∀ k, (align_assign_sortorder k l).map (fun ps => ps.index) = l.map (fun ps => ps.index) := by
  induction l with
  | nil => intro k; rfl
  | cons a rest ih => intro k; simp [align_assign_sortorder, ih]

theorem mem_assign (l : List PanelSort) :
    ∀ (k : Nat) (z : PanelSort), z ∈ align_assign_sortorder k l →
      (k : Int) ≤ z.panel.sortorder ∧
        ∃ c ∈ l, z = { c with panel := { c.panel with sortorder := z.panel.sortorder } } := by
  induction l with
  | nil => intro k z hz; simp [align_assign_sortorder] at hz
  | cons a rest ih =>
    intro k z hz
    rw [align_assign_sortorder, List.mem_cons] at hz
    rcases hz with hz | hz
    · subst hz
      exact ⟨le_refl _, a, List.mem_cons_self _ _, rfl⟩
    · obtain ⟨h1, c, hc, h2⟩ := ih (k + 1) z hz
      refine ⟨?_, c, List.mem_cons_of_mem _ hc, h2⟩
      push_cast at h1
      omega

theorem nodup_assign (l : List PanelSort) :
    ∀ k, ((align_assign_sortorder k l).map (fun ps => ps.panel.sortorder)).Nodup := by
  induction l with
  | nil => intro k; simp [align_assign_sortorder]
  | cons a rest ih =>
    intro k
    rw [align_assign_sortorder, List.map_cons, List.nodup_cons]
    refine ⟨?_, ih (k + 1)⟩
    intro hmem
    obtain ⟨z, hz, hzk⟩ := List.mem_map.mp hmem
    have h1 := (mem_assign rest (k + 1) z hz).1
    simp only at hzk
    push_cast at h1
    omega

theorem sorted_index_perm (drag : Bool) (l : List PanelSort) :
    ((align_sorted drag l).map (fun ps => ps.index)).Perm (l.map (fun ps => ps.index)) := by
  unfold align_sorted qsort
  cases drag
  · simp only [Bool.false_eq_true, if_false]
    exact (List.perm_insertionSort _ _).map _
  · simp only [if_true]
    rw [map_index_assign]
    exact (List.perm_insertionSort _ _).map _

theorem panel_sort_eta (z : PanelSort) :
    z = { z with panel := { z.panel with sortorder := z.panel.sortorder } } := by
  obtain ⟨i, p, a, b⟩ := z
  cases p
  rfl

theorem sorted_mem (drag : Bool) (l : List PanelSort) (z : PanelSort)
    (hz : z ∈ align_sorted drag l) :
    ∃ c ∈ l, z = { c with panel := { c.panel with sortorder := z.panel.sortorder } } ∧
      (drag = false → z = c) := by
  unfold align_sorted qsort at hz
  cases drag
  · simp only [Bool.false_eq_true, if_false] at hz
    rw [List.mem_insertionSort] at hz
    exact ⟨z, hz, panel_sort_eta z, fun _ => rfl⟩
  · simp only [if_true] at hz
    obtain ⟨_, c, hc, h⟩ := mem_assign _ 0 z hz
    rw [List.mem_insertionSort] at hc
    exact ⟨c, hc, h, fun h => by cases h⟩

theorem with_y_index (m : Metrics) (rox : Int) (drag : Bool) (panels : List Panel) :
    (align_with_y m rox drag panels).map (fun ps => ps.index) =
      (align_sorted drag (align_collect 0 panels)).map (fun ps => ps.index) := by
  unfold align_with_y
  rw [map_index_offset_y, List.map_map]
  rfl

theorem with_y_index_perm (m : Metrics) (rox : Int) (drag : Bool) (panels : List Panel) :
    ((align_with_y m rox drag panels).map (fun ps => ps.index)).Perm
      ((align_collect 0 panels).map (fun ps => ps.index)) := by
  rw [with_y_index]
  exact sorted_index_perm drag _

theorem with_y_index_nodup (m : Metrics) (rox : Int) (drag : Bool) (panels : List Panel) :
    ((align_with_y m rox drag panels).map (fun ps => ps.index)).Nodup :=
  (with_y_index_perm m rox drag panels).nodup_iff.mpr (collect_index_nodup panels 0)

/-- An element of the array after the offset loops points to an active panel of the list;
the record differs from the one in the list in the stored region offset and, in drag mode,
in the sortorder. -/
theorem with_y_mem (m : Metrics) (rox : Int) (drag : Bool) (panels : List Panel) (y : PanelSort)
    (hy : y ∈ align_with_y m rox drag panels) :
    ∃ p, panels[y.index]? = some p ∧ flagTest p.runtime_flag PANEL_ACTIVE = true ∧
      y.panel = { p with region_ofsx := rox, sortorder := y.panel.sortorder } ∧
      (drag = false → y.panel.sortorder = p.sortorder) := by
  unfold align_with_y at hy
  obtain ⟨z, hz, h1, h2, _⟩ := mem_offset_y m _ _ _ hy
  rw [List.mem_map] at hz
  obtain ⟨w, hw, rfl⟩ := hz
  obtain ⟨c, hc, hwc, hdrag⟩ := sorted_mem drag _ w hw
  obtain ⟨j, p, hp, hact, rfl⟩ := (collect_spec panels 0 c).mp hc
  have hidx : y.index = j := by
    rw [h1, hwc]
    simp [align_offset_x]
  have hpanel : (align_offset_x m rox w).panel = { w.panel with region_ofsx := rox } := rfl
  refine ⟨p, by rw [hidx]; exact hp, hact, ?_, ?_⟩
  · rw [h2, hpanel]
    rw [hwc]
  · intro hd
    rw [h2, hpanel, hdrag hd]

theorem with_y_of_active (m : Metrics) (rox : Int) (drag : Bool) (panels : List Panel) (i : Nat)
    (p : Panel) (hp : panels[i]? = some p) (hact : flagTest p.runtime_flag PANEL_ACTIVE = true) :
    ∃ y ∈ align_with_y m rox drag panels, y.index = i := by
  have hi : i ∈ (align_collect 0 panels).map (fun ps => ps.index) := by
    rw [List.mem_map]
    exact ⟨⟨0 + i, p, 0, 0⟩, (collect_spec panels 0 _).mpr ⟨i, p, hp, hact, rfl⟩, by simp⟩
  rw [← (with_y_index_perm m rox drag panels).mem_iff, List.mem_map] at hi
  exact hi

theorem with_y_of_inactive (m : Metrics) (rox : Int) (drag : Bool) (panels : List Panel) (i : Nat)
    (p : Panel) (hp : panels[i]? = some p) (hact : ¬ flagTest p.runtime_flag PANEL_ACTIVE = true) :
    i ∉ (align_with_y m rox drag panels).map (fun ps => ps.index) := by
  intro hi
  rw [List.mem_map] at hi
  obtain ⟨y, hy, hyi⟩ := hi
  obtain ⟨p2, h1, h2, _⟩ := with_y_mem m rox drag panels y hy
  rw [hyi, hp] at h1
  cases h1
  exact hact h2

theorem with_y_write_back (m : Metrics) (rox : Int) (drag : Bool) (f : Factor)
    (panels : List Panel) (y : PanelSort) (hy : y ∈ align_with_y m rox drag panels) (q : Panel) :
    align_write_back_panel ((align_with_y m rox drag panels).map (align_interpolate f)) y.index q
      = (align_interpolate f y).panel := by
  have hn : (((align_with_y m rox drag panels).map (align_interpolate f)).map
      (fun ps => ps.index)).Nodup := by
    rw [map_index_interpolate]
    exact with_y_index_nodup m rox drag panels
  have hfind := find?_index_of_mem _ _ hn (List.mem_map_of_mem (align_interpolate f) hy)
  rw [index_interpolate] at hfind
  unfold align_write_back_panel
  rw [hfind]

theorem with_y_write_back_inactive (m : Metrics) (rox : Int) (drag : Bool) (f : Factor)
    (panels : List Panel) (i : Nat) (p : Panel) (hp : panels[i]? = some p)
    (hact : ¬ flagTest p.runtime_flag PANEL_ACTIVE = true) (q : Panel) :
    align_write_back_panel ((align_with_y m rox drag panels).map (align_interpolate f)) i q
      = q := by
  have hi := with_y_of_inactive m rox drag panels i p hp hact
  rw [← map_index_interpolate f] at hi
  unfold align_write_back_panel
  rw [find?_index_none _ _ hi]

theorem uiAlignPanelStep_eq (m : Metrics) (region : ARegion) (f : Factor) (drag : Bool) :
    uiAlignPanelStep m region f drag =
      if (align_collect 0 region.panels).any (fun ps => ps.panel.type.isNone) = true then none
      else if (align_collect 0 region.panels).length = 0 then some (false, region)
      else
        some ((align_with_y m (panel_region_offset_x_get m region) drag region.panels).any
            align_interpolate_changed,
          { region with
            panels :=
              (align_write_back
                ((align_with_y m (panel_region_offset_x_get m region) drag region.panels).map
                  (align_interpolate f)) 0 region.panels).map (align_sub_panels_pass m) }) := by
  rfl

theorem with_y_nil (m : Metrics) (rox : Int) (drag : Bool) (panels : List Panel)
    (h : align_collect 0 panels = []) : align_with_y m rox drag panels = [] := by
  unfold align_with_y align_sorted qsort
  rw [h]
  cases drag <;> rfl

theorem pass_inactive (m : Metrics) (p : Panel)
    (h : ¬ flagTest p.runtime_flag PANEL_ACTIVE = true) : align_sub_panels_pass m p = p := by
  rw [pass_eq, if_neg h]

/-- What the align step returns and what it leaves at each position of the panel list. -/
theorem step_spec (m : Metrics) (region : ARegion) (f : Factor) (drag changed : Bool)
    (region1 : ARegion) (h : uiAlignPanelStep m region f drag = some (changed, region1)) :
    changed = (align_with_y m (panel_region_offset_x_get m region) drag region.panels).any
        align_interpolate_changed ∧
      region1.panels.length = region.panels.length ∧
      (∀ y ∈ align_with_y m (panel_region_offset_x_get m region) drag region.panels,
        region1.panels[y.index]? = some (align_sub_panels_pass m (align_interpolate f y).panel)) ∧
      (∀ (i : Nat) (p : Panel), region.panels[i]? = some p →
        ¬ flagTest p.runtime_flag PANEL_ACTIVE = true → region1.panels[i]? = some p) := by
  rw [uiAlignPanelStep_eq] at h
  split at h
  · cases h
  · split at h
    · rename_i hlen
      have hnil : align_collect 0 region.panels = [] := List.length_eq_zero.mp hlen
      have hw := with_y_nil m (panel_region_offset_x_get m region) drag region.panels hnil
      simp only [Option.some.injEq, Prod.mk.injEq] at h
      obtain ⟨h1, h2⟩ := h
      subst h1 h2
      rw [hw]
      refine ⟨rfl, rfl, ?_, ?_⟩
      · intro y hy
        simp at hy
      · intro i p hp _
        exact hp
    · simp only [Option.some.injEq, Prod.mk.injEq] at h
      obtain ⟨h1, h2⟩ := h
      subst h1 h2
      have hget : ∀ i, ((align_write_back
          ((align_with_y m (panel_region_offset_x_get m region) drag region.panels).map
            (align_interpolate f)) 0 region.panels).map (align_sub_panels_pass m))[i]? =
          (region.panels[i]?).map (fun q => align_sub_panels_pass m
            (align_write_back_panel
              ((align_with_y m (panel_region_offset_x_get m region) drag region.panels).map
                (align_interpolate f)) i q)) := by
        intro i
        rw [List.getElem?_map, getElem?_write_back, Nat.zero_add, Option.map_map]
        rfl
      refine ⟨rfl, ?_, ?_, ?_⟩
      · simp only [List.length_map]
        have hl : ∀ (L : List PanelSort) (l : List Panel) (k : Nat),
            (align_write_back L k l).length = l.length := by
          intro L l
          induction l with
          | nil => intro k; rfl
          | cons a rest ih => intro k; simp [align_write_back, ih]
        exact hl _ _ _
      · intro y hy
        obtain ⟨p, hp, _, _, _⟩ := with_y_mem m _ drag region.panels y hy
        simp only
        rw [hget, hp, Option.map_some', with_y_write_back m _ drag f region.panels y hy]
      · intro i p hp hact
        simp only
        rw [hget, hp, Option.map_some',
          with_y_write_back_inactive m _ drag f region.panels i p hp hact, pass_inactive m p hact]

theorem pass_fields (m : Metrics) (p : Panel) :
    (align_sub_panels_pass m p).sortorder = p.sortorder ∧
      (align_sub_panels_pass m p).runtime_flag = p.runtime_flag ∧
      (align_sub_panels_pass m p).ofsx = p.ofsx ∧
      (align_sub_panels_pass m p).ofsy = p.ofsy := by
  obtain ⟨cs, h⟩ := pass_children m p
  rw [h]
  exact ⟨rfl, rfl, rfl, rfl⟩

theorem interpolate_fields (f : Factor) (ps : PanelSort) :
    (align_interpolate f ps).panel.sortorder = ps.panel.sortorder ∧
      (align_interpolate f ps).panel.runtime_flag = ps.panel.runtime_flag := by
  rw [interpolate_panel_eq]
  exact ⟨rfl, rfl⟩

theorem map_panel_offset_y (m : Metrics) (l : List PanelSort) :
    ∀ y, (align_offset_y m y l).map (fun ps => ps.panel) = l.map (fun ps => ps.panel) := by
  induction l with
  | nil => intro y; rfl
  | cons a rest ih => intro y; simp [align_offset_y, ih]

theorem with_y_sortorder_nodup (m : Metrics) (rox : Int) (panels : List Panel) :
    ((align_with_y m rox true panels).map (fun ps => ps.panel.sortorder)).Nodup := by
  have h : (align_with_y m rox true panels).map (fun ps => ps.panel.sortorder) =
      (align_assign_sortorder 0 (qsort find_highest_panel (align_collect 0 panels))).map
        (fun ps => ps.panel.sortorder) := by
    have h1 : (fun ps : PanelSort => ps.panel.sortorder) =
        (fun p : Panel => p.sortorder) ∘ (fun ps : PanelSort => ps.panel) := rfl
    unfold align_with_y align_sorted
    rw [h1, ← List.map_map, map_panel_offset_y, List.map_map, List.map_map]
    rfl
  rw [h]
  exact nodup_assign _ 0

/-- An active panel after the step stands where an active panel stood before, and its
record is the one written through the array element that points there. -/
theorem step_active (m : Metrics) (region : ARegion) (f : Factor) (drag changed : Bool)
    (region1 : ARegion) (h : uiAlignPanelStep m region f drag = some (changed, region1))
    (i : Nat) (p : Panel) (hp : region.panels[i]? = some p)
    (hact : flagTest p.runtime_flag PANEL_ACTIVE = true) :
    ∃ y ∈ align_with_y m (panel_region_offset_x_get m region) drag region.panels,
      y.index = i ∧
      y.panel = { p with
        region_ofsx := panel_region_offset_x_get m region
        sortorder := y.panel.sortorder } ∧
      (drag = false → y.panel.sortorder = p.sortorder) ∧
      region1.panels[i]? = some (align_sub_panels_pass m (align_interpolate f y).panel) := by
  obtain ⟨_, _, hy3, _⟩ := step_spec m region f drag changed region1 h
  obtain ⟨y, hy, hyi⟩ := with_y_of_active m (panel_region_offset_x_get m region) drag
    region.panels i p hp hact
  obtain ⟨p2, h1, _, h3, h4⟩ := with_y_mem m _ drag region.panels y hy
  rw [hyi, hp] at h1
  cases h1
  refine ⟨y, hy, hyi, h3, h4, ?_⟩
  rw [← hyi]
  exact hy3 y hy

/-! ### Sort keys after the align step -/

theorem getElem?_of_length_eq {α : Type} (l1 l2 : List α) (hlen : l1.length = l2.length)
    (i : Nat) (q : α) (hq : l1[i]? = some q) : ∃ p, l2[i]? = some p := by
  obtain ⟨hi, _⟩ := List.getElem?_eq_some.mp hq
  exact ⟨l2[i], List.getElem?_eq_getElem (by omega)⟩

/-- The record at a position after the step, in terms of the record that stood there
before. -/
theorem step_after (m : Metrics) (region : ARegion) (f : Factor) (drag changed : Bool)
    (region1 : ARegion) (h : uiAlignPanelStep m region f drag = some (changed, region1))
    (i : Nat) (q : Panel) (hq : region1.panels[i]? = some q) :
    ∃ p, region.panels[i]? = some p ∧ q.runtime_flag = p.runtime_flag ∧
      (flagTest p.runtime_flag PANEL_ACTIVE = true →
        ∃ y ∈ align_with_y m (panel_region_offset_x_get m region) drag region.panels,
          y.index = i ∧ q.sortorder = y.panel.sortorder ∧
          (drag = false → q.sortorder = p.sortorder)) ∧
      (¬ flagTest p.runtime_flag PANEL_ACTIVE = true → q = p) := by
  obtain ⟨_, hlen, _, hinact⟩ := step_spec m region f drag changed region1 h
  obtain ⟨p, hp⟩ := getElem?_of_length_eq _ _ hlen i q hq
  by_cases hact : flagTest p.runtime_flag PANEL_ACTIVE = true
  · obtain ⟨y, hy, hyi, hyp, hys, hr⟩ := step_active m region f drag changed region1 h i p hp hact
    rw [hq] at hr
    cases hr
    have hso : (align_sub_panels_pass m (align_interpolate f y).panel).sortorder
        = y.panel.sortorder := by
      rw [(pass_fields m _).1, (interpolate_fields f y).1]
    refine ⟨p, hp, ?_, ?_, fun hn => absurd hact hn⟩
    · rw [(pass_fields m _).2.1, (interpolate_fields f y).2, hyp]
    · intro _
      exact ⟨y, hy, hyi, hso, fun hd => by rw [hso, hys hd]⟩
  · have hr := hinact i p hp hact
    rw [hq] at hr
    cases hr
    exact ⟨q, hp, rfl, fun ha => absurd ha hact, fun _ => rfl⟩

/-- C19 (counterexample): an active panel with sortorder 5 and an inactive panel with
sortorder 0. The sort keys are distinct; after the align step in drag mode the active panel
has been renumbered 0 and both panels have sortorder 0. -/
theorem uiAlignPanelStep_drag_sortorder_collision :
    example_inactive.panels.map (fun p => p.sortorder) = [5, 0] ∧
      (example_inactive.panels.map (fun p => p.sortorder)).Nodup ∧
      (uiAlignPanelStep example_metrics example_inactive factor_one true).map
          (fun r => r.2.panels.map (fun p => p.sortorder)) = some [0, 0] := by
  decide

/-- C19 (amended): in non-drag mode the align step changes no sortorder at all. In drag mode
it renumbers the active panels of `region->panels`, so that after it the active panels have
pairwise distinct sortorder values, and it leaves every inactive panel as it was; the
renumbered active panels may collide with the inactive ones, and the sortorder values of the
whole list are pairwise distinct after the step when every panel of the list is active. -/
theorem uiAlignPanelStep_sortorder (m : Metrics) (region : ARegion) (factor : Factor)
    (drag changed : Bool) (region1 : ARegion)
    (h : uiAlignPanelStep m region factor drag = some (changed, region1)) :
    (drag = false →
        region1.panels.map (fun p => p.sortorder) = region.panels.map (fun p => p.sortorder)) ∧
      (drag = true →
        (∀ (i j : Nat) (p q : Panel), region1.panels[i]? = some p → region1.panels[j]? = some q →
          panel_is_active p = true → panel_is_active q = true → i ≠ j →
          p.sortorder ≠ q.sortorder) ∧
        (∀ (i : Nat) (p : Panel), region.panels[i]? = some p → panel_is_active p = false →
          region1.panels[i]? = some p) ∧
        ((∀ p ∈ region.panels, panel_is_active p = true) →
          (region1.panels.map (fun p => p.sortorder)).Nodup)) := by
  obtain ⟨_, hlen, _, hinact⟩ := step_spec m region factor drag changed region1 h
  have hdistinct : drag = true → ∀ (i j : Nat) (p q : Panel), region1.panels[i]? = some p →
      region1.panels[j]? = some q → panel_is_active p = true → panel_is_active q = true →
      i ≠ j → p.sortorder ≠ q.sortorder := by
    intro hd i j p q hp hq hpa hqa hij heq
    subst hd
    obtain ⟨p0, _, hpf, hp1, _⟩ := step_after m region factor true changed region1 h i p hp
    obtain ⟨q0, _, hqf, hq1, _⟩ := step_after m region factor true changed region1 h j q hq
    unfold panel_is_active at hpa hqa
    rw [hpf] at hpa
    rw [hqf] at hqa
    obtain ⟨y, hy, hyi, hys, _⟩ := hp1 hpa
    obtain ⟨z, hz, hzj, hzs, _⟩ := hq1 hqa
    have hyz : y = z :=
      List.inj_on_of_nodup_map (with_y_sortorder_nodup m _ region.panels) hy hz
        (by rw [← hys, ← hzs, heq])
    apply hij
    rw [← hyi, ← hzj, hyz]
  refine ⟨?_, fun hd => ⟨hdistinct hd, ?_, ?_⟩⟩
  · intro hd
    apply List.ext_getElem?
    intro n
    rw [List.getElem?_map, List.getElem?_map]
    cases hq : region1.panels[n]? with
    | none =>
      have h1 : region1.panels.length ≤ n := List.getElem?_eq_none_iff.mp hq
      rw [List.getElem?_eq_none (by omega)]
    | some q =>
      obtain ⟨p, hp, _, hp1, hp2⟩ := step_after m region factor drag changed region1 h n q hq
      rw [hp]
      simp only [Option.map_some', Option.some.injEq]
      by_cases hact : flagTest p.runtime_flag PANEL_ACTIVE = true
      · obtain ⟨_, _, _, _, hs⟩ := hp1 hact
        exact hs hd
      · rw [hp2 hact]
  · intro i p hp hpa
    exact hinact i p hp (by unfold panel_is_active at hpa; simp [hpa])
  · intro hall
    rw [List.nodup_iff_getElem?_ne_getElem?]
    intro i j hij hj heq
    rw [List.length_map] at hj
    rw [List.getElem?_map, List.getElem?_map,
      List.getElem?_eq_getElem (by omega : i < region1.panels.length),
      List.getElem?_eq_getElem hj] at heq
    simp only [Option.map_some', Option.some.injEq] at heq
    have hact : ∀ (k : Nat) (hk : k < region1.panels.length),
        panel_is_active (region1.panels[k]) = true := by
      intro k hk
      obtain ⟨p0, hp0, hpf, _, _⟩ := step_after m region factor drag changed region1 h k
        (region1.panels[k]) (List.getElem?_eq_getElem hk)
      unfold panel_is_active
      rw [hpf]
      exact hall p0 (List.getElem?_mem hp0)
    exact hdistinct hd i j _ _ (List.getElem?_eq_getElem (by omega)) (List.getElem?_eq_getElem hj)
      (hact i (by omega)) (hact j hj) (by omega) heq

/-! ### The value returned by the align step -/

theorem interpolate_unchanged (f : Factor) (ps : PanelSort)
    (h : align_interpolate_changed ps = false) : align_interpolate f ps = ps := by
  apply (interpolate_fixed f ps _).1
  intro hs
  unfold align_interpolate_changed at h
  rw [hs] at h
  simp only [Bool.false_eq_true, if_false, Bool.or_eq_false_iff, decide_eq_false_iff_not,
    not_not] at h
  exact ⟨h.1.symm, h.2.symm⟩

theorem interpolate_changed_one (ps : PanelSort) (h : align_interpolate_changed ps = true)
    (hexact : flagTest ps.panel.flag PNL_SELECT = false →
      float_exact ps.new_offset_x = true ∧ float_exact ps.new_offset_y = true) :
    (align_interpolate factor_one ps).panel.ofsx ≠ ps.panel.ofsx ∨
      (align_interpolate factor_one ps).panel.ofsy ≠ ps.panel.ofsy := by
  unfold align_interpolate_changed at h
  by_cases hs : flagTest ps.panel.flag PNL_SELECT = true
  · rw [if_pos hs] at h
    cases h
  · have hs2 : flagTest ps.panel.flag PNL_SELECT = false := by simpa using hs
    rw [if_neg hs] at h
    rw [interpolate_one_ofsx ps hs2 (hexact hs2).1, interpolate_one_ofsy ps hs2 (hexact hs2).2]
    simpa using h

/-- What `align_targets_exact` says of an element of the array. -/
theorem targets_exact_mem (m : Metrics) (region : ARegion) (drag : Bool)
    (h : align_targets_exact m region drag = true) (y : PanelSort)
    (hy : y ∈ align_with_y m (panel_region_offset_x_get m region) drag region.panels)
    (hs : flagTest y.panel.flag PNL_SELECT = false) :
    float_exact y.new_offset_x = true ∧ float_exact y.new_offset_y = true := by
  unfold align_targets_exact at h
  have := List.all_eq_true.mp h y hy
  rw [hs] at this
  simpa using this

/-- C20 (counterexample): the three panels of `example_three` all have offset 0 and are not
on their targets. The align step with factor 0.0 returns true, and the stored offsets of all
panels are the same after the call as before it. With factor 1.0 the same happens for the
two panels of `example_tall_aligned`, which are at -16777216 and -16777256, the nearest
`float` values to their targets -16777217 and -16777257. -/
theorem uiAlignPanelStep_true_without_change :
    (uiAlignPanelStep example_metrics example_three factor_zero false).map
        (fun r => (r.1, r.2.panels.map (fun p => (p.ofsx, p.ofsy))))
      = some (true, example_three.panels.map (fun p => (p.ofsx, p.ofsy))) ∧
    (uiAlignPanelStep example_metrics example_tall_aligned factor_one false).map
        (fun r => (r.1, r.2.panels.map (fun p => (p.ofsx, p.ofsy))))
      = some (true, example_tall_aligned.panels.map (fun p => (p.ofsx, p.ofsy))) := by
  decide

/-- C20 (amended): whenever the stored offset (`ofsx` or `ofsy`) of a top-level panel
differs after `uiAlignPanelStep` from its value before the call, the step returns true, for
every factor and in either mode; with factor 1.0 and targets that a `float` holds exactly
(less than 2^23 in magnitude, for the panels that are not selected) the converse holds as
well, the step returns true only when the offset of some top-level panel has changed. In
general the step returns true exactly when some active panel that is not selected is off
its target before the interpolation, also when the interpolated, rounded offset is the old
one. -/
theorem uiAlignPanelStep_changed (m : Metrics) (region : ARegion) (factor : Factor)
    (drag changed : Bool) (region1 : ARegion)
    (h : uiAlignPanelStep m region factor drag = some (changed, region1)) :
    ((∃ (i : Nat) (p q : Panel), region.panels[i]? = some p ∧ region1.panels[i]? = some q ∧
          (q.ofsx ≠ p.ofsx ∨ q.ofsy ≠ p.ofsy)) → changed = true) ∧
      (factor = factor_one → align_targets_exact m region drag = true → changed = true →
        ∃ (i : Nat) (p q : Panel), region.panels[i]? = some p ∧ region1.panels[i]? = some q ∧
          (q.ofsx ≠ p.ofsx ∨ q.ofsy ≠ p.ofsy)) ∧
      (changed = true ↔
        ∃ y ∈ align_with_y m (panel_region_offset_x_get m region) drag region.panels,
          flagTest y.panel.flag PNL_SELECT = false ∧
            (y.new_offset_x ≠ y.panel.ofsx ∨ y.new_offset_y ≠ y.panel.ofsy)) := by
  obtain ⟨hch, _, hy3, hinact⟩ := step_spec m region factor drag changed region1 h
  refine ⟨?_, ?_, ?_⟩
  rotate_left 2
  · rw [hch, List.any_eq_true]
    constructor
    · rintro ⟨y, hy, hyc⟩
      refine ⟨y, hy, ?_⟩
      unfold align_interpolate_changed at hyc
      by_cases hs : flagTest y.panel.flag PNL_SELECT = true
      · rw [if_pos hs] at hyc
        cases hyc
      · rw [if_neg hs] at hyc
        exact ⟨by simpa using hs, by simpa using hyc⟩
    · rintro ⟨y, hy, hs, hne⟩
      refine ⟨y, hy, ?_⟩
      unfold align_interpolate_changed
      rw [hs]
      simpa using hne
  · rintro ⟨i, p, q, hp, hq, hne⟩
    by_contra hfalse
    have hc : changed = false := by simpa using hfalse
    rw [hc] at hch
    have hall := List.any_eq_false.mp hch.symm
    by_cases hact : flagTest p.runtime_flag PANEL_ACTIVE = true
    · obtain ⟨y, hy, _, hyp, _, hr⟩ :=
        step_active m region factor drag changed region1 h i p hp hact
      rw [hq] at hr
      cases hr
      have hyc : align_interpolate_changed y = false := by simpa using hall y hy
      rw [interpolate_unchanged factor y hyc, (pass_fields m _).2.2.1,
        (pass_fields m _).2.2.2, hyp] at hne
      simp at hne
    · have hr := hinact i p hp hact
      rw [hq] at hr
      cases hr
      simp at hne
  · intro hf hexact hc
    subst hf
    rw [hc] at hch
    obtain ⟨y, hy, hyc⟩ := List.any_eq_true.mp hch.symm
    obtain ⟨p, hp, _, hyp, _⟩ := with_y_mem m _ drag region.panels y hy
    refine ⟨y.index, p, _, hp, hy3 y hy, ?_⟩
    rw [(pass_fields m _).2.2.1, (pass_fields m _).2.2.2]
    have hpx : p.ofsx = y.panel.ofsx := by rw [hyp]
    have hpy : p.ofsy = y.panel.ofsy := by rw [hyp]
    rw [hpx, hpy]
    exact interpolate_changed_one y hyc (targets_exact_mem m region drag hexact y hy)

/-! ### Instances, second part -/

/-- C11 (instance): a newly added panel with an active and an inactive sub-panel is ended
with width 200 and height 100. -/
theorem UI_panel_end_new_added_witness :
    flagTest example_parent.runtime_flag PANEL_NEW_ADDED = true ∧
      (UI_panel_end example_metrics example_three example_parent 200 100 true).sizey =
        100 + ((example_parent.children.filter panel_is_active).map
          (get_panel_real_size_y example_metrics)).sum ∧
      (UI_panel_end example_metrics example_three example_parent 200 100 true).sizey = 150 ∧
      (UI_panel_end example_metrics example_three example_parent 200 100 true).sizex = 300 :=
  ⟨by decide,
    (UI_panel_end_new_added example_metrics example_three example_parent 200 100 true
      (by decide)).2.2.1,
    by decide, by decide⟩

/-- C12 (amended, instance): a panel of height 100 that is not newly added is ended with a
measured size of 0 and `open` false. -/
theorem UI_panel_end_zero_measurement_witness :
    flagTest (example_panel 1 (plain_type "a") 0 100).runtime_flag PANEL_NEW_ADDED = false ∧
      (UI_panel_end example_metrics example_three (example_panel 1 (plain_type "a") 0 100)
        0 0 false).sizey = (example_panel 1 (plain_type "a") 0 100).sizey :=
  ⟨by decide,
    (UI_panel_end_zero_measurement example_metrics example_three
      (example_panel 1 (plain_type "a") 0 100) 0 0 false (by decide)).2.1 (by decide) rfl⟩

/-- C13 (instance): a panel of height 100 that is not newly added is ended with width 50
and height 70. -/
theorem UI_panel_end_keeps_top_edge_witness :
    flagTest (example_panel 1 (plain_type "a") 0 100).runtime_flag PANEL_NEW_ADDED = false ∧
      (UI_panel_end example_metrics example_three (example_panel 1 (plain_type "a") 0 100)
          50 70 true).ofsy +
        (UI_panel_end example_metrics example_three (example_panel 1 (plain_type "a") 0 100)
          50 70 true).sizey
        = (example_panel 1 (plain_type "a") 0 100).ofsy +
          (example_panel 1 (plain_type "a") 0 100).sizey :=
  ⟨by decide,
    (UI_panel_end_keeps_top_edge example_metrics example_three
      (example_panel 1 (plain_type "a") 0 100) 50 70 true (by decide)).1⟩

/-- C16 (instance): the animating panel is sent to the animation state again. -/
theorem panel_activate_state_same_state_witness :
    panel_activate_state example_instanced_context example_animating
        uiHandlePanelState.PANEL_STATE_ANIMATION
      = (example_instanced_context, example_animating) :=
  panel_activate_state_same_state example_instanced_context example_animating
    uiHandlePanelState.PANEL_STATE_ANIMATION
    { uiHandlePanelData_calloc with
      state := uiHandlePanelState.PANEL_STATE_ANIMATION
      animtimer := some 7 }
    rfl rfl

/-- C17 (amended, instance): the panel that is animating with timer 7 starts to be dragged:
timer 7 is cancelled and the fresh timer 8 runs. -/
theorem panel_activate_state_timer_witness :
    ∃ data,
      (panel_activate_state example_instanced_context example_animating
        uiHandlePanelState.PANEL_STATE_DRAG).2.activedata = some data ∧
      data.state = uiHandlePanelState.PANEL_STATE_DRAG ∧ data.animtimer = some 8 ∧
      (panel_activate_state example_instanced_context example_animating
        uiHandlePanelState.PANEL_STATE_DRAG).1.timers = [8] :=
  (panel_activate_state_timer example_instanced_context example_animating
    uiHandlePanelState.PANEL_STATE_DRAG
    (fun data hd => by
      have h2 := Option.some.inj hd
      rw [← h2]
      decide)).1 (Or.inr rfl)

/-- C18 (instance): a panel with a sub-panel and a sub-sub-panel starts to be dragged. -/
theorem panel_activate_state_select_witness :
    (panel_subtree
        (panel_activate_state example_context example_tree
          uiHandlePanelState.PANEL_STATE_DRAG).2).all
      (fun q => flagTest q.flag PNL_SELECT) = true :=
  List.all_eq_true.mpr
    ((panel_activate_state_select example_context example_tree
      uiHandlePanelState.PANEL_STATE_DRAG
      (fun _ hd => Option.noConfusion hd)).1 (Or.inl rfl))

/-- C19 (amended, instance): the three active panels of `example_three` in drag mode. -/
theorem uiAlignPanelStep_sortorder_witness :
    uiAlignPanelStep example_metrics example_three factor_one true
        = some (true, example_three_dragged) ∧
      (example_three_dragged.panels.map (fun p => p.sortorder)).Nodup :=
  ⟨rfl,
    ((uiAlignPanelStep_sortorder example_metrics example_three factor_one true true
      example_three_dragged rfl).2 rfl).2.2 (by decide)⟩

/-- C20 (amended, instance): the three panels of `example_three` with factor 1.0; the
targets are -40, -160 and -220. -/
theorem uiAlignPanelStep_changed_witness :
    uiAlignPanelStep example_metrics example_three factor_one false
        = some (true, example_three_aligned) ∧
      align_targets_exact example_metrics example_three false = true ∧
      ∃ (i : Nat) (p q : Panel), example_three.panels[i]? = some p ∧
        example_three_aligned.panels[i]? = some q ∧ (q.ofsx ≠ p.ofsx ∨ q.ofsy ≠ p.ofsy) :=
  ⟨rfl, by decide,
    (uiAlignPanelStep_changed example_metrics example_three factor_one false true
      example_three_aligned rfl).2.1 rfl (by decide) rfl⟩

/-! ### Cycling through the category tabs -/

theorem active_get_after_set (region : ARegion) (pc : PanelCategoryDyn)
    (hpc : pc ∈ region.panels_category) :
    (UI_panel_category_active_get (UI_panel_category_active_set region pc.idname) false).1
      = some pc.idname := by
  have hfind : (UI_panel_category_find
      (UI_panel_category_active_set region pc.idname) pc.idname).isSome = true := by
    unfold UI_panel_category_find UI_panel_category_active_set ui_panel_category_active_set
    simp only [Bool.false_eq_true, if_false]
    rw [List.findIdx?_isSome, List.any_eq_true]
    exact ⟨pc, hpc, by simp⟩
  unfold UI_panel_category_active_get
  have hstack : (UI_panel_category_active_set region pc.idname).panels_category_active =
      ({ idname := pc.idname } : PanelCategoryStack) ::
        ((match UI_panel_category_active_find region pc.idname with
          | some i => region.panels_category_active.eraseIdx i
          | none => region.panels_category_active).filter
          (fun pc => region.paneltypes.any (fun pt => pt.category == pc.idname))) := rfl
  rw [hstack, List.find?_cons_of_pos _ (by exact hfind)]

/-- C21: for a Control+Tab event, `ui_handle_panel_category_cycling` (no active button that
cycles) moves the active category to the next tab, or with Shift to the previous tab, and
wraps around: from the last tab it goes to the first, and with Shift from the first tab to
the last. `i` is the position of the active category among the tabs. -/
theorem category_ctrl_tab_cycles (event : wmEvent) (region : ARegion) (category : String)
    (i : Nat) (htype : event.type = EventType.EVT_TABKEY)
    (hactive : (UI_panel_category_active_get region false).1 = some category)
    (hfind : UI_panel_category_find region category = some i) :
    (event.shift = false → ∀ pc, region.panels_category.get? (i + 1) = some pc →
        (UI_panel_category_active_get
          (ui_handle_panel_category_cycling event region false).2 false).1 = some pc.idname) ∧
      (event.shift = false → i + 1 = region.panels_category.length →
        ∀ pc, region.panels_category.head? = some pc →
        (UI_panel_category_active_get
          (ui_handle_panel_category_cycling event region false).2 false).1 = some pc.idname) ∧
      (event.shift = true → 0 < i → ∀ pc, region.panels_category.get? (i - 1) = some pc →
        (UI_panel_category_active_get
          (ui_handle_panel_category_cycling event region false).2 false).1 = some pc.idname) ∧
      (event.shift = true → i = 0 → ∀ pc, region.panels_category.getLast? = some pc →
        (UI_panel_category_active_get
          (ui_handle_panel_category_cycling event region false).2 false).1 = some pc.idname) := by
  refine ⟨?_, ?_, ?_, ?_⟩
  · intro hs pc hpc
    have hmem := List.get?_mem hpc
    rw [List.get?_eq_getElem?] at hpc
    have hres : (ui_handle_panel_category_cycling event region false).2 =
        UI_panel_category_active_set region pc.idname := by
      unfold ui_handle_panel_category_cycling
      simp [htype, hactive, hfind, hs, hpc]
    rw [hres]
    exact active_get_after_set region pc hmem
  · intro hs hlast pc hpc
    have hnone : region.panels_category[i + 1]? = none := by
      rw [List.getElem?_eq_none]
      omega
    have hres : (ui_handle_panel_category_cycling event region false).2 =
        UI_panel_category_active_set region pc.idname := by
      unfold ui_handle_panel_category_cycling
      simp [htype, hactive, hfind, hs, hnone, hpc]
    rw [hres]
    exact active_get_after_set region pc (List.mem_of_mem_head? hpc)
  · intro hs hi pc hpc
    have hi0 : ¬ i = 0 := by omega
    have hmem := List.get?_mem hpc
    rw [List.get?_eq_getElem?] at hpc
    have hres : (ui_handle_panel_category_cycling event region false).2 =
        UI_panel_category_active_set region pc.idname := by
      unfold ui_handle_panel_category_cycling
      simp [htype, hactive, hfind, hs, hi0, hpc]
    rw [hres]
    exact active_get_after_set region pc hmem
  · intro hs hi pc hpc
    have hres : (ui_handle_panel_category_cycling event region false).2 =
        UI_panel_category_active_set region pc.idname := by
      unfold ui_handle_panel_category_cycling
      simp [htype, hactive, hfind, hs, hi, hpc]
    rw [hres]
    exact active_get_after_set region pc (List.mem_of_mem_getLast? hpc)

/-- C22 (failing input): the active-category stack holds only "X", the category of no
panel type. Setting "A" as a fall-back leaves the stack [X, A], the stale entry is not
pruned; setting it as the chosen category prunes the entry. -/
theorem ui_panel_category_active_set_fallback_keeps_stale :
    example_stale.paneltypes.any (fun pt => pt.category == "X") = false ∧
      (ui_panel_category_active_set example_stale "A" true).panels_category_active.map
          (fun pc_act => pc_act.idname) = ["X", "A"] ∧
      (ui_panel_category_active_set example_stale "A" false).panels_category_active.map
          (fun pc_act => pc_act.idname) = ["A"] := by
  decide

/-! ### The comparison function of the drag mode -/

/-- C28 (failing input): two headerless panels with upper edges at 20 and at -30.
`find_highest_panel` returns -1 for the pair in either order, it does not compare the
positions. -/
theorem find_highest_panel_headerless_pair :
    example_headerless_high.panel.type_has PNL_NO_HEADER = true ∧
      example_headerless_low.panel.type_has PNL_NO_HEADER = true ∧
      find_highest_panel example_headerless_high example_headerless_low = -1 ∧
      find_highest_panel example_headerless_low example_headerless_high = -1 ∧
      find_highest_panel example_headerless_low example_headerless_high ≠
        -find_highest_panel example_headerless_high example_headerless_low := by
  decide

/-! ### The drag-drop bit -/

/-- C29: after `panel_activate_state` moves a panel from the dragging state to the animation
state, `UI_panel_is_dragging` returns true for it; for a panel that enters the animation
state without interaction data, or from a state other than dragging (and other than the
animation state itself, from which the call changes nothing), it returns false; and for a
panel without interaction data it returns false. -/
theorem UI_panel_is_dragging_after_drag (C : bContext) (panel : Panel) :
    (∀ data, panel.activedata = some data →
        data.state = uiHandlePanelState.PANEL_STATE_DRAG →
        UI_panel_is_dragging
          (panel_activate_state C panel uiHandlePanelState.PANEL_STATE_ANIMATION).2 = true) ∧
      (panel.activedata = none →
        UI_panel_is_dragging
          (panel_activate_state C panel uiHandlePanelState.PANEL_STATE_ANIMATION).2 = false) ∧
      (∀ data, panel.activedata = some data →
        data.state ≠ uiHandlePanelState.PANEL_STATE_DRAG →
        data.state ≠ uiHandlePanelState.PANEL_STATE_ANIMATION →
        UI_panel_is_dragging
          (panel_activate_state C panel uiHandlePanelState.PANEL_STATE_ANIMATION).2 = false) ∧
      (panel.activedata = none → UI_panel_is_dragging panel = false) := by
  refine ⟨?_, ?_, ?_, ?_⟩
  · intro data hd hs
    simp [UI_panel_is_dragging, panel_activate_state, hd, hs]
  · intro hd
    simp [UI_panel_is_dragging, panel_activate_state, hd, uiHandlePanelData_calloc]
  · intro data hd hs ha
    simp [UI_panel_is_dragging, panel_activate_state, hd, hs, ha]
  · intro hd
    simp [UI_panel_is_dragging, hd]

/-! ### Header actions with the control key -/

mutual
theorem subtree_set_any (flag : Nat) :
    ∀ (p : Panel) (value : Bool),
      (panel_subtree (panel_set_flag_recursive p flag value).1).map (fun q => q.flag)
        = (panel_subtree p).map (fun q => SET_FLAG_FROM_TEST q.flag value flag)
  | ⟨ptr, type, panelname, ofsx, ofsy, sizex, sizey, blocksizex, blocksizey, pflag, runtime_flag,
      sortorder, snap, activedata, region_ofsx, custom_data_ptr, children⟩, value => by
    have ih := subtree_set_any_children flag children value
    rw [set_flag_eq, subtree_eq, subtree_eq]
    simp only [List.map_cons]
    rw [ih]
theorem subtree_set_any_children (flag : Nat) :
    ∀ (cs : List Panel) (value : Bool),
      (panel_subtree_children (panel_set_flag_recursive_children cs flag value).1).map
          (fun q => q.flag)
        = (panel_subtree_children cs).map (fun q => SET_FLAG_FROM_TEST q.flag value flag)
  | [], value => by
    simp [panel_set_flag_recursive_children, panel_subtree_children]
  | c :: rest, value => by
    have ih1 := subtree_set_any flag c value
    have ih2 := subtree_set_any_children flag rest value
    rw [panel_set_flag_recursive_children]
    simp only [panel_subtree_children, List.map_append]
    rw [ih1, ih2]
end

/-- The closed flags in the subtree of a panel are not touched by a change of state. -/
theorem activate_state_subtree_closed (C : bContext) (p : Panel) (state : uiHandlePanelState) :
    (panel_subtree (panel_activate_state C p state).2).map
        (fun q => flagTest q.flag PNL_CLOSED)
      = (panel_subtree p).map (fun q => flagTest q.flag PNL_CLOSED) := by
  by_cases hsame : ∃ data, p.activedata = some data ∧ data.state = state
  · obtain ⟨data, hd, hs⟩ := hsame
    have hnop : panel_activate_state C p state = (C, p) := by
      unfold panel_activate_state
      simp [hd, hs]
    rw [hnop]
  · have hchange : ∀ data, p.activedata = some data → data.state ≠ state :=
      fun data hd hs => hsame ⟨data, hd, hs⟩
    have h := congrArg (List.map (fun x : Nat × Nat => flagTest x.1 PNL_CLOSED))
      (activate_state_subtree C p state hchange)
    simp only [List.map_map, Function.comp_def, flagTest_SET_select_closed] at h
    exact h

theorem activate_state_children_closed (C : bContext) (p : Panel) (state : uiHandlePanelState) :
    (panel_subtree_children (panel_activate_state C p state).2.children).map
        (fun q => flagTest q.flag PNL_CLOSED)
      = (panel_subtree_children p.children).map (fun q => flagTest q.flag PNL_CLOSED) := by
  have h := activate_state_subtree_closed C p state
  rw [subtree_eq, subtree_eq, List.map_cons, List.map_cons] at h
  exact (List.cons.inj h).2

theorem set_children_closed (cs : List Panel) (value : Bool) :
    ∀ d ∈ panel_subtree_children (panel_set_flag_recursive_children cs PNL_CLOSED value).1,
      flagTest d.flag PNL_CLOSED = value := by
  intro d hd
  have hmem : d.flag ∈ (panel_subtree_children
      (panel_set_flag_recursive_children cs PNL_CLOSED value).1).map (fun q => q.flag) :=
    List.mem_map.mpr ⟨d, hd, rfl⟩
  rw [subtree_set_any_children] at hmem
  obtain ⟨d0, _, hd0⟩ := List.mem_map.mp hmem
  rw [← hd0, flagTest_SET]

/-- The header action with the control key on an open panel that has children and is no
sub-panel: the panel is open afterwards and each of its descendants has the closed flag the
first child did not have. -/
theorem header_ctrl_children (m : Metrics) (C : bContext) (region : ARegion)
    (rect_xmax : Int) (view_reset : Int × Int) (panel : List Nat) (mx : Int)
    (event_type : EventType) (shift : Bool) (p : Panel) (pt : PanelType)
    (first_child : Panel) (rest : List Panel)
    (hp : panel_at region.panels panel = some p) (ht : p.type = some pt)
    (hsub : pt.has_parent = false)
    (hpin : header_is_pin_action region pt event_type shift = false)
    (hexp : header_is_expand_action m region rect_xmax p pt mx event_type = true)
    (hopen : flagTest p.flag PNL_CLOSED = false) (hch : p.children = first_child :: rest) :
    ∃ C1 region1 q,
      ui_handle_panel_header m C region rect_xmax view_reset panel mx event_type true shift
        = some (C1, region1) ∧
      panel_at region1.panels panel = some q ∧
      flagTest q.flag PNL_CLOSED = false ∧
      ∀ d ∈ panel_subtree_children q.children,
        flagTest d.flag PNL_CLOSED = !flagTest first_child.flag PNL_CLOSED := by
  have hstore : ∀ q : Panel, panel_at (panel_store region.panels panel q) panel = some q :=
    fun q => panel_at_store panel region.panels p q hp
  have hset : flagTest (flagSet
      (panel_set_flag_recursive p PNL_CLOSED (!flagTest first_child.flag PNL_CLOSED)).1.flag
      PNL_CLOSED) PNL_CLOSED = true := flagTest_flagSet_self _ _ (by decide)
  unfold ui_handle_panel_header
  simp only [hp, ht, hpin, hexp, hsub, hopen, hch, Bool.not_false, Bool.and_true,
    Bool.false_eq_true, if_false, if_true, List.isEmpty_cons, Bool.or_self, hstore, hset]
  refine ⟨_, _, _, rfl, panel_at_store panel _ _ _ (hstore _), ?_, ?_⟩
  · rw [(activate_state_keeps _ _ _).2]
    exact flagTest_flagClear_self _ _
  · intro d hd
    have hmem : flagTest d.flag PNL_CLOSED ∈ (panel_subtree_children
        (panel_activate_state _ _ uiHandlePanelState.PANEL_STATE_ANIMATION).2.children).map
        (fun q => flagTest q.flag PNL_CLOSED) := List.mem_map.mpr ⟨d, hd, rfl⟩
    rw [activate_state_children_closed] at hmem
    obtain ⟨d0, hd0, hd0c⟩ := List.mem_map.mp hmem
    rw [← hd0c]
    simp only [set_flag_eq, hch] at hd0
    exact set_children_closed _ _ d0 hd0

/-- C25: for an expand/collapse header action with the control key on an open panel that is
no sub-panel and has children, after the action every descendant of the panel has its closed
flag equal to the inverse of the closed flag the first child had before the action. -/
theorem ui_handle_panel_header_ctrl_descendants (m : Metrics) (C : bContext)
    (region : ARegion) (rect_xmax : Int) (view_reset : Int × Int) (panel : List Nat) (mx : Int)
    (event_type : EventType) (shift : Bool) (p : Panel) (pt : PanelType)
    (first_child : Panel) (rest : List Panel)
    (hp : panel_at region.panels panel = some p) (ht : p.type = some pt)
    (hsub : pt.has_parent = false)
    (hpin : header_is_pin_action region pt event_type shift = false)
    (hexp : header_is_expand_action m region rect_xmax p pt mx event_type = true)
    (hopen : flagTest p.flag PNL_CLOSED = false) (hch : p.children = first_child :: rest) :
    ∃ C1 region1 q,
      ui_handle_panel_header m C region rect_xmax view_reset panel mx event_type true shift
        = some (C1, region1) ∧
      panel_at region1.panels panel = some q ∧
      ∀ d ∈ panel_subtree_children q.children,
        flagTest d.flag PNL_CLOSED = !flagTest first_child.flag PNL_CLOSED := by
  obtain ⟨C1, region1, q, h1, h2, _, h4⟩ :=
    header_ctrl_children m C region rect_xmax view_reset panel mx event_type shift p pt
      first_child rest hp ht hsub hpin hexp hopen hch
  exact ⟨C1, region1, q, h1, h2, h4⟩

/-- C26 (counterexample): a click with the control key on the header of an open panel with
one open sub-panel. After the action the sub-panel is closed and the panel itself is open,
its closed flag is clear. -/
theorem ui_handle_panel_header_ctrl_parent_stays_open :
    example_with_child.panels.map (fun p => (flagTest p.flag PNL_CLOSED, p.children.length))
        = [(false, 1)] ∧
      (example_ctrl_click example_with_child).map
          (fun r => r.2.panels.map (fun p => flagTest p.flag PNL_CLOSED)) = some [false] ∧
      (example_ctrl_click example_with_child).map
          (fun r => r.2.panels.map
            (fun p => p.children.map (fun d => flagTest d.flag PNL_CLOSED))) = some [[true]] := by
  decide

/-- C26 (amended): for an expand/collapse header action with the control key on an open
panel that is no sub-panel and has children, the closed flag of the panel is set together
with the flags of the descendants and is cleared again by the toggle that follows: the panel
is open when the action completes. -/
theorem ui_handle_panel_header_ctrl_parent_open (m : Metrics) (C : bContext)
    (region : ARegion) (rect_xmax : Int) (view_reset : Int × Int) (panel : List Nat) (mx : Int)
    (event_type : EventType) (shift : Bool) (p : Panel) (pt : PanelType)
    (first_child : Panel) (rest : List Panel)
    (hp : panel_at region.panels panel = some p) (ht : p.type = some pt)
    (hsub : pt.has_parent = false)
    (hpin : header_is_pin_action region pt event_type shift = false)
    (hexp : header_is_expand_action m region rect_xmax p pt mx event_type = true)
    (hopen : flagTest p.flag PNL_CLOSED = false) (hch : p.children = first_child :: rest) :
    ∃ C1 region1 q,
      ui_handle_panel_header m C region rect_xmax view_reset panel mx event_type true shift
        = some (C1, region1) ∧
      panel_at region1.panels panel = some q ∧ flagTest q.flag PNL_CLOSED = false := by
  obtain ⟨C1, region1, q, h1, h2, h3, _⟩ :=
    header_ctrl_children m C region rect_xmax view_reset panel mx event_type shift p pt
      first_child rest hp ht hsub hpin hexp hopen hch
  exact ⟨C1, region1, q, h1, h2, h3⟩

/-! ### Collapsing the other panels -/

theorem collapse_step_closed (from_type qt : PanelType) (p : Panel) (hqt : p.type = some qt)
    (hheader : flagTest qt.flag PNL_NO_HEADER = false)
    (hctx : qt.context = "" ∨ from_type.context = "" ∨ qt.context = from_type.context) :
    flagTest (panels_collapse_all_step none (some from_type) p).flag PNL_CLOSED = true := by
  have hc : (qt.context.isEmpty || from_type.context.isEmpty ||
      qt.context == from_type.context) = true := by
    rcases hctx with h | h | h
    · rw [h]; rfl
    · have he : from_type.context.isEmpty = true := by rw [h]; rfl
      rw [he, Bool.or_true, Bool.true_or]
    · have he : (qt.context == from_type.context) = true := by rw [h]; exact beq_self_eq_true _
      rw [he, Bool.or_true]
  unfold panels_collapse_all_step
  simp only [hqt, hheader, hc, Bool.not_false, if_true, Option.isNone_none, Bool.or_true,
    Bool.true_or]
  exact flagTest_flagSet_self _ _ (by decide)

theorem collapse_step_headerless (category : Option String) (from_pt : Option PanelType)
    (p : Panel) (h : p.type_has PNL_NO_HEADER = true ∨ p.type = none) :
    panels_collapse_all_step category from_pt p = p := by
  unfold panels_collapse_all_step
  rcases h with h | h
  · unfold Panel.type_has at h
    cases ht : p.type with
    | none => rfl
    | some qt =>
      rw [ht] at h
      simp only at h
      cases from_pt with
      | none => rfl
      | some ft => simp [h]
  · rw [h]

/-- C27: for an expand/collapse header action with the control key on a top-level panel
(position `i` of `region->panels`, with a header, no sub-panel) that is closed or has no
children, in a region without visible category tabs: after the action the panel is open;
every other top-level panel with a header whose type context is empty or equal to the
context of the panel acted on, or any at all when that context is empty, is closed; and
headerless panels (and panels without a type) are as they were. -/
theorem ui_handle_panel_header_ctrl_solo (m : Metrics) (C : bContext) (region : ARegion)
    (rect_xmax : Int) (view_reset : Int × Int) (i : Nat) (mx : Int)
    (event_type : EventType) (shift : Bool) (p : Panel) (pt : PanelType)
    (hp : region.panels[i]? = some p) (ht : p.type = some pt)
    (hsub : pt.has_parent = false) (hheader : flagTest pt.flag PNL_NO_HEADER = false)
    (hvis : UI_panel_category_is_visible region = false)
    (hexp : header_is_expand_action m region rect_xmax p pt mx event_type = true)
    (hcase : flagTest p.flag PNL_CLOSED = true ∨ p.children = []) :
    ∃ C1 region1,
      ui_handle_panel_header m C region rect_xmax view_reset [i] mx event_type true shift
        = some (C1, region1) ∧
      (∃ q, region1.panels[i]? = some q ∧ flagTest q.flag PNL_CLOSED = false) ∧
      ∀ (j : Nat) (o : Panel), j ≠ i → region.panels[j]? = some o →
        ∃ q, region1.panels[j]? = some q ∧
          (∀ qt, o.type = some qt → flagTest qt.flag PNL_NO_HEADER = false →
            (qt.context = "" ∨ pt.context = "" ∨ qt.context = pt.context) →
            flagTest q.flag PNL_CLOSED = true) ∧
          ((o.type_has PNL_NO_HEADER = true ∨ o.type = none) → q = o) := by
  have hpin : header_is_pin_action region pt event_type shift = false := by
    unfold header_is_pin_action
    simp [hvis]
  have hcond : (flagTest p.flag PNL_CLOSED || p.children.isEmpty) = true := by
    rcases hcase with h | h
    · simp [h]
    · simp [h]
  have hpat : panel_at region.panels [i] = some p := by
    unfold panel_at
    rw [List.get?_eq_getElem?]
    exact hp
  have hstep : flagTest (panels_collapse_all_step none (some pt) p).flag PNL_CLOSED = true :=
    collapse_step_closed pt pt p ht hheader (Or.inr (Or.inr rfl))
  have hpat2 : panel_at (region.panels.map (panels_collapse_all_step none (some pt))) [i]
      = some (panels_collapse_all_step none (some pt) p) := by
    unfold panel_at
    rw [List.get?_eq_getElem?, List.getElem?_map, hp]
    rfl
  unfold ui_handle_panel_header
  simp only [hpat, ht, hpin, hexp, hsub, hcond, Bool.not_false, Bool.and_true,
    Bool.false_eq_true, if_false, if_true, panels_collapse_all, hvis, hpat2, hstep]
  have hi : i < region.panels.length := (List.getElem?_eq_some.mp hp).1
  have hsetq : ∀ (l : List Panel) (X : Panel), i < l.length →
      (panel_store l [i] X)[i]? = some X := by
    intro l X hl
    simp only [panel_store]
    rw [List.getElem?_set_self hl]
  refine ⟨_, _, rfl, ?_, ?_⟩
  · refine ⟨_, hsetq _ _ (by rw [List.length_map]; exact hi), ?_⟩
    rw [(activate_state_keeps _ _ _).2]
    exact flagTest_flagClear_self _ _
  · intro j o hj ho
    refine ⟨panels_collapse_all_step none (some pt) o, ?_, ?_, ?_⟩
    · simp only [panel_store]
      rw [List.getElem?_set_ne (fun h => hj h.symm), List.getElem?_map, ho]
      rfl
    · intro qt hqt hqh hctx
      exact collapse_step_closed pt qt o hqt hqh hctx
    · intro h
      exact collapse_step_headerless none (some pt) o h

/-! ### Sub-panels below their parent -/

theorem real_ofsy_moved (m : Metrics) (x cursor : Int) (c : Panel) :
    get_panel_real_ofsy (align_sub_panels_moved m x (cursor - get_panel_size_y m c) c)
      = cursor - get_panel_real_size_y m c := by
  rw [moved_eq]
  unfold get_panel_real_ofsy get_panel_size_y get_panel_real_size_y
  have htype : ∀ (a b : Int) (cs : List Panel),
      ({ c with ofsx := a, ofsy := b, children := cs } : Panel).type_has PNL_NO_HEADER
        = c.type_has PNL_NO_HEADER := fun _ _ _ => rfl
  simp only [htype]
  split_ifs <;> omega

theorem ofsx_moved (m : Metrics) (x y : Int) (c : Panel) :
    (align_sub_panels_moved m x y c).ofsx = x := by
  rw [moved_eq]

/-- The child at position `j` after the loop of `align_sub_panels`: an inactive child is as
it was, an active child has been moved below the active children in front of it. -/
theorem loop_getElem (m : Metrics) (cs : List Panel) :
    ∀ (ofsx ofsy : Int) (j : Nat) (c : Panel), cs[j]? = some c →
      (align_sub_panels_loop m ofsx ofsy cs)[j]? =
        some (if flagTest c.runtime_flag PANEL_ACTIVE = true then
          align_sub_panels_moved m ofsx
            (ofsy - (((cs.take j).filter panel_is_active).map (get_panel_real_size_y m)).sum
              - get_panel_size_y m c) c
          else c) := by
  induction cs with
  | nil => intro ofsx ofsy j c hc; simp at hc
  | cons a rest ih =>
    intro ofsx ofsy j c hc
    cases j with
    | zero =>
      simp only [List.getElem?_cons_zero, Option.some.injEq] at hc
      subst hc
      rw [align_sub_panels_loop]
      by_cases ha : flagTest a.runtime_flag PANEL_ACTIVE = true
      · simp [ha]
      · simp [ha]
    | succ j =>
      simp only [List.getElem?_cons_succ] at hc
      rw [align_sub_panels_loop]
      by_cases ha : flagTest a.runtime_flag PANEL_ACTIVE = true
      · have hf : panel_is_active a = true := ha
        rw [if_pos ha, List.getElem?_cons_succ, ih _ _ j c hc, List.take_succ_cons,
          List.filter_cons_of_pos hf, List.map_cons, List.sum_cons]
        rw [show ofsy - get_panel_real_size_y m a -
              (((rest.take j).filter panel_is_active).map (get_panel_real_size_y m)).sum
            = ofsy - (get_panel_real_size_y m a +
              (((rest.take j).filter panel_is_active).map (get_panel_real_size_y m)).sum)
          from by omega]
      · have hf : ¬ panel_is_active a = true := ha
        rw [if_neg ha, List.getElem?_cons_succ, ih _ _ j c hc, List.take_succ_cons,
          List.filter_cons_of_neg hf]

/-- C30: for a panel whose `sizey` is its `blocksizey` plus the real heights of its active
children, after `align_sub_panels` every inactive child is as it was and every active child
has the `ofsx` of the parent; the real lower edge of an active child is
`ofsy + sizey - blocksizey` of the parent minus the real heights of the active children up to
and including it, whether the children are open or closed, with or without a header; and the
real lower edge of the last active child is the `ofsy` of the parent. -/
theorem align_sub_panels_tiles (m : Metrics) (panel : Panel)
    (hsize : panel.sizey = panel.blocksizey +
      ((panel.children.filter panel_is_active).map (get_panel_real_size_y m)).sum) :
    (align_sub_panels m panel).children.length = panel.children.length ∧
      ∀ (j : Nat) (c : Panel), panel.children[j]? = some c →
        ∃ c1, (align_sub_panels m panel).children[j]? = some c1 ∧
          (panel_is_active c = false → c1 = c) ∧
          (panel_is_active c = true →
            c1.ofsx = panel.ofsx ∧
            get_panel_real_size_y m c1 = get_panel_real_size_y m c ∧
            get_panel_real_ofsy c1 =
              panel.ofsy + panel.sizey - panel.blocksizey -
                (((panel.children.take (j + 1)).filter panel_is_active).map
                  (get_panel_real_size_y m)).sum ∧
            ((∀ d ∈ panel.children.drop (j + 1), panel_is_active d = false) →
              get_panel_real_ofsy c1 = panel.ofsy)) := by
  have hchildren : (align_sub_panels m panel).children =
      align_sub_panels_loop m panel.ofsx (panel.ofsy + panel.sizey - panel.blocksizey)
        panel.children := rfl
  rw [hchildren]
  refine ⟨length_loop m _ _ _, ?_⟩
  intro j c hc
  rw [loop_getElem m _ _ _ j c hc]
  refine ⟨_, rfl, ?_, ?_⟩
  · intro hin
    unfold panel_is_active at hin
    rw [if_neg (by simp [hin])]
  · intro hact
    have hact2 : flagTest c.runtime_flag PANEL_ACTIVE = true := hact
    rw [if_pos hact2]
    have htake : (((panel.children.take (j + 1)).filter panel_is_active).map
        (get_panel_real_size_y m)).sum =
        (((panel.children.take j).filter panel_is_active).map (get_panel_real_size_y m)).sum
          + get_panel_real_size_y m c := by
      rw [List.take_succ, hc]
      simp [List.filter_append, hact]
    have hedge : get_panel_real_ofsy
        (align_sub_panels_moved m panel.ofsx
          (panel.ofsy + panel.sizey - panel.blocksizey -
            (((panel.children.take j).filter panel_is_active).map
              (get_panel_real_size_y m)).sum - get_panel_size_y m c) c) =
        panel.ofsy + panel.sizey - panel.blocksizey -
          (((panel.children.take (j + 1)).filter panel_is_active).map
            (get_panel_real_size_y m)).sum := by
      rw [real_ofsy_moved, htake]
      omega
    refine ⟨ofsx_moved m _ _ c, real_size_y_moved m _ _ c, hedge, ?_⟩
    intro hlast
    rw [hedge]
    have hdrop : (panel.children.drop (j + 1)).filter panel_is_active = [] := by
      rw [List.filter_eq_nil_iff]
      intro d hd
      simp [hlast d hd]
    have hall : (panel.children.filter panel_is_active) =
        (panel.children.take (j + 1)).filter panel_is_active := by
      conv_lhs => rw [← List.take_append_drop (j + 1) panel.children]
      rw [List.filter_append, hdrop, List.append_nil]
    rw [hall] at hsize
    omega

/-! ### The vertical cursor of the align step -/

theorem length_offset_y (m : Metrics) (l : List PanelSort) :
    ∀ y, (align_offset_y m y l).length = l.length := by
  induction l with
  | nil => intro y; rfl
  | cons a rest ih => intro y; simp [align_offset_y, ih]

/-- The element at position `k` after the "Y offset" loop: its target is the cursor after
the first `k + 1` elements, lowered by `sizey` for a closed panel. -/
theorem offset_y_getElem (m : Metrics) (l : List PanelSort) :
    ∀ (y0 : Int) (k : Nat) (ps : PanelSort), l[k]? = some ps →
      (align_offset_y m y0 l)[k]? =
        some { ps with
          new_offset_y :=
            if flagTest ps.panel.flag PNL_CLOSED = true then
              y0 - ((l.take (k + 1)).map (fun z => align_cost m z.panel)).sum - ps.panel.sizey
            else y0 - ((l.take (k + 1)).map (fun z => align_cost m z.panel)).sum } := by
  induction l with
  | nil => intro y0 k ps h; simp at h
  | cons a rest ih =>
    intro y0 k ps h
    have hcur : (if a.panel.type_has PNL_DRAW_BOX = true then
          y0 - get_panel_real_size_y m a.panel - m.UI_PANEL_BOX_STYLE_MARGIN
        else y0 - get_panel_real_size_y m a.panel) = y0 - align_cost m a.panel := by
      unfold align_cost
      split_ifs <;> omega
    cases k with
    | zero =>
      simp only [List.getElem?_cons_zero, Option.some.injEq] at h
      subst h
      simp only [align_offset_y, List.getElem?_cons_zero, hcur, List.take_succ_cons,
        List.take_zero, List.map_cons, List.map_nil, List.sum_cons, List.sum_nil, add_zero]
    | succ k =>
      simp only [List.getElem?_cons_succ] at h
      simp only [align_offset_y, List.getElem?_cons_succ, hcur, List.take_succ_cons,
        List.map_cons, List.sum_cons]
      rw [ih _ k ps h]
      rw [show y0 - align_cost m a.panel -
            ((rest.take (k + 1)).map (fun z => align_cost m z.panel)).sum
          = y0 - (align_cost m a.panel +
            ((rest.take (k + 1)).map (fun z => align_cost m z.panel)).sum) from by omega]

theorem assign_getElem (l : List PanelSort) :
    ∀ (k0 k : Nat) (ps : PanelSort), l[k]? = some ps →
      (align_assign_sortorder k0 l)[k]? =
        some { ps with panel := { ps.panel with sortorder := ((k0 + k : Nat) : Int) } } := by
  induction l with
  | nil => intro k0 k ps h; simp at h
  | cons a rest ih =>
    intro k0 k ps h
    cases k with
    | zero =>
      simp only [List.getElem?_cons_zero, Option.some.injEq] at h
      subst h
      simp [align_assign_sortorder]
    | succ k =>
      simp only [List.getElem?_cons_succ] at h
      rw [align_assign_sortorder, List.getElem?_cons_succ, ih (k0 + 1) k ps h,
        show k0 + 1 + k = k0 + (k + 1) from by omega]

theorem length_assign (l : List PanelSort) :
    ∀ k0, (align_assign_sortorder k0 l).length = l.length := by
  induction l with
  | nil => intro k0; rfl
  | cons a rest ih => intro k0; simp [align_assign_sortorder, ih]

/-! ### Lists that are strictly sorted on the sort key -/

theorem take_eq_filter_le (T : List Panel) :
    ∀ (k : Nat) (p : Panel),
      T.Pairwise (fun a b => a.sortorder < b.sortorder) → T[k]? = some p →
      T.take (k + 1) = T.filter (fun a => decide (a.sortorder ≤ p.sortorder)) := by
  induction T with
  | nil => intro k p _ h; simp at h
  | cons a rest ih =>
    intro k p hs h
    rw [List.pairwise_cons] at hs
    cases k with
    | zero =>
      simp only [List.getElem?_cons_zero, Option.some.injEq] at h
      subst h
      have hrest : rest.filter (fun b => decide (b.sortorder ≤ a.sortorder)) = [] := by
        rw [List.filter_eq_nil_iff]
        intro b hb
        have := hs.1 b hb
        simp only [decide_eq_true_eq]
        omega
      rw [List.filter_cons_of_pos (by simp), hrest]
      rfl
    | succ k =>
      simp only [List.getElem?_cons_succ] at h
      have hlt := hs.1 p (List.getElem?_mem h)
      rw [List.take_succ_cons, ih k p hs.2 h,
        List.filter_cons_of_pos (by simp only [decide_eq_true_eq]; omega)]

theorem take_eq_filter_lt (T : List Panel) :
    ∀ (k : Nat) (p : Panel),
      T.Pairwise (fun a b => a.sortorder < b.sortorder) → T[k]? = some p →
      T.take k = T.filter (fun a => decide (a.sortorder < p.sortorder)) := by
  induction T with
  | nil => intro k p _ h; simp at h
  | cons a rest ih =>
    intro k p hs h
    rw [List.pairwise_cons] at hs
    cases k with
    | zero =>
      simp only [List.getElem?_cons_zero, Option.some.injEq] at h
      subst h
      have hrest : rest.filter (fun b => decide (b.sortorder < a.sortorder)) = [] := by
        rw [List.filter_eq_nil_iff]
        intro b hb
        have := hs.1 b hb
        simp only [decide_eq_true_eq]
        omega
      rw [List.filter_cons_of_neg (by simp), hrest]
      rfl
    | succ k =>
      simp only [List.getElem?_cons_succ] at h
      have hlt := hs.1 p (List.getElem?_mem h)
      rw [List.take_succ_cons, ih k p hs.2 h,
        List.filter_cons_of_pos (by simp only [decide_eq_true_eq]; omega)]

/-- The sorted array of the non-drag mode lists the active panels in strictly ascending
order of `sortorder` when no two active panels share a sort key. -/
theorem qsort_strict (panels : List Panel)
    (hnodup : ((panels.filter panel_is_active).map (fun p => p.sortorder)).Nodup) :
    ((qsort compare_panel (align_collect 0 panels)).map (fun ps => ps.panel)).Pairwise
        (fun a b => a.sortorder < b.sortorder) ∧
      ((qsort compare_panel (align_collect 0 panels)).map (fun ps => ps.panel)).Perm
        (panels.filter panel_is_active) := by
  have hperm : ((qsort compare_panel (align_collect 0 panels)).map (fun ps => ps.panel)).Perm
      (panels.filter panel_is_active) := by
    have h1 : ((qsort compare_panel (align_collect 0 panels)).map (fun ps => ps.panel)).Perm
        ((align_collect 0 panels).map (fun ps => ps.panel)) :=
      (List.perm_insertionSort _ _).map _
    rw [collect_map_panel] at h1
    exact h1
  refine ⟨?_, hperm⟩
  have hle : ((qsort compare_panel (align_collect 0 panels)).map (fun ps => ps.panel)).Pairwise
      (fun a b => a.sortorder ≤ b.sortorder) := by
    rw [List.pairwise_map]
    exact qsort_sorted _
  have hne : ((qsort compare_panel (align_collect 0 panels)).map (fun ps => ps.panel)).Pairwise
      (fun a b => a.sortorder ≠ b.sortorder) := by
    have hn := (hperm.map (fun p => p.sortorder)).nodup_iff.mpr hnodup
    unfold List.Nodup at hn
    rw [List.pairwise_map] at hn
    exact hn
  exact (hle.and hne).imp (fun h => lt_of_le_of_ne h.1 h.2)

/-! ### The stack of panels after the align step -/

theorem interpolate_panel_fields (f : Factor) (y : PanelSort) :
    (align_interpolate f y).panel.flag = y.panel.flag ∧
      (align_interpolate f y).panel.sizey = y.panel.sizey ∧
      (align_interpolate f y).panel.type = y.panel.type := by
  rw [interpolate_panel_eq]
  exact ⟨rfl, rfl, rfl⟩

theorem pass_panel_fields (m : Metrics) (x : Panel) :
    (align_sub_panels_pass m x).flag = x.flag ∧ (align_sub_panels_pass m x).sizey = x.sizey ∧
      (align_sub_panels_pass m x).type = x.type := by
  obtain ⟨cs, h⟩ := pass_children m x
  rw [h]
  exact ⟨rfl, rfl, rfl⟩

/-- The element of the array that points to position `i`, in the non-drag mode: where it
stands in the sorted array and what its target is. -/
theorem with_y_position (m : Metrics) (rox : Int) (panels : List Panel) (y : PanelSort)
    (hy : y ∈ align_with_y m rox false panels) :
    ∃ (k : Nat) (p : Panel),
      panels[y.index]? = some p ∧
      ((qsort compare_panel (align_collect 0 panels)).map (fun ps => ps.panel))[k]? = some p ∧
      y.panel = { p with region_ofsx := rox } ∧
      y.new_offset_y =
        if flagTest p.flag PNL_CLOSED = true then
          0 - ((((qsort compare_panel (align_collect 0 panels)).map
            (fun ps => ps.panel)).take (k + 1)).map (align_cost m)).sum - p.sizey
        else
          0 - ((((qsort compare_panel (align_collect 0 panels)).map
            (fun ps => ps.panel)).take (k + 1)).map (align_cost m)).sum := by
  obtain ⟨k, hk⟩ := List.getElem?_of_mem hy
  have hW : align_with_y m rox false panels =
      align_offset_y m 0
        ((qsort compare_panel (align_collect 0 panels)).map (align_offset_x m rox)) := rfl
  rw [hW] at hk
  have hklen : k < (qsort compare_panel (align_collect 0 panels)).length := by
    have h1 := (List.getElem?_eq_some.mp hk).1
    rw [length_offset_y, List.length_map] at h1
    exact h1
  have hs : (qsort compare_panel (align_collect 0 panels))[k]? =
      some ((qsort compare_panel (align_collect 0 panels))[k]) := List.getElem?_eq_getElem hklen
  generalize (qsort compare_panel (align_collect 0 panels))[k] = s at hs
  have hs1 : ((qsort compare_panel (align_collect 0 panels)).map (align_offset_x m rox))[k]? =
      some (align_offset_x m rox s) := by
    rw [List.getElem?_map, hs]
    rfl
  rw [offset_y_getElem m _ 0 k _ hs1] at hk
  have hyeq := (Option.some.inj hk).symm
  have hmem : s ∈ align_collect 0 panels := by
    have := List.getElem?_mem hs
    unfold qsort at this
    exact (List.mem_insertionSort _).mp this
  obtain ⟨j, p, hp, _, hsp⟩ := (collect_spec panels 0 s).mp hmem
  have hcost : (((qsort compare_panel (align_collect 0 panels)).map
      (align_offset_x m rox)).take (k + 1)).map (fun z => align_cost m z.panel) =
      (((qsort compare_panel (align_collect 0 panels)).map
        (fun ps => ps.panel)).take (k + 1)).map (align_cost m) := by
    rw [← List.map_take, ← List.map_take, List.map_map, List.map_map]
    rfl
  refine ⟨k, p, ?_, ?_, ?_, ?_⟩
  · rw [hyeq, hsp]
    simpa [align_offset_x] using hp
  · rw [List.getElem?_map, hs, hsp]
    rfl
  · rw [hyeq, hsp]
    rfl
  · rw [hyeq, hcost, hsp]
    rfl

/-- C23 (counterexample): two open panels of real heights 16777217 and 40 in sort order,
active and not selected. After the align step with factor 1.0 their lower edges are at
-16777216 and -16777256, the nearest `float` values to the targets, and not at -16777217
and -16777257, minus the sums of the real heights. -/
theorem uiAlignPanelStep_stack_off_by_one :
    example_tall.panels.map
        (fun p => (panel_is_active p, flagTest p.flag PNL_SELECT, p.sortorder,
          get_panel_real_size_y example_metrics p, align_cost example_metrics p))
      = [(true, false, 0, 16777217, 16777217), (true, false, 1, 40, 40)] ∧
    (uiAlignPanelStep example_metrics example_tall factor_one false).map
        (fun r => r.2.panels.map get_panel_real_ofsy) = some [-16777216, -16777256] := by
  decide

/-- C23 (amended): after `uiAlignPanelStep` with factor 1.0 in non-drag mode, in a region
whose active panels have pairwise distinct sort keys, for every active top-level panel `p`
that is not selected and whose target offset a `float` holds exactly (less than 2^23 in
magnitude) the real lower edge `get_panel_real_ofsy` is minus the sum, over the active panels
up to and including `p` in ascending `sortorder`, of the real height plus the box margin of
box-style panels; and its upper edge (lower edge plus real height) is minus that sum over the
panels in front of `p`, less the box margin when `p` is box-style: the panels are stacked
from the top down, each starting where the one before it ends. The target offset is minus
the first sum, less `sizey` for a closed panel. -/
theorem uiAlignPanelStep_stacks (m : Metrics) (region : ARegion) (changed : Bool)
    (region1 : ARegion) (i : Nat) (p : Panel)
    (h : uiAlignPanelStep m region factor_one false = some (changed, region1))
    (hnodup : ((region.panels.filter panel_is_active).map (fun a => a.sortorder)).Nodup)
    (hp : region.panels[i]? = some p) (hact : panel_is_active p = true)
    (hsel : flagTest p.flag PNL_SELECT = false)
    (hexact : float_exact
      (-(((region.panels.filter panel_is_active).filter
            (fun a => decide (a.sortorder ≤ p.sortorder))).map (align_cost m)).sum
        - (if flagTest p.flag PNL_CLOSED = true then p.sizey else 0)) = true) :
    ∃ q, region1.panels[i]? = some q ∧
      get_panel_real_ofsy q =
        -(((region.panels.filter panel_is_active).filter
            (fun a => decide (a.sortorder ≤ p.sortorder))).map (align_cost m)).sum ∧
      get_panel_real_ofsy q + get_panel_real_size_y m q =
        -(((region.panels.filter panel_is_active).filter
            (fun a => decide (a.sortorder < p.sortorder))).map (align_cost m)).sum
          - (if p.type_has PNL_DRAW_BOX = true then m.UI_PANEL_BOX_STYLE_MARGIN else 0) := by
  obtain ⟨y, hy, hyi, _, _, hr⟩ := step_active m region factor_one false changed region1 h i p hp hact
  obtain ⟨k, p2, hp2, hk, hyp, hnew⟩ := with_y_position m _ region.panels y hy
  rw [hyi, hp] at hp2
  cases hp2
  obtain ⟨hstrict, hperm⟩ := qsort_strict region.panels hnodup
  have hsely : flagTest y.panel.flag PNL_SELECT = false := by rw [hyp]; exact hsel
  obtain ⟨hf1, hs1, ht1⟩ := interpolate_panel_fields factor_one y
  obtain ⟨hf2, hs2, ht2⟩ := pass_panel_fields m (align_interpolate factor_one y).panel
  have hqflag : (align_sub_panels_pass m (align_interpolate factor_one y).panel).flag = p.flag := by
    rw [hf2, hf1, hyp]
  have hqsizey : (align_sub_panels_pass m (align_interpolate factor_one y).panel).sizey
      = p.sizey := by
    rw [hs2, hs1, hyp]
  have hqtype : (align_sub_panels_pass m (align_interpolate factor_one y).panel).type
      = p.type := by
    rw [ht2, ht1, hyp]
  have hle := take_eq_filter_le _ k p hstrict hk
  have hlt := take_eq_filter_lt _ k p hstrict hk
  have hsumle : (((region.panels.filter panel_is_active).filter
      (fun a => decide (a.sortorder ≤ p.sortorder))).map (align_cost m)).sum =
      ((((qsort compare_panel (align_collect 0 region.panels)).map
        (fun ps => ps.panel)).take (k + 1)).map (align_cost m)).sum := by
    rw [hle]
    exact (((hperm.filter _).map _).sum_eq).symm
  have hexy : float_exact y.new_offset_y = true := by
    have e : y.new_offset_y =
        -(((region.panels.filter panel_is_active).filter
            (fun a => decide (a.sortorder ≤ p.sortorder))).map (align_cost m)).sum
          - (if flagTest p.flag PNL_CLOSED = true then p.sizey else 0) := by
      rw [hnew, hsumle]
      split_ifs <;> omega
    rw [e]
    exact hexact
  have hofsy := interpolate_one_ofsy y hsely hexy
  have hqofsy : (align_sub_panels_pass m (align_interpolate factor_one y).panel).ofsy
      = y.new_offset_y := by
    rw [(pass_fields m _).2.2.2, hofsy]
  have hsumlt : (((region.panels.filter panel_is_active).filter
      (fun a => decide (a.sortorder < p.sortorder))).map (align_cost m)).sum =
      ((((qsort compare_panel (align_collect 0 region.panels)).map
        (fun ps => ps.panel)).take k).map (align_cost m)).sum := by
    rw [hlt]
    exact (((hperm.filter _).map _).sum_eq).symm
  have hsplit : ((((qsort compare_panel (align_collect 0 region.panels)).map
      (fun ps => ps.panel)).take (k + 1)).map (align_cost m)).sum =
      ((((qsort compare_panel (align_collect 0 region.panels)).map
        (fun ps => ps.panel)).take k).map (align_cost m)).sum + align_cost m p := by
    rw [List.take_succ, hk]
    simp
  have hedge : get_panel_real_ofsy (align_sub_panels_pass m (align_interpolate factor_one y).panel)
      = -(((region.panels.filter panel_is_active).filter
          (fun a => decide (a.sortorder ≤ p.sortorder))).map (align_cost m)).sum := by
    unfold get_panel_real_ofsy
    rw [hqflag, hqsizey, hqofsy, hnew, hsumle]
    split_ifs <;> omega
  have hreal : get_panel_real_size_y m
      (align_sub_panels_pass m (align_interpolate factor_one y).panel)
      = get_panel_real_size_y m p := by
    unfold get_panel_real_size_y Panel.type_has
    rw [hqflag, hqsizey, hqtype]
  refine ⟨_, hr, hedge, ?_⟩
  rw [hedge, hreal, hsumle, hsumlt, hsplit]
  unfold align_cost
  split_ifs <;> omega

/-! ### The order of the drag mode -/

theorem find_highest_panel_le (a b : PanelSort) :
    find_highest_panel a b ≤ 0 ↔ highest_first a.panel b.panel := by
  unfold find_highest_panel highest_first
  by_cases ha : a.panel.type_has PNL_NO_HEADER = true
  · simp [ha]
  · by_cases hb : b.panel.type_has PNL_NO_HEADER = true
    · simp [ha, hb]
    · have ha2 : a.panel.type_has PNL_NO_HEADER = false := by simpa using ha
      have hb2 : b.panel.type_has PNL_NO_HEADER = false := by simpa using hb
      simp only [ha2, hb2, Bool.false_eq_true, if_false, false_or, true_and]
      split_ifs <;> constructor <;> intro h <;> omega

theorem highest_first_total (a b : Panel) : highest_first a b ∨ highest_first b a := by
  unfold highest_first
  by_cases ha : a.type_has PNL_NO_HEADER = true
  · exact Or.inl (Or.inl ha)
  · by_cases hb : b.type_has PNL_NO_HEADER = true
    · exact Or.inr (Or.inl hb)
    · have ha2 : a.type_has PNL_NO_HEADER = false := by simpa using ha
      have hb2 : b.type_has PNL_NO_HEADER = false := by simpa using hb
      simp only [ha2, hb2, Bool.false_eq_true, false_or, true_and]
      omega

theorem highest_first_trans (a b c : Panel) (hab : highest_first a b) (hbc : highest_first b c) :
    highest_first a c := by
  unfold highest_first at hab hbc ⊢
  by_cases ha : a.type_has PNL_NO_HEADER = true
  · exact Or.inl ha
  · right
    rcases hab with h | ⟨hb, hab⟩
    · exact absurd h ha
    · rcases hbc with h | ⟨hc, hbc⟩
      · rw [hb] at h
        cases h
      · exact ⟨hc, by omega⟩

/-- The sorted array of the drag mode lists the active panels in the order
`highest_first`. -/
theorem qsort_highest_sorted (l : List PanelSort) :
    List.Pairwise (fun a b : PanelSort => highest_first a.panel b.panel)
      (qsort find_highest_panel l) := by
  haveI : IsTotal PanelSort (fun a b => find_highest_panel a b ≤ 0) :=
    ⟨fun a b => by
      rw [find_highest_panel_le, find_highest_panel_le]
      exact highest_first_total a.panel b.panel⟩
  haveI : IsTrans PanelSort (fun a b => find_highest_panel a b ≤ 0) :=
    ⟨fun a b c hab hbc => by
      rw [find_highest_panel_le] at hab hbc ⊢
      exact highest_first_trans a.panel b.panel c.panel hab hbc⟩
  have hs := List.sorted_insertionSort (fun a b : PanelSort => find_highest_panel a b ≤ 0) l
  unfold qsort
  exact List.Pairwise.imp (fun h => (find_highest_panel_le _ _).mp h) hs

/-- The element of the array that points to position `i`, in the drag mode: its new sort
key is its position in the sorted array. -/
theorem with_y_drag_position (m : Metrics) (rox : Int) (panels : List Panel) (y : PanelSort)
    (hy : y ∈ align_with_y m rox true panels) :
    ∃ (k : Nat) (s : PanelSort),
      (qsort find_highest_panel (align_collect 0 panels))[k]? = some s ∧
      s.index = y.index ∧ panels[y.index]? = some s.panel ∧
      y.panel.sortorder = (k : Int) := by
  obtain ⟨k, hk⟩ := List.getElem?_of_mem hy
  have hW : align_with_y m rox true panels =
      align_offset_y m 0
        ((align_assign_sortorder 0 (qsort find_highest_panel (align_collect 0 panels))).map
          (align_offset_x m rox)) := rfl
  rw [hW] at hk
  have hklen : k < (qsort find_highest_panel (align_collect 0 panels)).length := by
    have h1 := (List.getElem?_eq_some.mp hk).1
    rw [length_offset_y, List.length_map, length_assign] at h1
    exact h1
  have hs : (qsort find_highest_panel (align_collect 0 panels))[k]? =
      some ((qsort find_highest_panel (align_collect 0 panels))[k]) :=
    List.getElem?_eq_getElem hklen
  generalize (qsort find_highest_panel (align_collect 0 panels))[k] = s at hs
  have hs1 : ((align_assign_sortorder 0 (qsort find_highest_panel (align_collect 0 panels))).map
      (align_offset_x m rox))[k]? =
      some (align_offset_x m rox
        { s with panel := { s.panel with sortorder := ((0 + k : Nat) : Int) } }) := by
    rw [List.getElem?_map, assign_getElem _ 0 k s hs]
    rfl
  rw [offset_y_getElem m _ 0 k _ hs1] at hk
  have hyeq := (Option.some.inj hk).symm
  have hmem : s ∈ align_collect 0 panels := by
    have := List.getElem?_mem hs
    unfold qsort at this
    exact (List.mem_insertionSort _).mp this
  obtain ⟨j, p, hp, _, hsp⟩ := (collect_spec panels 0 s).mp hmem
  refine ⟨k, s, hs, ?_, ?_, ?_⟩
  · rw [hyeq]
    rfl
  · rw [hyeq, hsp]
    simpa [align_offset_x] using hp
  · rw [hyeq]
    simp [align_offset_x]

/-- What the drag mode leaves at the position of an active panel: the new sort key is the
position, in the sorted array, of the element that points to the panel. -/
theorem step_drag_position (m : Metrics) (region : ARegion) (f : Factor) (changed : Bool)
    (region1 : ARegion) (h : uiAlignPanelStep m region f true = some (changed, region1))
    (i : Nat) (p : Panel) (hp : region.panels[i]? = some p)
    (hact : panel_is_active p = true) :
    ∃ (q : Panel) (k : Nat) (s : PanelSort),
      region1.panels[i]? = some q ∧ q.sortorder = (k : Int) ∧
      (qsort find_highest_panel (align_collect 0 region.panels))[k]? = some s ∧
      s.index = i ∧ s.panel = p := by
  obtain ⟨y, hy, hyi, _, _, hr⟩ := step_active m region f true changed region1 h i p hp hact
  obtain ⟨k, s, hs, hsi, hsp, hk⟩ := with_y_drag_position m _ region.panels y hy
  rw [hyi, hp] at hsp
  refine ⟨_, k, s, hr, ?_, hs, by rw [hsi, hyi], (Option.some.inj hsp).symm⟩
  rw [(pass_fields m _).1, (interpolate_fields f y).1, hk]

/-- C24 (counterexample): two header-bearing panels, the first with its lower edge at 0 and
its upper edge at 10, the second with its lower edge at -5 and its upper edge at 95. The
drag mode numbers the second panel 0 and the first panel 1: it sorts on the upper edge. -/
theorem uiAlignPanelStep_drag_sorts_on_upper_edge :
    example_edges.panels.map (fun p => (p.ofsy, p.ofsy + p.sizey, p.sortorder))
        = [(0, 10, 0), (-5, 95, 1)] ∧
      (uiAlignPanelStep example_metrics example_edges factor_one true).map
          (fun r => r.2.panels.map (fun p => p.sortorder)) = some [1, 0] := by
  decide

/-- C24 (amended): in drag mode `uiAlignPanelStep` assigns the sort keys 0..n-1 to the n
active top-level panels (each key lies in that range and no two active panels share one) in
this order: headerless panels first, then the header-bearing panels in descending order of
their upper edge `ofsy + sizey`, ties broken by the previous `sortorder`. -/
theorem uiAlignPanelStep_drag_order (m : Metrics) (region : ARegion) (factor : Factor)
    (changed : Bool) (region1 : ARegion)
    (h : uiAlignPanelStep m region factor true = some (changed, region1)) :
    (∀ (i : Nat) (p : Panel), region.panels[i]? = some p → panel_is_active p = true →
        ∃ q, region1.panels[i]? = some q ∧ 0 ≤ q.sortorder ∧
          q.sortorder < ((region.panels.filter panel_is_active).length : Int)) ∧
      (∀ (i j : Nat) (p p1 q q1 : Panel), region.panels[i]? = some p →
        region.panels[j]? = some p1 → region1.panels[i]? = some q →
        region1.panels[j]? = some q1 → panel_is_active p = true → panel_is_active p1 = true →
        (i ≠ j → q.sortorder ≠ q1.sortorder) ∧
          (q.sortorder < q1.sortorder → highest_first p p1)) := by
  have hlen : (qsort find_highest_panel (align_collect 0 region.panels)).length =
      (region.panels.filter panel_is_active).length := by
    unfold qsort
    rw [List.length_insertionSort]
    have h1 := congrArg List.length (collect_map_panel region.panels 0)
    rw [List.length_map] at h1
    exact h1
  constructor
  · intro i p hp hact
    obtain ⟨q, k, s, hq, hqk, hs, _, _⟩ :=
      step_drag_position m region factor changed region1 h i p hp hact
    have hk := (List.getElem?_eq_some.mp hs).1
    rw [hlen] at hk
    exact ⟨q, hq, by omega, by omega⟩
  · intro i j p p1 q q1 hp hp1 hq hq1 hact hact1
    obtain ⟨q2, k, s, hq2, hqk, hs, hsi, hsp⟩ :=
      step_drag_position m region factor changed region1 h i p hp hact
    obtain ⟨q3, k1, s1, hq3, hqk1, hs1, hsi1, hsp1⟩ :=
      step_drag_position m region factor changed region1 h j p1 hp1 hact1
    rw [hq] at hq2
    rw [hq1] at hq3
    have e2 := Option.some.inj hq2
    have e3 := Option.some.inj hq3
    rw [e2, e3, hqk, hqk1]
    constructor
    · intro hij heq
      have hkk : k = k1 := by omega
      rw [hkk, hs1] at hs
      have hss := Option.some.inj hs
      apply hij
      rw [← hsi, ← hsi1, hss]
    · intro hlt
      have hkk : k < k1 := by omega
      obtain ⟨hk, hsk⟩ := List.getElem?_eq_some.mp hs
      obtain ⟨hk1, hsk1⟩ := List.getElem?_eq_some.mp hs1
      have hR := List.pairwise_iff_getElem.mp
        (qsort_highest_sorted (align_collect 0 region.panels)) k k1 hk hk1 hkk
      rw [hsk, hsk1, hsp, hsp1] at hR
      exact hR

/-! ### Instances, third part -/

/-- C21 (instance): the tabs A, B, C with C active; Control+Tab makes A the active one. -/
theorem category_ctrl_tab_cycles_witness :
    (UI_panel_category_active_get example_categories false).1 = some "C" ∧
      (UI_panel_category_active_get
        (ui_handle_panel_category_cycling example_ctrl_tab example_categories false).2
        false).1 = some "A" :=
  ⟨by decide,
    (category_ctrl_tab_cycles example_ctrl_tab example_categories "C" 2 rfl (by decide)
      (by decide)).2.1 rfl rfl { idname := "A", rect_xmin := 0, rect_xmax := 20 } rfl⟩

/-- C23 (amended, instance): the second of the three panels of `example_three`, of real
height 120 below a panel of real height 40; its target offset is -160. -/
theorem uiAlignPanelStep_stacks_witness :
    uiAlignPanelStep example_metrics example_three factor_one false
        = some (true, example_three_aligned) ∧
      ∃ q, example_three_aligned.panels[1]? = some q ∧
        get_panel_real_ofsy q =
          -(((example_three.panels.filter panel_is_active).filter
              (fun a => decide (a.sortorder ≤ (example_panel 2 (plain_type "b") 1 100).sortorder))).map
            (align_cost example_metrics)).sum ∧
        get_panel_real_ofsy q + get_panel_real_size_y example_metrics q =
          -(((example_three.panels.filter panel_is_active).filter
              (fun a => decide (a.sortorder < (example_panel 2 (plain_type "b") 1 100).sortorder))).map
            (align_cost example_metrics)).sum
            - (if (example_panel 2 (plain_type "b") 1 100).type_has PNL_DRAW_BOX = true then
                example_metrics.UI_PANEL_BOX_STYLE_MARGIN else 0) :=
  ⟨rfl,
    uiAlignPanelStep_stacks example_metrics example_three true example_three_aligned 1
      (example_panel 2 (plain_type "b") 1 100) rfl (by decide) rfl (by decide) (by decide)
      (by decide)⟩

/-- C24 (amended, instance): the first of the three panels of `example_three` in drag
mode. -/
theorem uiAlignPanelStep_drag_order_witness :
    uiAlignPanelStep example_metrics example_three factor_one true
        = some (true, example_three_dragged) ∧
      ∃ q, example_three_dragged.panels[0]? = some q ∧ 0 ≤ q.sortorder ∧
        q.sortorder < ((example_three.panels.filter panel_is_active).length : Int) :=
  ⟨rfl,
    (uiAlignPanelStep_drag_order example_metrics example_three factor_one true
      example_three_dragged rfl).1 0 (example_panel 1 (plain_type "a") 0 20) rfl (by decide)⟩

/-- C25 (instance): a click with the control key on the header of an open panel with one
open sub-panel. -/
theorem ui_handle_panel_header_ctrl_descendants_witness :
    ∃ C1 region1 q,
      ui_handle_panel_header example_metrics example_context example_with_child 200 (0, 0) [0]
          10 EventType.LEFTMOUSE true false = some (C1, region1) ∧
      panel_at region1.panels [0] = some q ∧
      ∀ d ∈ panel_subtree_children q.children,
        flagTest d.flag PNL_CLOSED =
          !flagTest (example_panel 2 (plain_type "sub") 0 20).flag PNL_CLOSED :=
  ui_handle_panel_header_ctrl_descendants example_metrics example_context example_with_child
    200 (0, 0) [0] 10 EventType.LEFTMOUSE false
    { example_panel 1 (plain_type "a") 0 20 with
      children := [example_panel 2 (plain_type "sub") 0 20] }
    (plain_type "a") (example_panel 2 (plain_type "sub") 0 20) [] rfl rfl rfl (by decide)
    (by decide) (by decide) rfl

/-- C26 (amended, instance): the same click; the panel itself is open afterwards. -/
theorem ui_handle_panel_header_ctrl_parent_open_witness :
    ∃ C1 region1 q,
      ui_handle_panel_header example_metrics example_context example_with_child 200 (0, 0) [0]
          10 EventType.LEFTMOUSE true false = some (C1, region1) ∧
      panel_at region1.panels [0] = some q ∧ flagTest q.flag PNL_CLOSED = false :=
  ui_handle_panel_header_ctrl_parent_open example_metrics example_context example_with_child
    200 (0, 0) [0] 10 EventType.LEFTMOUSE false
    { example_panel 1 (plain_type "a") 0 20 with
      children := [example_panel 2 (plain_type "sub") 0 20] }
    (plain_type "a") (example_panel 2 (plain_type "sub") 0 20) [] rfl rfl rfl (by decide)
    (by decide) (by decide) rfl

/-- C27 (instance): a click with the control key on the header of the first of the three
panels of `example_three`, which has no children; the region has no tabs. -/
theorem ui_handle_panel_header_ctrl_solo_witness :
    UI_panel_category_is_visible example_three = false ∧
      ∃ C1 region1,
        ui_handle_panel_header example_metrics example_context example_three 200 (0, 0) [0] 10
            EventType.LEFTMOUSE true false = some (C1, region1) ∧
        ∃ q, region1.panels[0]? = some q ∧ flagTest q.flag PNL_CLOSED = false :=
  ⟨by decide,
    (ui_handle_panel_header_ctrl_solo example_metrics example_context example_three 200 (0, 0)
      0 10 EventType.LEFTMOUSE false (example_panel 1 (plain_type "a") 0 20) (plain_type "a")
      rfl rfl rfl (by decide) (by decide) (by decide) (Or.inr rfl)).elim
      (fun C1 h1 => h1.elim (fun region1 h2 => ⟨C1, region1, h2.1, h2.2.1⟩))⟩

/-- C30 (instance): the panel `example_ended`, of block height 100 and total height 150, with
an active sub-panel of real height 50 and an inactive sub-panel. -/
theorem align_sub_panels_tiles_witness :
    example_ended.sizey = example_ended.blocksizey +
        ((example_ended.children.filter panel_is_active).map
          (get_panel_real_size_y example_metrics)).sum ∧
      (align_sub_panels example_metrics example_ended).children.length
        = example_ended.children.length ∧
      (align_sub_panels example_metrics example_ended).children.map get_panel_real_ofsy
        = [example_ended.ofsy, 0] :=
  ⟨by decide, (align_sub_panels_tiles example_metrics example_ended (by decide)).1, by decide⟩

/-! ### A second align step -/

/-- C4 (counterexample): two open panels of real heights 16777217 and 40, with a type and
the sort keys 0 and 1. The non-drag align step with factor 1.0 puts them at -16777216 and
-16777256, the nearest `float` values to their targets -16777217 and -16777257; a second
such step finds both panels off their targets, leaves them where they are and returns
true. -/
theorem uiAlignPanelStep_second_step_returns_true :
    example_tall.panels.map
        (fun p => (p.type.isSome, p.sortorder, get_panel_real_size_y example_metrics p))
      = [(true, 0, 16777217), (true, 1, 40)] ∧
    uiAlignPanelStep example_metrics example_tall factor_one false
      = some (true, example_tall_aligned) ∧
    uiAlignPanelStep example_metrics example_tall_aligned factor_one false
      = some (true, example_tall_aligned) ∧
    example_tall_aligned.panels.map (fun p => p.ofsy) = [-16777216, -16777256] :=
  ⟨by decide, rfl, rfl, by decide⟩

/-- C4 (amended): for a region whose active top-level panels all have a type (and pairwise
distinct sort keys) and whose target offsets a `float` holds exactly (less than 2^23 in
magnitude, for the panels that are not selected), a non-drag align step with factor 1.0
returns a region on which a second such step changes nothing at all, no offset of any panel
or sub-panel, and returns false. -/
theorem uiAlignPanelStep_factor_one_idempotent (m : Metrics) (region : ARegion)
    (htype : ∀ p ∈ region.panels,
      flagTest p.runtime_flag PANEL_ACTIVE = true → p.type.isSome = true)
    (_hsort : ((region.panels.filter
      (fun p => flagTest p.runtime_flag PANEL_ACTIVE)).map (fun p => p.sortorder)).Nodup)
    (hexact : align_targets_exact m region false = true) :
    ∃ changed region1,
      uiAlignPanelStep m region factor_one false = some (changed, region1) ∧
        uiAlignPanelStep m region1 factor_one false = some (false, region1) :=
  step_twice m region htype (fun y hy hs => targets_exact_mem m region false hexact y hy hs)

/-- C4 (amended, instance): the region of `example_three`, with the targets -40, -160 and
-220. -/
theorem uiAlignPanelStep_factor_one_idempotent_witness :
    ((example_three.panels.filter
        (fun p => flagTest p.runtime_flag PANEL_ACTIVE)).map (fun p => p.sortorder)).Nodup ∧
      align_targets_exact example_metrics example_three false = true ∧
      ∃ changed region1,
        uiAlignPanelStep example_metrics example_three factor_one false
            = some (changed, region1) ∧
          uiAlignPanelStep example_metrics region1 factor_one false = some (false, region1) :=
  ⟨by decide, by decide,
    uiAlignPanelStep_factor_one_idempotent example_metrics example_three (by decide) (by decide)
      (by decide)⟩

end UIPanel
